import Mathlib

/-!
# Dynamic-Malloc (`mm.c`): explicit free list allocator

A shallow embedding of `src/mm.c` and the properties claimed about it.

Conventions of the embedding

* The program is modelled as built for a 32-bit target (the target the
  assignment is compiled for): `unsigned int`, `size_t`, `int` and pointers are
  32 bits wide, so every pointer and size computation is taken modulo `2^32`.
* The arena is byte addressed.  `GET`/`PUT` move one 4-byte little-endian word.
* A load or store that is not inside the arena `[mem_heap_lo, mem_brk)` has no
  defined behaviour in C; the embedding returns `none` for it, and every
  function of the allocator is a function into `Option`.
* The global variables `freel_head` and `heap_listp` and the state of the
  arena host (`memlib`) are fields of the state record `Heap`.
-/

namespace MM

/-! ## Machine arithmetic -/

/-- Pointer (and `size_t`) addition, modulo `2^32`. -/
def padd (a b : Nat) : Nat := (a + b) % 4294967296

/-- Pointer (and `size_t`) subtraction, modulo `2^32`. -/
def psub (a b : Nat) : Nat := (a + (4294967296 - b % 4294967296)) % 4294967296

/-- Word and header/footer size in bytes, `#define WSIZE 4`. -/
def WSIZE : Nat := 4

/-- Doubleword size in bytes, `#define DSIZE 8`. -/
def DSIZE : Nat := 8

/-- Pack a size and allocated bit into a word,
`#define PACK(size, alloc) ((size) | (alloc))`. -/
def PACK (size alloc : Nat) : Nat := size ||| alloc

/-- The macro `#define CALC_ALIGN(p) (((size_t)(p) + (7)) & ~(0x7))`, in 32-bit
`size_t`. -/
def CALC_ALIGN (p : Nat) : Nat := ((p + 7) % 4294967296) &&& 4294967288

/-! ## The arena and the allocator state -/

/-- The state the allocator runs on: the bytes of memory, the three values
kept by the arena host, and the two global variables of `mm.c`. -/
structure Heap where
  /-- the byte stored at each address -/
  mem : Nat → Nat
  /-- lowest address of the arena (`mem_heap_lo()`) -/
  mem_start_brk : Nat
  /-- one past the highest valid byte of the arena (`mem_heap_hi() + 1`) -/
  mem_brk : Nat
  /-- one past the last byte the arena may ever grow to -/
  mem_max_addr : Nat
  /-- head of the free list, `void *freel_head` -/
  freel_head : Nat
  /-- pointer to the first block, `static char *heap_listp` -/
  heap_listp : Nat

/-- The little-endian 4-byte word stored at address `a`. -/
def rdw (m : Nat → Nat) (a : Nat) : Nat :=
  m a % 256 + 256 * (m (a + 1) % 256) + 65536 * (m (a + 2) % 256)
    + 16777216 * (m (a + 3) % 256)

/-- Memory after storing the 4-byte word `v` at address `a`. -/
def wrw (m : Nat → Nat) (a v : Nat) : Nat → Nat := fun x =>
  if x = a then v % 256
  else if x = a + 1 then v / 256 % 256
  else if x = a + 2 then v / 65536 % 256
  else if x = a + 3 then v / 16777216 % 256
  else m x

/-- The `n` bytes at `a` lie inside the arena. -/
@[reducible] def inArena (s : Heap) (a n : Nat) : Prop :=
  s.mem_start_brk ≤ a ∧ a + n ≤ s.mem_brk

/-- Read a word at pointer `p`, `#define GET(p) (*(unsigned int *)(p))`. -/
def GET (s : Heap) (p : Nat) : Option Nat :=
  if inArena s p 4 then some (rdw s.mem p) else none

/-- Write a word at pointer `p`,
`#define PUT(p, val) (*(unsigned int *)(p) = (val))`. -/
def PUT (s : Heap) (p val : Nat) : Option Heap :=
  if inArena s p 4 then some { s with mem := wrw s.mem p val } else none

/-- The size field of the word at `p`, `#define GET_SIZE(p) (GET(p) & ~0x7)`. -/
def GET_SIZE (s : Heap) (p : Nat) : Option Nat :=
  (GET s p).map fun w => w &&& 4294967288

/-- The allocated bit of the word at `p`, `#define GET_ALLOC(p) (GET(p) & 0x1)`. -/
def GET_ALLOC (s : Heap) (p : Nat) : Option Nat :=
  (GET s p).map fun w => w &&& 1

/-- Header address of block `bp`, `#define HDRP(bp) (bp - WSIZE)`. -/
def HDRP (bp : Nat) : Nat := psub bp WSIZE

/-- Footer address of block `bp`, `#define FTRP(bp) (bp + GET_SIZE(HDRP(bp)))`. -/
def FTRP (s : Heap) (bp : Nat) : Option Nat :=
  (GET_SIZE s (HDRP bp)).map fun sz => padd bp sz

/-- Next block,
`#define NEXT_BLKP(bp) ((bp) + GET_SIZE(HDRP(bp)) + 2*WSIZE)`. -/
def NEXT_BLKP (s : Heap) (bp : Nat) : Option Nat :=
  (GET_SIZE s (HDRP bp)).map fun sz => padd (padd bp sz) (2 * WSIZE)

/-- Previous block,
`#define PREV_BLKP(bp) (bp - GET_SIZE(bp-DSIZE) - 2*WSIZE)`. -/
def PREV_BLKP (s : Heap) (bp : Nat) : Option Nat :=
  (GET_SIZE s (psub bp DSIZE)).map fun sz => psub (psub bp sz) (2 * WSIZE)

/-- Next-free link of `bp`, `#define GET_NXT(bp) (*(void **)(bp + DSIZE))`. -/
def GET_NXT (s : Heap) (bp : Nat) : Option Nat := GET s (padd bp DSIZE)

/-- Previous-free link of `bp`, `#define GET_PRV(bp) (*(void **)bp)`. -/
def GET_PRV (s : Heap) (bp : Nat) : Option Nat := GET s bp

/-- Store the next-free link, `#define SET_NXT(bp, ptr) (GET_NXT(bp) = ptr)`. -/
def SET_NXT (s : Heap) (bp ptr : Nat) : Option Heap := PUT s (padd bp DSIZE) ptr

/-- Store the previous-free link, `#define SET_PRV(bp, ptr) (GET_PRV(bp) = ptr)`. -/
def SET_PRV (s : Heap) (bp ptr : Nat) : Option Heap := PUT s bp ptr

/-! ## The arena host (`memlib`) -/

/-- The value `(void *)-1`, the failure result of `mem_sbrk`. -/
def SBRK_FAIL : Nat := 4294967295

/-- Modelled from the spec: `mem_sbrk` of the arena host (`memlib`, not part of
the sources).  "`arena_extend(n)` returns the old top, then grows the arena by
`n` bytes; `FAIL` is a sentinel, e.g. −1 cast to pointer", and it fails "on
exhaustion", that is when the arena would grow past `mem_max_addr`. -/
def mem_sbrk (s : Heap) (incr : Nat) : Nat × Heap :=
  if s.mem_brk + incr ≤ s.mem_max_addr then
    (s.mem_brk, { s with mem_brk := s.mem_brk + incr })
  else (SBRK_FAIL, s)

/-- Modelled from the spec: `mem_heap_lo` of the arena host, "query the lowest
byte address". -/
def mem_heap_lo (s : Heap) : Nat := s.mem_start_brk

/-- Modelled from the spec: `mem_heap_hi` of the arena host, "address of the
highest currently valid byte". -/
def mem_heap_hi (s : Heap) : Nat := s.mem_brk - 1

/-! ## The allocator -/

/-- The function `extend_heap`: `p = mem_sbrk(asize + 2*WSIZE); return p;`. -/
def extend_heap (s : Heap) (asize : Nat) : Nat × Heap :=
  mem_sbrk s (padd asize (2 * WSIZE))

/-- The function `freel_insert`: push `ptr` at the head of the free list. -/
def freel_insert (s : Heap) (ptr : Nat) : Option Heap := do
  let head := s.freel_head
  let s1 ← SET_NXT s ptr head
  let s2 ← SET_PRV s1 ptr 0
  let s3 ← if head ≠ 0 then SET_PRV s2 head ptr else some s2
  some { s3 with freel_head := ptr }

/-- The function `freel_remove`: unlink `ptr` from the free list. -/
def freel_remove (s : Heap) (ptr : Nat) : Option Heap := do
  let next ← GET_NXT s ptr
  let prev ← GET_PRV s ptr
  if prev = 0 then
    let s1 := { s with freel_head := next }
    if next ≠ 0 then SET_PRV s1 next 0 else some s1
  else
    let s1 ← SET_NXT s prev next
    if next ≠ 0 then SET_PRV s1 next prev else some s1

/-- The function `split_n_place`: shrink the free block `ptr` in place and carve an
allocated block of `newsize` bytes from its tail. -/
def split_n_place (s : Heap) (ptr newsize : Nat) : Option (Nat × Heap) := do
  let sz ← GET_SIZE s (HDRP ptr)
  let new_fsize := psub (psub sz newsize) (2 * WSIZE)
  let s1 ← PUT s (HDRP ptr) (PACK new_fsize 0)
  let f ← FTRP s1 ptr
  let s2 ← PUT s1 f (PACK new_fsize 0)
  let p ← NEXT_BLKP s2 ptr
  let s3 ← PUT s2 (HDRP p) (PACK newsize 1)
  let fp ← FTRP s3 p
  let s4 ← PUT s3 fp (PACK newsize 1)
  some (p, s4)

/-- The `while (freel_ptr != NULL && i < 300)` loop of `find_fit`; the first
argument counts the probes that remain (`300 - i`).  The result is `some none`
when the loop ends without a fit, `some (some (p, s'))` when it returns `p`
from inside the loop. -/
def find_fit_loop (s : Heap) (asize : Nat) : Nat → Nat → Option (Option (Nat × Heap))
  | 0, _ => some none
  | fuel + 1, freel_ptr =>
    if freel_ptr = 0 then some none
    else do
      let tempsize ← GET_SIZE s (HDRP freel_ptr)
      if tempsize ≥ asize then
        if tempsize ≥ padd asize 32 then
          let r ← split_n_place s freel_ptr asize
          some (some r)
        else
          let s1 ← freel_remove s freel_ptr
          let s2 ← PUT s1 (HDRP freel_ptr) (PACK tempsize 1)
          let f ← FTRP s2 freel_ptr
          let s3 ← PUT s2 f (PACK tempsize 1)
          some (some (freel_ptr, s3))
      else
        let nxt ← GET_NXT s freel_ptr
        find_fit_loop s asize fuel nxt

/-- The function `find_fit`: bounded first fit over the free list, then arena extension. -/
def find_fit (s : Heap) (freel_ptr asize : Nat) : Option (Nat × Heap) := do
  match ← find_fit_loop s asize 300 freel_ptr with
  | some r => some r
  | none =>
    let (p, s1) := extend_heap s asize
    if p = SBRK_FAIL then some (0, s1)
    else
      let s2 ← PUT s1 (HDRP p) (PACK asize 1)
      let f ← FTRP s2 p
      let s3 ← PUT s2 f (PACK asize 1)
      let f2 ← FTRP s3 p
      let s4 ← PUT s3 (padd f2 WSIZE) (PACK 0 1)
      some (p, s4)

/-- The adjusted size `asize` that `mm_malloc` computes for a request of
`size` bytes: `if (size <= 4*DSIZE) asize = 4*DSIZE; else
asize = CALC_ALIGN(size) + 128;`, in 32-bit `unsigned int`. -/
def adjusted_size (size : Nat) : Nat :=
  if size ≤ 4 * DSIZE then 4 * DSIZE else padd (CALC_ALIGN size) 128

/-- The function `mm_malloc`. -/
def mm_malloc (s : Heap) (size : Nat) : Option (Nat × Heap) :=
  if size = 0 then some (0, s)
  else find_fit s s.freel_head (adjusted_size size)

/-- The function `mm_init`: returns `0` on success and `-1` when the arena cannot grow. -/
def mm_init (s : Heap) : Option (Int × Heap) := do
  let s0 := { s with freel_head := 0 }
  let (heap_bottom, s1) := extend_heap s0 0
  if heap_bottom = SBRK_FAIL then some (-1, s1)
  else
    let s2 := { s1 with heap_listp := padd heap_bottom (2 * WSIZE) }
    let s3 ← PUT s2 heap_bottom (PACK 0 1)
    let s4 ← PUT s3 (padd heap_bottom WSIZE) (PACK 0 1)
    some (0, s4)

/-- The function `coalesce`: boundary-tag coalescing of the newly freed block `ptr`. -/
def coalesce (s : Heap) (ptr : Nat) : Option Heap := do
  let f ← FTRP s ptr
  let next_alloc_status ← GET_ALLOC s (padd f WSIZE)
  let prev_alloc_status ← GET_ALLOC s (psub ptr DSIZE)
  let size ← GET_SIZE s (HDRP ptr)
  if prev_alloc_status ≠ 0 ∧ next_alloc_status ≠ 0 then
    freel_insert s ptr
  else if prev_alloc_status = 0 ∧ next_alloc_status ≠ 0 then
    let ptr ← PREV_BLKP s ptr
    let psz ← GET_SIZE s (HDRP ptr)
    let size := padd size (padd psz (2 * WSIZE))
    let s1 ← PUT s (HDRP ptr) (PACK size 0)
    let f1 ← FTRP s1 ptr
    PUT s1 f1 (PACK size 0)
  else if prev_alloc_status ≠ 0 ∧ next_alloc_status = 0 then
    let nb ← NEXT_BLKP s ptr
    let nsz ← GET_SIZE s (HDRP nb)
    let size := padd size (padd nsz (2 * WSIZE))
    let s1 ← freel_remove s nb
    let s2 ← PUT s1 (HDRP ptr) (PACK size 0)
    let f2 ← FTRP s2 ptr
    let s3 ← PUT s2 f2 (PACK size 0)
    freel_insert s3 ptr
  else
    let prev ← PREV_BLKP s ptr
    let next ← NEXT_BLKP s ptr
    let psz ← GET_SIZE s (HDRP prev)
    let nsz ← GET_SIZE s (HDRP next)
    let size := padd size (padd (padd psz nsz) (4 * WSIZE))
    let s1 ← PUT s (HDRP prev) (PACK size 0)
    let f1 ← FTRP s1 prev
    let s2 ← PUT s1 f1 (PACK size 0)
    freel_remove s2 next

/-- The function `mm_free`.  The header of `bp` is read before `bp` is compared with `0`. -/
def mm_free (s : Heap) (bp : Nat) : Option Heap := do
  let size ← GET_SIZE s (HDRP bp)
  if bp = 0 then some s
  else
    let s1 ← PUT s (HDRP bp) (PACK size 0)
    let f ← FTRP s1 bp
    let s2 ← PUT s1 f (PACK size 0)
    if s2.freel_head ≠ 0 then coalesce s2 bp else freel_insert s2 bp

/-- The library call `memcpy(dst, src, n)`: both ranges must lie in the arena and must not
overlap. -/
def memcpy (s : Heap) (dst src n : Nat) : Option Heap :=
  if inArena s dst n ∧ inArena s src n ∧ (n = 0 ∨ dst + n ≤ src ∨ src + n ≤ dst) then
    some { s with mem := fun x =>
      if dst ≤ x ∧ x < dst + n then s.mem (src + (x - dst)) else s.mem x }
  else none

/-- The function `mm_realloc`.  The header of `bp` is read first, before either `size` or
`bp` is compared with `0`. -/
def mm_realloc (s : Heap) (bp size : Nat) : Option (Nat × Heap) := do
  let oldsize ← GET_SIZE s (HDRP bp)
  if size = 0 then
    let s1 ← mm_free s bp
    some (0, s1)
  else if size ≤ oldsize then some (bp, s)
  else if bp = 0 then mm_malloc s size
  else
    let temp := CALC_ALIGN size
    let nb ← NEXT_BLKP s bp
    let nalloc ← GET_ALLOC s (HDRP nb)
    let nsz ← GET_SIZE s (HDRP nb)
    if nalloc = 0 ∧ psub temp oldsize ≤ nsz then
      let cur ← GET_SIZE s (HDRP bp)
      let temp := padd (padd nsz cur) 8
      let s1 ← freel_remove s nb
      let s2 ← PUT s1 (HDRP bp) (PACK temp 1)
      let f ← FTRP s2 bp
      let s3 ← PUT s2 f (PACK temp 1)
      some (bp, s3)
    else
      let (newptr, s1) ← mm_malloc s size
      if newptr = 0 then some (0, s1)
      else
        let oldsize ← GET_SIZE s1 (HDRP bp)
        let oldsize := if size < oldsize then size else oldsize
        let s2 ← memcpy s1 newptr bp oldsize
        let s3 ← mm_free s2 bp
        some (newptr, s3)

/-! ## The consistency checker

What `checkheap` and `printblock` print is modelled as a list of `Line`s, one
for each call of `printf`.  The loops of the checker have no bound in `mm.c`;
each loop function below takes the number of iterations it may still run as its
first argument and has no result (`none`) when that number is used up. -/

/-- The lines the checker can print. -/
inductive Line where
  /-- the line `Heap (%p):` -/
  | heap (p : Nat)
  /-- the line `Bad prologue header` -/
  | bad_prologue
  /-- the line `Error: %p is not doubleword chk_align` -/
  | not_aligned (bp : Nat)
  /-- the line `Error: header does not match footer` -/
  | header_footer_mismatch
  /-- the line `Bad epilogue header` -/
  | bad_epilogue
  /-- the line `There is at least one block in the free list which is marked as Allocated` -/
  | allocated_in_free_list
  /-- the line `There were blocks found which were not properly coalesced.` -/
  | not_properly_coalesced
  /-- the line `There is at least one free block which is not included in the free list` -/
  | free_block_not_in_list
  /-- the line `There is at least one allocated block in the heap that overlaps
  with another allocated block.` -/
  | blocks_overlap
  /-- the line `There is at least one pointer int the heap which points to an
  address outside the heap.` -/
  | pointer_outside_heap
  /-- the line `%p: end of heap` -/
  | end_of_heap (bp : Nat)
  /-- the line `%p: header: [%zu:%c] footer: [%zu:%c]` -/
  | block (bp hsize halloc fsize falloc : Nat)
  deriving DecidableEq

/-- The conversion `(int)p` of a 32-bit pointer. -/
def to_int (p : Nat) : Int :=
  if p % 4294967296 < 2147483648 then (p % 4294967296 : Nat)
  else ((p % 4294967296 : Nat) : Int) - 4294967296

/-- The loop of `is_free`: is every block in the free list marked as free? -/
def is_free_loop (s : Heap) : Nat → Nat → Option Nat
  | 0, _ => none
  | fuel + 1, freel_ptr =>
    if freel_ptr = 0 then some 0
    else do
      let ha ← GET_ALLOC s (HDRP freel_ptr)
      if ha = 1 then some 1
      else
        let f ← FTRP s freel_ptr
        let fa ← GET_ALLOC s f
        if fa = 1 then some 1
        else
          let nxt ← GET_NXT s freel_ptr
          is_free_loop s fuel nxt

/-- The function `is_free` (heap consistency check 1). -/
def is_free (s : Heap) (fuel : Nat) : Option Nat := is_free_loop s fuel s.freel_head

/-- The loop of `not_coalesced`: are there contiguous free blocks that escaped
coalescing? -/
def not_coalesced_loop (s : Heap) : Nat → Nat → Option Nat
  | 0, _ => none
  | fuel + 1, p =>
    if p = 0 then some 0
    else do
      let nb ← NEXT_BLKP s p
      let na ← GET_ALLOC s (HDRP nb)
      if na = 0 then some 1
      else
        let nxt ← GET_NXT s p
        not_coalesced_loop s fuel nxt

/-- The function `not_coalesced` (heap consistency check 2). -/
def not_coalesced (s : Heap) (fuel : Nat) : Option Nat :=
  not_coalesced_loop s fuel s.freel_head

/-- The loop of `in_free_list`: is every free block actually in the free list? -/
def in_free_list_loop (s : Heap) : Nat → Nat → Option Nat
  | 0, _ => none
  | fuel + 1, p => do
    let sz ← GET_SIZE s (HDRP p)
    if sz > 0 then
      let al ← GET_ALLOC s (HDRP p)
      let found ←
        if al = 0 then do
          let prv ← GET_PRV s p
          if prv = 0 then
            let nxt ← GET_NXT s p
            some (decide (nxt = 0))
          else some false
        else some false
      if found then some 1
      else
        let nb ← NEXT_BLKP s p
        in_free_list_loop s fuel nb
    else some 0

/-- The function `in_free_list` (heap consistency check 3). -/
def in_free_list (s : Heap) (fuel : Nat) : Option Nat :=
  in_free_list_loop s fuel s.heap_listp

/-- The loop of `overlap`: do any allocated blocks overlap? -/
def overlap_loop (s : Heap) : Nat → Nat → Option Nat
  | 0, _ => none
  | fuel + 1, p => do
    let sz ← GET_SIZE s (HDRP p)
    if sz > 0 then
      let al ← GET_ALLOC s (HDRP p)
      let nb ← NEXT_BLKP s p
      let found ←
        if al = 1 then do
          let na ← GET_ALLOC s (HDRP nb)
          if na = 1 then
            let f ← FTRP s p
            some (decide (to_int f ≥ to_int (HDRP nb)))
          else some false
        else some false
      if found then some 1
      else overlap_loop s fuel nb
    else some 0

/-- The function `overlap` (heap consistency check 4). -/
def overlap (s : Heap) (fuel : Nat) : Option Nat := overlap_loop s fuel s.heap_listp

/-- The function `check_in_heap`: `return p <= mem_heap_hi() && p >= mem_heap_lo();`. -/
def check_in_heap (s : Heap) (p : Nat) : Nat :=
  if p ≤ mem_heap_hi s ∧ p ≥ mem_heap_lo s then 1 else 0

/-- The loop of `valid`: do the pointers in a heap block point to valid heap
addresses? -/
def valid_loop (s : Heap) : Nat → Nat → Option Nat
  | 0, _ => none
  | fuel + 1, p => do
    let sz ← GET_SIZE s (HDRP p)
    if sz > 0 then
      let flag := check_in_heap s p
      if flag = 1 then some 1
      else
        let nb ← NEXT_BLKP s p
        valid_loop s fuel nb
    else some 0

/-- The function `valid` (heap consistency check 5). -/
def valid (s : Heap) (fuel : Nat) : Option Nat := valid_loop s fuel s.heap_listp

/-- The line `l` when the test `c` of an `if (c) printf(...)` holds, no line
otherwise. -/
def print_if (c : Bool) (l : Line) : List Line := if c then [l] else []

/-- The function `checkblock`: a minimal check on the block `bp`. -/
def checkblock (s : Heap) (bp : Nat) : Option (List Line) := do
  let h ← GET s (HDRP bp)
  let f ← FTRP s bp
  let w ← GET s f
  some (print_if (bp % DSIZE ≠ 0) (Line.not_aligned bp)
    ++ print_if (h ≠ w) Line.header_footer_mismatch)

/-- The loop `for (bp = heap_listp; GET_SIZE(HDRP(bp)) > 0; bp = NEXT_BLKP(bp))`
of `checkheap`; `pb` is what `printblock` prints for a block.  The result is the
lines printed and the value of `bp` after the loop. -/
def checkheap_loop (s : Heap) (pb : Nat → Option (List Line)) (verbose : Bool) :
    Nat → Nat → Option (List Line × Nat)
  | 0, _ => none
  | fuel + 1, bp => do
    let sz ← GET_SIZE s (HDRP bp)
    if sz > 0 then
      let l1 ← if verbose then pb bp else some []
      let l2 ← checkblock s bp
      let nb ← NEXT_BLKP s bp
      let (rest, e) ← checkheap_loop s pb verbose fuel nb
      some (l1 ++ l2 ++ rest, e)
    else some ([], bp)

/-- The five user checks at the end of `checkheap`, each printing one line when
its function returns `1`. -/
def checkheap_checks (s : Heap) (fuel : Nat) : Option (List Line) := do
  let c1 ← is_free s fuel
  let c2 ← not_coalesced s fuel
  let c3 ← in_free_list s fuel
  let c4 ← overlap s fuel
  let c5 ← valid s fuel
  some (print_if (c1 = 1) Line.allocated_in_free_list
    ++ print_if (c2 = 1) Line.not_properly_coalesced
    ++ print_if (c3 = 1) Line.free_block_not_in_list
    ++ print_if (c4 = 1) Line.blocks_overlap
    ++ print_if (c5 = 1) Line.pointer_outside_heap)

/-- The body of `checkheap`, with what `printblock` prints as the argument `pb`. -/
def checkheap_body (s : Heap) (pb : Nat → Option (List Line)) (verbose : Bool)
    (fuel : Nat) : Option (List Line) := do
  let l0 := print_if verbose (Line.heap s.heap_listp)
  let psz ← GET_SIZE s (HDRP s.heap_listp)
  let pal ← GET_ALLOC s (HDRP s.heap_listp)
  let l1 := print_if (psz ≠ DSIZE ∨ pal = 0) Line.bad_prologue
  let l2 ← checkblock s s.heap_listp
  let (l3, bp) ← checkheap_loop s pb verbose fuel s.heap_listp
  let l4 ← if verbose then pb bp else some []
  let esz ← GET_SIZE s (HDRP bp)
  let eal ← GET_ALLOC s (HDRP bp)
  let l5 := print_if (esz ≠ 0 ∨ eal = 0) Line.bad_epilogue
  let l6 ← checkheap_checks s fuel
  some (l0 ++ l1 ++ l2 ++ l3 ++ l4 ++ l5 ++ l6)

/-- The function `printblock`; it starts with the call `checkheap(false)`, which
never calls `printblock` itself. -/
def printblock (s : Heap) (fuel : Nat) (bp : Nat) : Option (List Line) := do
  let l0 ← checkheap_body s (fun _ => some []) false fuel
  let hsize ← GET_SIZE s (HDRP bp)
  let halloc ← GET_ALLOC s (HDRP bp)
  let f ← FTRP s bp
  let fsize ← GET_SIZE s f
  let falloc ← GET_ALLOC s f
  if hsize = 0 then some (l0 ++ [Line.end_of_heap bp])
  else some (l0 ++ [Line.block bp hsize halloc fsize falloc])

/-- The function `checkheap`. -/
def checkheap (s : Heap) (verbose : Bool) (fuel : Nat) : Option (List Line) :=
  checkheap_body s (printblock s fuel) verbose fuel

/-! ## Observing a state

The functions below are not part of `mm.c`; they read a state the way a client
or the consistency checker does, and are used to state properties. -/

/-- The blocks met by walking the heap from `bp` with `NEXT_BLKP` until a header
of size `0` (the walk `for (bp = heap_listp; GET_SIZE(HDRP(bp)) > 0; bp =
NEXT_BLKP(bp))` of the checker), each as `(bp, size, alloc)`.  The first argument
bounds the number of steps. -/
def walk_blocks (s : Heap) : Nat → Nat → Option (List (Nat × Nat × Nat))
  | 0, _ => none
  | fuel + 1, bp => do
    let sz ← GET_SIZE s (HDRP bp)
    let al ← GET_ALLOC s (HDRP bp)
    if sz = 0 then some []
    else
      let nb ← NEXT_BLKP s bp
      let rest ← walk_blocks s fuel nb
      some ((bp, sz, al) :: rest)

/-- The blocks between the first real block and the epilogue. -/
def blocks (s : Heap) : Option (List (Nat × Nat × Nat)) :=
  walk_blocks s s.mem_brk s.heap_listp

/-- The block pointers met by following `GET_NXT` from `p` until `NULL`.  The
first argument bounds the number of steps. -/
def walk_free (s : Heap) : Nat → Nat → Option (List Nat)
  | 0, _ => none
  | fuel + 1, p =>
    if p = 0 then some []
    else do
      let nx ← GET_NXT s p
      let rest ← walk_free s fuel nx
      some (p :: rest)

/-- The free list, from `freel_head`. -/
def free_list (s : Heap) : Option (List Nat) :=
  walk_free s s.mem_brk s.freel_head

/-- A client stores the bytes `B` at `p`. -/
def store_bytes (s : Heap) (p : Nat) (B : List Nat) : Option Heap :=
  if inArena s p B.length then
    some { s with mem := fun x =>
      if p ≤ x ∧ x < p + B.length then B.getD (x - p) 0 else s.mem x }
  else none

/-- A client loads the `n` bytes at `p`. -/
def load_bytes (s : Heap) (p n : Nat) : Option (List Nat) :=
  if inArena s p n then some ((List.range n).map fun i => s.mem (p + i) % 256)
  else none

/-- The free list of `s`, entered at `ptr` from the node `prev`, consists of
exactly the nodes `L`: every node lies inside the arena, its previous-free link
is its predecessor, its next-free link is its successor, and the last link is
`NULL`. -/
def IsFreeList (s : Heap) : Nat → Nat → List Nat → Prop
  | _, ptr, [] => ptr = 0
  | prev, ptr, x :: xs =>
    ptr = x ∧ x ≠ 0 ∧ s.mem_start_brk ≤ x ∧ x + 12 ≤ s.mem_brk ∧
      GET_PRV s x = some prev ∧ ∃ nx, GET_NXT s x = some nx ∧ IsFreeList s x nx xs

/-- The link fields (the bytes `[x, x + 12)`) of distinct nodes do not overlap. -/
def Separated (L : List Nat) : Prop :=
  L.Pairwise fun x y => x + 12 ≤ y ∨ y + 12 ≤ x

/-- The state `s'` holds the same two links at node `x` as `s`. -/
def SameLinks (s s' : Heap) (x : Nat) : Prop :=
  GET_PRV s' x = GET_PRV s x ∧ GET_NXT s' x = GET_NXT s x

/-- Rounding up to a multiple of 8 in the integers, the `align_up_8` of the
specification ("let `need = align_up_8(size)`"). -/
def align_up_8 (n : Nat) : Nat := (n + 7) / 8 * 8

/-- The adjusted size in the words of the specification, in unbounded integers:
"`asize = 32` when `size ≤ 32`" and "`align_up_8(size) + 128`" otherwise. -/
def spec_asize (size : Nat) : Nat := if size ≤ 32 then 32 else align_up_8 size + 128

/-! ## Runs of the allocator from a fresh arena -/

/-- An arena that has not been extended yet: `lo` is its bottom, it may grow
by `cap` bytes, and `m` gives the bytes it holds before use. -/
def fresh (lo cap : Nat) (m : Nat → Nat) : Heap :=
  { mem := m, mem_start_brk := lo, mem_brk := lo, mem_max_addr := lo + cap,
    freel_head := 0, heap_listp := 0 }

/-- The state a run ends in; the empty arena at address `0` for a run without
defined behaviour. -/
def final (r : Option Heap) : Heap := r.getD (fresh 0 0 fun _ => 0)

/-- The state after `mm_init` on an empty arena at `4096` that can grow by
`65536` bytes. -/
def st_init : Heap := final do
  let (_, s) ← mm_init (fresh 4096 65536 fun _ => 0)
  some s

/-- The state after `mm_init` and `mm_malloc(1)` on an arena that can grow by
48 bytes only: the arena is exhausted. -/
def st_full : Heap := final do
  let (_, s) ← mm_init (fresh 4096 48 fun _ => 0)
  let (_, s) ← mm_malloc s 1
  some s

/-- The state after four calls `mm_malloc(1)`, returning `4104`, `4144`, `4184`
and `4224`, followed by `mm_free(4144)` and `mm_free(4224)`. -/
def st_two_free : Heap := final do
  let (_, s) ← mm_init (fresh 4096 65536 fun _ => 0)
  let (_, s) ← mm_malloc s 1
  let (b, s) ← mm_malloc s 1
  let (_, s) ← mm_malloc s 1
  let (d, s) ← mm_malloc s 1
  let s ← mm_free s b
  let s ← mm_free s d
  some s

/-- The state after `f = mm_malloc(3968)`, which returns `4104` with a payload of
`4096` bytes, followed by `mm_free(f)`: the free list holds the single block
`4104` of `4096` bytes. -/
def st_big_free : Heap := final do
  let (_, s) ← mm_init (fresh 4096 65536 fun _ => 0)
  let (f, s) ← mm_malloc s 3968
  let s ← mm_free s f
  some s

/-- The state after `x = mm_malloc(1)`, `mm_malloc(1)`, `y = mm_malloc(300)`,
`mm_malloc(1)`, `mm_free(y)` and `mm_free(x)`: the blocks are `4104` (free, 32
bytes), `4144` (allocated), `4184` (free, 432 bytes) and `4624` (allocated), and
the free list is `[4104, 4184]`. -/
def st_small_first : Heap := final do
  let (_, s) ← mm_init (fresh 4096 65536 fun _ => 0)
  let (x, s) ← mm_malloc s 1
  let (_, s) ← mm_malloc s 1
  let (y, s) ← mm_malloc s 300
  let (_, s) ← mm_malloc s 1
  let s ← mm_free s y
  let s ← mm_free s x
  some s

/-- The state after `mm_malloc(200)` in the state `st_small_first`: the call
splits the block `4184` and returns its tail `4288`, a block of `328` bytes. -/
def st_small_first_split : Heap := final ((mm_malloc st_small_first 200).map Prod.snd)

/-! ## Machine arithmetic and single memory accesses -/

set_option maxRecDepth 100000
set_option linter.unusedVariables false

theorem padd_eq {a b : Nat} (h : a + b < 4294967296) : padd a b = a + b := by
  unfold padd; omega

theorem psub_eq {a b : Nat} (h : b ≤ a) (ha : a < 4294967296) : psub a b = a - b := by
  unfold psub; omega

theorem HDRP_zero : HDRP 0 = 4294967292 := by decide

/-- Masking with `~0x7` clears the three low bits of a 32-bit word. -/
theorem and_mask8 (x : Nat) : x &&& 4294967288 = 8 * (x / 8 % 536870912) := by
  have h1 : (x &&& 4294967288) % 8 = 0 := by
    have h := Nat.and_pow_two_sub_one_eq_mod (x &&& 4294967288) 3
    rw [Nat.and_assoc] at h
    have h0 : (4294967288 &&& 2 ^ 3 - 1) = 0 := by decide
    rw [h0, Nat.and_zero] at h
    simpa using h.symm
  have h2 : (x &&& 4294967288) / 8 = x / 8 % 536870912 := by
    have e : ∀ a b : Nat, (a &&& b) / 8 = a / 8 &&& b / 8 := by
      intro a b
      have h8 : (8 : Nat) = 2 * 2 * 2 := rfl
      rw [h8, ← Nat.div_div_eq_div_mul, ← Nat.div_div_eq_div_mul, Nat.and_div_two,
        Nat.and_div_two, Nat.and_div_two, ← Nat.div_div_eq_div_mul,
        ← Nat.div_div_eq_div_mul, ← Nat.div_div_eq_div_mul, ← Nat.div_div_eq_div_mul]
    rw [e]
    have hc : (4294967288 / 8 : Nat) = 2 ^ 29 - 1 := by decide
    rw [hc, Nat.and_pow_two_sub_one_eq_mod]
  omega

theorem or_one_of_even (x : Nat) (h : x % 2 = 0) : x ||| 1 = x + 1 := by
  have h1 := Nat.mul_add_lt_is_or (i := 1) (b := 1) (by decide) (x / 2)
  have e : 2 ^ 1 * (x / 2) = x := by omega
  rw [e] at h1
  exact h1.symm

theorem CALC_ALIGN_eq {size : Nat} (h : size + 7 < 4294967296) :
    CALC_ALIGN size = align_up_8 size := by
  unfold CALC_ALIGN align_up_8
  rw [and_mask8]
  omega

theorem rdw_wrw_same (m : Nat → Nat) (a v : Nat) :
    rdw (wrw m a v) a = v % 4294967296 := by
  unfold rdw wrw
  simp
  omega

theorem wrw_of_disjoint (m : Nat → Nat) (a v x : Nat) (h : x < a ∨ a + 4 ≤ x) :
    wrw m a v x = m x := by
  unfold wrw
  rw [if_neg (by omega), if_neg (by omega), if_neg (by omega), if_neg (by omega)]

theorem rdw_wrw_of_disjoint (m : Nat → Nat) (a v b : Nat) (h : b + 4 ≤ a ∨ a + 4 ≤ b) :
    rdw (wrw m a v) b = rdw m b := by
  unfold rdw
  rw [wrw_of_disjoint m a v b (by omega), wrw_of_disjoint m a v (b + 1) (by omega),
    wrw_of_disjoint m a v (b + 2) (by omega), wrw_of_disjoint m a v (b + 3) (by omega)]

theorem GET_lt {s : Heap} {p v : Nat} (h : GET s p = some v) : v < 4294967296 := by
  unfold GET at h
  split at h
  · simp only [Option.some.injEq] at h
    rw [← h]; unfold rdw; omega
  · simp at h

theorem PUT_some {s s' : Heap} {p v : Nat} (h : PUT s p v = some s') :
    inArena s p 4 ∧ s' = { s with mem := wrw s.mem p v } := by
  unfold PUT at h
  split at h
  · exact ⟨by assumption, by simpa using h.symm⟩
  · simp at h

theorem PUT_of_inArena {s : Heap} {p : Nat} (v : Nat) (h : inArena s p 4) :
    PUT s p v = some { s with mem := wrw s.mem p v } := by
  unfold PUT; rw [if_pos h]

theorem PUT_exists {s : Heap} {p : Nat} (v : Nat) (h : inArena s p 4) :
    ∃ s', PUT s p v = some s' := ⟨_, PUT_of_inArena v h⟩

/-- A store changes the four bytes it writes and nothing else. -/
theorem PUT_fields {s s' : Heap} {p v : Nat} (h : PUT s p v = some s') :
    s'.mem_start_brk = s.mem_start_brk ∧ s'.mem_brk = s.mem_brk ∧
    s'.mem_max_addr = s.mem_max_addr ∧ s'.freel_head = s.freel_head ∧
    s'.heap_listp = s.heap_listp ∧ ∀ a, a < p ∨ p + 4 ≤ a → s'.mem a = s.mem a := by
  obtain ⟨_, rfl⟩ := PUT_some h
  exact ⟨rfl, rfl, rfl, rfl, rfl, fun a ha => wrw_of_disjoint _ _ _ _ ha⟩

theorem GET_PUT_same {s s' : Heap} {p v : Nat} (h : PUT s p v = some s')
    (hv : v < 4294967296) : GET s' p = some v := by
  obtain ⟨ha, rfl⟩ := PUT_some h
  have ha' : inArena { s with mem := wrw s.mem p v } p 4 := ha
  unfold GET
  rw [if_pos ha']
  simp only [rdw_wrw_same, Option.some.injEq]
  omega

theorem GET_PUT_other {s s' : Heap} {p v q : Nat} (h : PUT s p v = some s')
    (hd : q + 4 ≤ p ∨ p + 4 ≤ q) : GET s' q = GET s q := by
  obtain ⟨_, rfl⟩ := PUT_some h
  unfold GET
  have e : inArena { s with mem := wrw s.mem p v } q 4 ↔ inArena s q 4 := Iff.rfl
  by_cases hq : inArena s q 4
  · rw [if_pos hq, if_pos (e.mpr hq)]
    simp only [rdw_wrw_of_disjoint _ _ _ _ hd]
  · rw [if_neg hq, if_neg (fun h => hq (e.mp h))]

theorem GET_freel_head (s : Heap) (v q : Nat) :
    GET { s with freel_head := v } q = GET s q := rfl

theorem GET_SIZE_some {s : Heap} {p v : Nat} (h : GET_SIZE s p = some v) :
    ∃ w, GET s p = some w ∧ w < 4294967296 ∧ v = 8 * (w / 8 % 536870912) := by
  unfold GET_SIZE at h
  cases hg : GET s p with
  | none => rw [hg] at h; simp at h
  | some w =>
    rw [hg] at h
    simp only [Option.map_some', Option.some.injEq] at h
    exact ⟨w, rfl, GET_lt hg, by rw [← h, and_mask8]⟩

theorem GET_SIZE_of_GET {s : Heap} {p w : Nat} (h : GET s p = some w) :
    GET_SIZE s p = some (8 * (w / 8 % 536870912)) := by
  unfold GET_SIZE
  rw [h]
  simp only [Option.map_some', and_mask8]

/-! ## The free list -/

theorem IsFreeList_head_mem {s : Heap} {p h : Nat} {l : List Nat}
    (hl : IsFreeList s p h l) (hh : h ≠ 0) : h ∈ l := by
  cases l with
  | nil => exact absurd hl hh
  | cons x xs => rw [hl.1]; exact List.mem_cons_self _ _

theorem IsFreeList_frame {s s' : Heap} (hlo : s'.mem_start_brk = s.mem_start_brk)
    (hbrk : s'.mem_brk = s.mem_brk) :
    ∀ (l : List Nat) (p h : Nat), (∀ x ∈ l, SameLinks s s' x) →
      IsFreeList s p h l → IsFreeList s' p h l := by
  intro l
  induction l with
  | nil => intro p h _ hl; exact hl
  | cons x xs ih =>
    intro p h hs hl
    obtain ⟨h1, h2, h3, h4, h5, nx, h6, h7⟩ := hl
    have hx := hs x (List.mem_cons_self _ _)
    refine ⟨h1, h2, by omega, by omega, by rw [hx.1, h5], nx, by rw [hx.2, h6], ?_⟩
    exact ih x nx (fun y hy => hs y (List.mem_cons_of_mem _ hy)) h7

/-- A list whose first node has had its previous-free link replaced. -/
theorem IsFreeList_relink {s s' : Heap} (hlo : s'.mem_start_brk = s.mem_start_brk)
    (hbrk : s'.mem_brk = s.mem_brk) {l : List Nat} {p p' h : Nat}
    (hl : IsFreeList s p h l)
    (hhead : h ≠ 0 → GET_PRV s' h = some p' ∧ GET_NXT s' h = GET_NXT s h)
    (hrest : ∀ x ∈ l, x ≠ h → SameLinks s s' x)
    (hnd : l.Nodup) :
    IsFreeList s' p' h l := by
  cases l with
  | nil => exact hl
  | cons x xs =>
    obtain ⟨h1, h2, h3, h4, h5, nx, h6, h7⟩ := hl
    subst h1
    have hh := hhead h2
    refine ⟨rfl, h2, by omega, by omega, hh.1, nx, by rw [hh.2, h6], ?_⟩
    have hx : h ∉ xs := (List.nodup_cons.mp hnd).1
    refine IsFreeList_frame hlo hbrk xs h nx (fun y hy => ?_) h7
    exact hrest y (List.mem_cons_of_mem _ hy) (fun e => hx (e ▸ hy))

/-- The links stored at a member `nb` of a free list. -/
theorem IsFreeList_at {s : Heap} (nb : Nat) (l2 : List Nat) :
    ∀ (l1 : List Nat) (p h : Nat), IsFreeList s p h (l1 ++ nb :: l2) →
      nb ≠ 0 ∧ s.mem_start_brk ≤ nb ∧ nb + 12 ≤ s.mem_brk ∧
      GET_PRV s nb = some (l1.getLast?.getD p) ∧
      ∃ nx, GET_NXT s nb = some nx ∧ IsFreeList s nb nx l2 := by
  intro l1
  induction l1 with
  | nil =>
    intro p h hl
    obtain ⟨_, h2, h3, h4, h5, nx, h6, h7⟩ := hl
    exact ⟨h2, h3, h4, h5, nx, h6, h7⟩
  | cons x xs ih =>
    intro p h hl
    obtain ⟨_, _, _, _, _, nx, _, h7⟩ := hl
    have := ih x nx h7
    cases xs with
    | nil => simpa using this
    | cons y ys => simpa [List.getLast?_cons_cons] using this

/-- Unlinking `nb` when it has a predecessor `pv` in the list: the list is
intact once `pv` points on to `nx` and `nx` points back to `pv`. -/
theorem IsFreeList_unlink {s s' : Heap} (hlo : s'.mem_start_brk = s.mem_start_brk)
    (hbrk : s'.mem_brk = s.mem_brk) (nb : Nat) (l2 : List Nat) :
    ∀ (l1 : List Nat) (p h pv nx : Nat), l1.getLast? = some pv →
      IsFreeList s p h (l1 ++ nb :: l2) → (l1 ++ nb :: l2).Nodup →
      GET_NXT s nb = some nx →
      (GET_PRV s' pv = GET_PRV s pv ∧ GET_NXT s' pv = some nx) →
      (nx ≠ 0 → GET_PRV s' nx = some pv ∧ GET_NXT s' nx = GET_NXT s nx) →
      (∀ x ∈ l1 ++ l2, x ≠ pv → x ≠ nx → SameLinks s s' x) →
      IsFreeList s' p h (l1 ++ l2) := by
  intro l1
  induction l1 with
  | nil => intro p h pv nx hlast; simp at hlast
  | cons x xs ih =>
    intro p h pv nx hlast hl hnd hnx hpv hnxl hrest
    obtain ⟨h1, h2, h3, h4, h5, nx1, h6, h7⟩ := hl
    have hnd' : (xs ++ nb :: l2).Nodup := (List.nodup_cons.mp hnd).2
    have hxn : x ∉ xs ++ nb :: l2 := (List.nodup_cons.mp hnd).1
    cases xs with
    | nil =>
      simp only [List.getLast?_singleton, Option.some.injEq] at hlast
      subst hlast
      obtain ⟨g1, g2, g3, g4, g5, nx2, g6, g7⟩ := h7
      rw [hnx] at g6
      simp only [Option.some.injEq] at g6
      subst g6
      refine ⟨h1, h2, by omega, by omega, by rw [hpv.1, h5], nx, hpv.2, ?_⟩
      have hnd2 : l2.Nodup := (List.nodup_cons.mp hnd').2
      refine IsFreeList_relink hlo hbrk g7 hnxl (fun y hy hne => ?_) hnd2
      refine hrest y (List.mem_cons_of_mem _ hy) ?_ hne
      intro e
      exact hxn (List.mem_cons_of_mem _ (e ▸ hy))
    | cons y ys =>
      have hlast' : (y :: ys).getLast? = some pv := by
        simpa [List.getLast?_cons_cons] using hlast
      have hpvmem : pv ∈ y :: ys := List.mem_of_getLast?_eq_some hlast'
      have hxpv : x ≠ pv := fun e => hxn (by rw [e]; exact List.mem_append_left _ hpvmem)
      -- the links of nb
      have hx : SameLinks s s' x := by
        by_cases h0 : x = nx
        · exfalso
          obtain ⟨_, _, _, _, nx', e1, e2⟩ := IsFreeList_at nb l2 (y :: ys) x nx1 h7
          rw [hnx] at e1
          simp only [Option.some.injEq] at e1
          subst e1
          have : nx ∈ l2 := IsFreeList_head_mem e2 (h0 ▸ h2)
          exact hxn (List.mem_append_right _ (List.mem_cons_of_mem _ (h0 ▸ this)))
        · exact hrest x (List.mem_cons_self _ _) hxpv h0
      refine ⟨h1, h2, by omega, by omega, by rw [hx.1, h5], nx1, by rw [hx.2, h6], ?_⟩
      exact ih x nx1 pv nx hlast' h7 hnd' hnx hpv hnxl
        (fun z hz => hrest z (List.mem_cons_of_mem _ hz))


theorem IsFreeList_mem {s : Heap} :
    ∀ (l : List Nat) (p h x : Nat), IsFreeList s p h l → x ∈ l →
      x ≠ 0 ∧ s.mem_start_brk ≤ x ∧ x + 12 ≤ s.mem_brk := by
  intro l
  induction l with
  | nil => intro p h x _ hx; simp at hx
  | cons y ys ih =>
    intro p h x hl hx
    obtain ⟨_, h2, h3, h4, _, nx, _, h7⟩ := hl
    rcases List.mem_cons.mp hx with e | e
    · subst e; exact ⟨h2, h3, h4⟩
    · exact ih y nx x h7 e

theorem Separated_nodup {L : List Nat} (h : Separated L) : L.Nodup := by
  unfold Separated at h
  exact h.imp (fun {a b} hab => by omega)

theorem Separated_forall {L : List Nat} (h : Separated L) :
    ∀ x ∈ L, ∀ y ∈ L, x ≠ y → x + 12 ≤ y ∨ y + 12 ≤ x := by
  intro x hx y hy hne
  unfold Separated at h
  exact List.Pairwise.forall (fun a b hab => by omega) h hx hy hne


/-- What `freel_remove` does to a well-formed free list: the node is unlinked, the
list is otherwise intact, and only link fields of other nodes are written. -/
theorem freel_remove_spec {s : Heap} {L : List Nat} {nb : Nat}
    (hbrk : s.mem_brk ≤ 4294967296)
    (hl : IsFreeList s 0 s.freel_head L) (hsep : Separated L) (hmem : nb ∈ L) :
    ∃ s', freel_remove s nb = some s' ∧ s'.mem_start_brk = s.mem_start_brk ∧
      s'.mem_brk = s.mem_brk ∧ s'.mem_max_addr = s.mem_max_addr ∧
      s'.heap_listp = s.heap_listp ∧
      IsFreeList s' 0 s'.freel_head (L.erase nb) ∧
      (∀ a, (∀ x ∈ L, x ≠ nb → a < x ∨ x + 12 ≤ a) → s'.mem a = s.mem a) := by
  obtain ⟨l1, l2, rfl⟩ := List.append_of_mem hmem
  have hnd := Separated_nodup hsep
  have hpw := Separated_forall hsep
  have hbd := fun x hx => IsFreeList_mem _ _ _ x hl hx
  obtain ⟨hn0, hnlo, hnhi, hprv, nx, hnxt, htail⟩ := IsFreeList_at nb l2 l1 0 _ hl
  have hnotin : nb ∉ l1 := fun h =>
    (List.nodup_append.mp hnd).2.2 h (List.mem_cons_self _ _)
  have herase : (l1 ++ nb :: l2).erase nb = l1 ++ l2 := by
    rw [List.erase_append_right _ hnotin, List.erase_cons_head]
  rw [herase]
  have hnxmem : nx ≠ 0 → nx ∈ l2 := fun h => IsFreeList_head_mem htail h
  have hl2L : ∀ y ∈ l2, y ∈ l1 ++ nb :: l2 := fun y hy =>
    List.mem_append_right _ (List.mem_cons_of_mem _ hy)
  have hnxne : nx ≠ 0 → nx ≠ nb := fun h e => by
    have h2 : (nb :: l2).Nodup := (List.nodup_append.mp hnd).2.1
    exact (List.nodup_cons.mp h2).1 (e ▸ hnxmem h)
  have hnd2 : l2.Nodup := (List.nodup_cons.mp (List.nodup_append.mp hnd).2.1).2
  unfold freel_remove
  rw [hnxt, hprv]
  simp only [Option.bind_eq_bind, Option.some_bind]
  rcases List.eq_nil_or_concat l1 with rfl | ⟨l1', pv, rfl⟩
  · -- `nb` is the head of the list
    simp only [List.getLast?_nil, Option.getD_none, if_true, List.nil_append]
    by_cases h0 : nx = 0
    · subst h0
      simp only [ne_eq, not_true_eq_false, if_false]
      refine ⟨_, rfl, rfl, rfl, rfl, rfl, ?_, fun a _ => rfl⟩
      cases l2 with
      | nil => exact rfl
      | cons y ys => exact absurd htail.1.symm htail.2.1
    · simp only [ne_eq, h0, not_false_eq_true, if_true]
      obtain ⟨_, hxlo, hxhi⟩ := hbd nx (hl2L nx (hnxmem h0))
      have hin : inArena { s with freel_head := nx } nx 4 :=
        ⟨hxlo, by show nx + 4 ≤ s.mem_brk; omega⟩
      obtain ⟨s', hput⟩ := PUT_exists 0 hin
      obtain ⟨f1, f2, f3, f4, f5, f6⟩ := PUT_fields hput
      unfold SET_PRV
      have f4' : s'.freel_head = nx := f4
      refine ⟨s', hput, f1, f2, f3, f5, ?_, ?_⟩
      · rw [f4']
        refine IsFreeList_relink (s := s) f1 f2 htail (fun _ => ⟨?_, ?_⟩)
          (fun y hy hne => ⟨?_, ?_⟩) hnd2
        · exact GET_PUT_same hput (by omega)
        · unfold GET_NXT
          rw [GET_PUT_other hput (by unfold padd DSIZE; omega), GET_freel_head]
        · unfold GET_PRV
          have := hpw y (hl2L y hy) nx (hl2L nx (hnxmem h0)) hne
          rw [GET_PUT_other hput (by omega), GET_freel_head]
        · unfold GET_NXT
          have := hpw y (hl2L y hy) nx (hl2L nx (hnxmem h0)) hne
          have := hbd y (hl2L y hy)
          rw [GET_PUT_other hput (by unfold padd DSIZE; omega), GET_freel_head]
      · intro a ha
        have := ha nx (hl2L nx (hnxmem h0)) (hnxne h0)
        exact f6 a (by omega)
  · -- `nb` has the predecessor `pv`
    rw [List.concat_eq_append] at hl hsep hmem hnd hpw hbd hprv hnotin hl2L ⊢
    have hpvL : pv ∈ (l1' ++ [pv]) ++ nb :: l2 := by simp
    obtain ⟨hpv0, hpvlo, hpvhi⟩ := hbd pv hpvL
    have hpvne : pv ≠ nb := fun e => hnotin (by simp [← e])
    have hlast : (l1' ++ [pv]).getLast? = some pv := by simp
    rw [hlast] at hprv ⊢
    simp only [Option.getD_some, hpv0, if_false] at hprv ⊢
    have hpadd : padd pv DSIZE = pv + 8 := by unfold padd DSIZE; omega
    unfold SET_NXT
    rw [hpadd]
    have hin1 : inArena s (pv + 8) 4 := ⟨by omega, by omega⟩
    obtain ⟨s1, hput1⟩ := PUT_exists nx hin1
    obtain ⟨f1, f2, f3, f4, f5, f6⟩ := PUT_fields hput1
    rw [hput1]
    simp only [Option.some_bind]
    have hnxlt : nx < 4294967296 := GET_lt hnxt
    have hsub : ∀ y ∈ (l1' ++ [pv]) ++ l2, y ∈ (l1' ++ [pv]) ++ nb :: l2 := fun y hy => by
      rcases List.mem_append.mp hy with h | h
      · exact List.mem_append_left _ h
      · exact hl2L y h
    by_cases h0 : nx = 0
    · subst h0
      simp only [ne_eq, not_true_eq_false, if_false]
      refine ⟨s1, rfl, f1, f2, f3, f5, ?_, ?_⟩
      · rw [f4]
        refine IsFreeList_unlink f1 f2 nb l2 _ 0 _ pv 0 hlast hl hnd hnxt ⟨?_, ?_⟩
          (fun h => absurd rfl h) (fun y hy hne _ => ⟨?_, ?_⟩)
        · unfold GET_PRV; rw [GET_PUT_other hput1 (by omega)]
        · unfold GET_NXT; rw [hpadd]; exact GET_PUT_same hput1 hnxlt
        · unfold GET_PRV
          have := hpw y (hsub y hy) pv hpvL hne
          rw [GET_PUT_other hput1 (by omega)]
        · unfold GET_NXT
          have := hpw y (hsub y hy) pv hpvL hne
          have := hbd y (hsub y hy)
          rw [GET_PUT_other hput1 (by unfold padd DSIZE; omega)]
      · intro a ha
        have := ha pv hpvL hpvne
        exact f6 a (by omega)
    · simp only [ne_eq, h0, not_false_eq_true, if_true]
      have hnxL := hl2L nx (hnxmem h0)
      obtain ⟨_, hxlo, hxhi⟩ := hbd nx hnxL
      have hpvnx : pv ≠ nx := fun e => by
        have : pv ∈ l1' ++ [pv] := by simp
        exact (List.nodup_append.mp hnd).2.2 this (List.mem_cons_of_mem _ (e ▸ hnxmem h0))
      have hsp := hpw pv hpvL nx hnxL hpvnx
      have hin2 : inArena s1 nx 4 := ⟨by rw [f1]; exact hxlo, by rw [f2]; omega⟩
      obtain ⟨s', hput2⟩ := PUT_exists pv hin2
      obtain ⟨g1, g2, g3, g4, g5, g6⟩ := PUT_fields hput2
      unfold SET_PRV
      refine ⟨s', hput2, by rw [g1, f1], by rw [g2, f2], by rw [g3, f3], by rw [g5, f5], ?_, ?_⟩
      · rw [g4, f4]
        refine IsFreeList_unlink (by rw [g1, f1]) (by rw [g2, f2]) nb l2 _ 0 _ pv nx hlast hl hnd
          hnxt ⟨?_, ?_⟩ (fun _ => ⟨?_, ?_⟩) (fun y hy hne hne2 => ⟨?_, ?_⟩)
        · unfold GET_PRV
          rw [GET_PUT_other hput2 (by omega), GET_PUT_other hput1 (by omega)]
        · unfold GET_NXT
          rw [hpadd, GET_PUT_other hput2 (by omega)]
          exact GET_PUT_same hput1 hnxlt
        · exact GET_PUT_same hput2 (by omega)
        · unfold GET_NXT
          rw [GET_PUT_other hput2 (by unfold padd DSIZE; omega),
            GET_PUT_other hput1 (by unfold padd DSIZE; omega)]
        · unfold GET_PRV
          have := hpw y (hsub y hy) pv hpvL hne
          have := hpw y (hsub y hy) nx hnxL hne2
          rw [GET_PUT_other hput2 (by omega), GET_PUT_other hput1 (by omega)]
        · unfold GET_NXT
          have := hpw y (hsub y hy) pv hpvL hne
          have := hpw y (hsub y hy) nx hnxL hne2
          have := hbd y (hsub y hy)
          rw [GET_PUT_other hput2 (by unfold padd DSIZE; omega),
            GET_PUT_other hput1 (by unfold padd DSIZE; omega)]
      · intro a ha
        have := ha pv hpvL hpvne
        have := ha nx hnxL (hnxne h0)
        rw [g6 a (by omega), f6 a (by omega)]

/-! ## Results of `find_fit` -/

theorem split_n_place_ne_zero {s s' : Heap} {ptr newsize p : Nat}
    (hbrk : s.mem_brk < 4294967296)
    (h : split_n_place s ptr newsize = some (p, s')) : p ≠ 0 := by
  unfold split_n_place at h
  simp only [Option.bind_eq_bind, Option.bind_eq_some] at h
  obtain ⟨sz, _, s1, h1, f, _, s2, h2, p', _, s3, h3, fp, _, s4, _, h5⟩ := h
  simp only [Option.some.injEq, Prod.mk.injEq] at h5
  obtain ⟨rfl, _⟩ := h5
  intro hp
  have ha := (PUT_some h3).1
  rw [hp, HDRP_zero] at ha
  have e : s2.mem_brk = s.mem_brk := by rw [(PUT_fields h2).2.1, (PUT_fields h1).2.1]
  have hb := ha.2
  omega

/-- A pointer returned from inside the loop of `find_fit` is not `NULL`. -/
theorem find_fit_loop_ne_zero (s : Heap) (asize : Nat) (hbrk : s.mem_brk < 4294967296) :
    ∀ (fuel ptr p : Nat) (s' : Heap),
      find_fit_loop s asize fuel ptr = some (some (p, s')) → p ≠ 0 := by
  intro fuel
  induction fuel with
  | zero => intro ptr p s' h; simp [find_fit_loop] at h
  | succ n ih =>
    intro ptr p s' h
    unfold find_fit_loop at h
    split at h
    · simp at h
    · rename_i hne
      simp only [Option.bind_eq_bind, Option.bind_eq_some] at h
      obtain ⟨tempsize, _, h⟩ := h
      split at h
      · split at h
        · simp only [Option.bind_eq_some] at h
          obtain ⟨r, hr, h⟩ := h
          simp only [Option.some.injEq] at h
          subst h
          exact split_n_place_ne_zero hbrk hr
        · simp only [Option.bind_eq_some] at h
          obtain ⟨s1, _, s2, _, f, _, s3, _, h⟩ := h
          simp only [Option.some.injEq, Prod.mk.injEq] at h
          rw [← h.1]; exact hne
      · simp only [Option.bind_eq_some] at h
        obtain ⟨nxt, _, h⟩ := h
        exact ih nxt p s' h

/-- When `find_fit` returns `NULL` the loop found no fit, `mem_sbrk` failed, and
the state is the one `find_fit` was called in. -/
theorem find_fit_null {s s' : Heap} {ptr asize : Nat}
    (hbrk : s.mem_brk ≤ s.mem_max_addr) (hmax : s.mem_max_addr < 4294967295)
    (h : find_fit s ptr asize = some (0, s')) :
    find_fit_loop s asize 300 ptr = some none ∧
      (extend_heap s asize).1 = SBRK_FAIL ∧ s' = s := by
  unfold find_fit at h
  simp only [Option.bind_eq_bind, Option.bind_eq_some] at h
  obtain ⟨r, hr, h⟩ := h
  cases r with
  | some r =>
    simp only [Option.some.injEq] at h
    subst h
    exact absurd rfl (find_fit_loop_ne_zero s asize (by omega) 300 ptr 0 s' hr)
  | none =>
    refine ⟨hr, ?_⟩
    simp only [extend_heap, mem_sbrk] at h ⊢
    split at h
    · rename_i hle
      simp only [SBRK_FAIL] at h
      rw [if_neg (by omega)] at h
      simp only [Option.bind_eq_some] at h
      obtain ⟨s2, h2, f, _, s3, _, f2, _, s4, _, h⟩ := h
      simp only [Option.some.injEq, Prod.mk.injEq] at h
      have ha := (PUT_some h2).1
      rw [h.1, HDRP_zero] at ha
      have hb := ha.2
      simp only at hb
      omega
    · rename_i hle
      simp only [if_true, Option.some.injEq, Prod.mk.injEq, true_and] at h
      rw [if_neg hle]
      exact ⟨rfl, h.symm⟩

/-- When the loop finds no fit and `mem_sbrk` fails, `find_fit` returns `NULL` and
leaves the state as it was. -/
theorem find_fit_of_sbrk_fail {s : Heap} {ptr asize : Nat}
    (hbrk : s.mem_brk ≤ s.mem_max_addr) (hmax : s.mem_max_addr < 4294967295)
    (hloop : find_fit_loop s asize 300 ptr = some none)
    (hfail : (extend_heap s asize).1 = SBRK_FAIL) :
    find_fit s ptr asize = some (0, s) := by
  unfold find_fit
  rw [hloop]
  simp only [Option.bind_eq_bind, Option.some_bind]
  have hs : (extend_heap s asize).2 = s := by
    unfold extend_heap mem_sbrk at hfail ⊢
    split
    · rename_i hle
      rw [if_pos hle] at hfail
      simp only [SBRK_FAIL] at hfail
      omega
    · rfl
  rw [if_pos hfail, hs]

/-! ## Placement: the contracts of `split_n_place` and `find_fit` -/

theorem PACK_zero (x : Nat) : PACK x 0 = x := by
  unfold PACK; exact Nat.or_zero x

theorem PACK_one {x : Nat} (h : x % 8 = 0) : PACK x 1 = x + 1 := by
  unfold PACK; exact or_one_of_even x (by omega)

theorem adjusted_size_lt (n : Nat) : adjusted_size n < 4294967296 := by
  unfold adjusted_size padd DSIZE
  split
  · decide
  · omega

theorem adjusted_size_eq {n : Nat} (h : n ≤ 4294967160) :
    adjusted_size n = spec_asize n := by
  unfold adjusted_size spec_asize DSIZE
  simp only [Nat.reduceMul]
  split
  · rfl
  · rw [CALC_ALIGN_eq (by omega), padd_eq (by unfold align_up_8; omega)]

theorem le_adjusted_size {n : Nat} (h : n ≤ 4294967160) : n ≤ adjusted_size n := by
  rw [adjusted_size_eq h]
  unfold spec_asize
  split
  · assumption
  · unfold align_up_8; omega

/-- The size field of a tag word `x` or `x + 1` with `x` a multiple of 8. -/
theorem GET_SIZE_tag {s : Heap} {p w x : Nat} (h : GET s p = some w) (hx : x % 8 = 0)
    (hw : w = x ∨ w = x + 1) : GET_SIZE s p = some x := by
  have hlt := GET_lt h
  rw [GET_SIZE_of_GET h]
  congr 1
  omega

theorem GET_ALLOC_of_GET {s : Heap} {p w : Nat} (h : GET s p = some w) :
    GET_ALLOC s p = some (w % 2) := by
  unfold GET_ALLOC
  rw [h]
  simp only [Option.map_some', Option.some.injEq]
  exact Nat.and_one_is_mod w

/-- What `split_n_place` does to a free block `c` of size `sc` that lies inside
the arena: the block shrinks in place to `sc - asize - 8` bytes and the tail of
`asize` bytes becomes an allocated block. -/
theorem split_n_place_spec {s : Heap} {c sc asize : Nat}
    (hbrk : s.mem_brk ≤ 4294967296)
    (hlo : s.mem_start_brk + 4 ≤ c)
    (hsc : GET_SIZE s (HDRP c) = some sc)
    (hend : c + sc + 4 ≤ s.mem_brk)
    (ha8 : asize % 8 = 0) (hfit : asize + 8 ≤ sc) :
    ∃ s', split_n_place s c asize = some (c + sc - asize, s') ∧
      s'.mem_start_brk = s.mem_start_brk ∧ s'.mem_brk = s.mem_brk ∧
      s'.mem_max_addr = s.mem_max_addr ∧ s'.freel_head = s.freel_head ∧
      s'.heap_listp = s.heap_listp ∧
      GET s' (c - 4) = some (sc - asize - 8) ∧
      GET s' (c + (sc - asize - 8)) = some (sc - asize - 8) ∧
      GET s' (c + sc - asize - 4) = some (asize + 1) ∧
      GET s' (c + sc) = some (asize + 1) ∧
      ∀ q, (q + 4 ≤ c - 4 ∨ (c ≤ q ∧ q + 4 ≤ c + (sc - asize - 8)) ∨
          (c + sc - asize ≤ q ∧ q + 4 ≤ c + sc) ∨ c + sc + 4 ≤ q) →
        GET s' q = GET s q := by
  obtain ⟨w, hw, hwlt, hscv⟩ := GET_SIZE_some hsc
  have hH : HDRP c = c - 4 := by unfold HDRP WSIZE; exact psub_eq (by omega) (by omega)
  have hnf : psub (psub sc asize) (2 * WSIZE) = sc - asize - 8 := by
    unfold WSIZE
    rw [psub_eq (a := sc) (b := asize) (by omega) (by omega), psub_eq (by omega) (by omega)]
  obtain ⟨s1, hp1⟩ := PUT_exists (s := s) (p := c - 4) (sc - asize - 8) ⟨by omega, by omega⟩
  obtain ⟨a1, a2, a3, a4, a5, _⟩ := PUT_fields hp1
  have g1 : GET s1 (c - 4) = some (sc - asize - 8) := GET_PUT_same hp1 (by omega)
  have hf1 : FTRP s1 c = some (c + (sc - asize - 8)) := by
    unfold FTRP
    rw [hH, GET_SIZE_tag g1 (by omega) (Or.inl rfl)]
    simp only [Option.map_some', Option.some.injEq]
    exact padd_eq (by omega)
  obtain ⟨s2, hp2⟩ := PUT_exists (s := s1) (p := c + (sc - asize - 8)) (sc - asize - 8)
    ⟨by omega, by omega⟩
  obtain ⟨b1, b2, b3, b4, b5, _⟩ := PUT_fields hp2
  have g2 : GET s2 (c - 4) = some (sc - asize - 8) := by
    rw [GET_PUT_other hp2 (by omega), g1]
  have hn2 : NEXT_BLKP s2 c = some (c + sc - asize) := by
    unfold NEXT_BLKP
    rw [hH, GET_SIZE_tag g2 (by omega) (Or.inl rfl)]
    simp only [Option.map_some', Option.some.injEq, WSIZE]
    rw [padd_eq (a := c) (by omega), padd_eq (by omega)]
    omega
  have hHp : HDRP (c + sc - asize) = c + sc - asize - 4 := by
    unfold HDRP WSIZE; exact psub_eq (by omega) (by omega)
  obtain ⟨s3, hp3⟩ := PUT_exists (s := s2) (p := c + sc - asize - 4) (asize + 1)
    ⟨by omega, by omega⟩
  obtain ⟨c1, c2, c3, c4, c5, _⟩ := PUT_fields hp3
  have g3 : GET s3 (c + sc - asize - 4) = some (asize + 1) := GET_PUT_same hp3 (by omega)
  have hf3 : FTRP s3 (c + sc - asize) = some (c + sc) := by
    unfold FTRP
    rw [hHp, GET_SIZE_tag g3 ha8 (Or.inr rfl)]
    simp only [Option.map_some', Option.some.injEq]
    rw [padd_eq (by omega)]
    omega
  obtain ⟨s4, hp4⟩ := PUT_exists (s := s3) (p := c + sc) (asize + 1) ⟨by omega, by omega⟩
  obtain ⟨d1, d2, d3, d4, d5, _⟩ := PUT_fields hp4
  refine ⟨s4, ?_, by omega, by omega, by omega, by omega, by omega, ?_, ?_, ?_, ?_, ?_⟩
  · unfold split_n_place
    rw [hsc]
    simp only [Option.bind_eq_bind, Option.some_bind]
    rw [hnf, PACK_zero, hH, hp1]
    simp only [Option.some_bind]
    rw [hf1]
    simp only [Option.some_bind]
    rw [hp2]
    simp only [Option.some_bind]
    rw [hn2]
    simp only [Option.some_bind]
    rw [hHp, PACK_one ha8, hp3]
    simp only [Option.some_bind]
    rw [hf3]
    simp only [Option.some_bind]
    rw [hp4]
    rfl
  · rw [GET_PUT_other hp4 (by omega), GET_PUT_other hp3 (by omega), g2]
  · rw [GET_PUT_other hp4 (by omega), GET_PUT_other hp3 (by omega)]
    exact GET_PUT_same hp2 (by omega)
  · rw [GET_PUT_other hp4 (by omega), g3]
  · exact GET_PUT_same hp4 (by omega)
  · intro q hq
    rw [GET_PUT_other hp4 (by omega), GET_PUT_other hp3 (by omega),
      GET_PUT_other hp2 (by omega), GET_PUT_other hp1 (by omega)]

/-- The loop of `find_fit` walks past the nodes that are too small. -/
theorem find_fit_loop_skip {s : Heap} {asize : Nat} :
    ∀ (l1 rest : List Nat) (fuel p h : Nat),
      IsFreeList s p h (l1 ++ rest) →
      (∀ x ∈ l1, ∃ sx, GET_SIZE s (HDRP x) = some sx ∧ sx < asize) →
      ∃ p' h', IsFreeList s p' h' rest ∧
        find_fit_loop s asize (l1.length + fuel) h = find_fit_loop s asize fuel h' := by
  intro l1
  induction l1 with
  | nil =>
    intro rest fuel p h hl _
    exact ⟨p, h, hl, by simp⟩
  | cons x xs ih =>
    intro rest fuel p h hl hsmall
    obtain ⟨h1, h2, _, _, _, nx, h6, h7⟩ := hl
    subst h1
    obtain ⟨sx, hsx, hlt⟩ := hsmall h (List.mem_cons_self _ _)
    obtain ⟨p', h', hr, heq⟩ := ih rest fuel h nx h7
      (fun y hy => hsmall y (List.mem_cons_of_mem _ hy))
    refine ⟨p', h', hr, ?_⟩
    have e : (h :: xs).length + fuel = (xs.length + fuel) + 1 := by
      simp only [List.length_cons]; omega
    rw [e, ← heq]
    conv => lhs; unfold find_fit_loop
    rw [if_neg h2, hsx]
    simp only [Option.bind_eq_bind, Option.some_bind]
    rw [if_neg (by omega), h6]
    simp only [Option.some_bind]

/-- The loop of `find_fit` ends without a fit when none of the first 300 nodes of
the free list is large enough. -/
theorem find_fit_loop_none {s : Heap} {asize : Nat} {L : List Nat}
    (hl : IsFreeList s 0 s.freel_head L)
    (hsmall : ∀ x ∈ L.take 300, ∃ sx, GET_SIZE s (HDRP x) = some sx ∧ sx < asize) :
    find_fit_loop s asize 300 s.freel_head = some none := by
  have hL : L.take 300 ++ L.drop 300 = L := List.take_append_drop 300 L
  rw [← hL] at hl
  obtain ⟨p', h', hr, heq⟩ :=
    find_fit_loop_skip (L.take 300) (L.drop 300) (300 - (L.take 300).length) 0 _ hl hsmall
  have hlen : (L.take 300).length + (300 - (L.take 300).length) = 300 := by
    have := List.length_take_le 300 L
    omega
  rw [hlen] at heq
  rw [heq]
  by_cases hshort : L.length ≤ 300
  · have hd : L.drop 300 = [] := List.drop_eq_nil_of_le hshort
    rw [hd] at hr
    have h0 : h' = 0 := hr
    subst h0
    cases hk : 300 - (L.take 300).length with
    | zero => rfl
    | succ k => unfold find_fit_loop; rw [if_pos rfl]
  · have hk : 300 - (L.take 300).length = 0 := by
      rw [List.length_take]; omega
    rw [hk]
    rfl

/-- A free list survives any change of the state that keeps the links of its
nodes and does not shrink the arena. -/
theorem IsFreeList_grow {s s' : Heap} (hlo : s'.mem_start_brk = s.mem_start_brk)
    (hbrk : s.mem_brk ≤ s'.mem_brk) :
    ∀ (l : List Nat) (p h : Nat), (∀ x ∈ l, SameLinks s s' x) →
      IsFreeList s p h l → IsFreeList s' p h l := by
  intro l
  induction l with
  | nil => intro p h _ hl; exact hl
  | cons x xs ih =>
    intro p h hs hl
    obtain ⟨h1, h2, h3, h4, h5, nx, h6, h7⟩ := hl
    have hx := hs x (List.mem_cons_self _ _)
    refine ⟨h1, h2, by omega, by omega, by rw [hx.1, h5], nx, by rw [hx.2, h6], ?_⟩
    exact ih x nx (fun y hy => hs y (List.mem_cons_of_mem _ hy)) h7

/-- The first fit is large enough to split: `find_fit` carves the allocated
block from its tail and leaves the free list as it was. -/
theorem find_fit_split {s : Heap} {asize c sc : Nat} {l1 l2 : List Nat}
    (hbrk : s.mem_brk ≤ 4294967296)
    (hl : IsFreeList s 0 s.freel_head (l1 ++ c :: l2))
    (hlen : l1.length < 300)
    (hsmall : ∀ x ∈ l1, ∃ sx, GET_SIZE s (HDRP x) = some sx ∧ sx < asize)
    (hsc : GET_SIZE s (HDRP c) = some sc)
    (hlo : s.mem_start_brk + 4 ≤ c) (hend : c + sc + 4 ≤ s.mem_brk)
    (hdisj : ∀ x ∈ l1 ++ c :: l2, x ≠ c → x + 12 ≤ c - 4 ∨ c + sc + 4 ≤ x)
    (ha8 : asize % 8 = 0) (hfit : asize + 32 ≤ sc) :
    ∃ s', find_fit s s.freel_head asize = some (c + sc - asize, s') ∧
      s'.mem_start_brk = s.mem_start_brk ∧ s'.mem_brk = s.mem_brk ∧
      s'.mem_max_addr = s.mem_max_addr ∧ s'.heap_listp = s.heap_listp ∧
      GET s' (c - 4) = some (sc - asize - 8) ∧
      GET s' (c + (sc - asize - 8)) = some (sc - asize - 8) ∧
      GET s' (c + sc - asize - 4) = some (asize + 1) ∧
      GET s' (c + sc) = some (asize + 1) ∧
      IsFreeList s' 0 s'.freel_head (l1 ++ c :: l2) ∧
      ∀ q, (q + 4 ≤ c - 4 ∨ (c ≤ q ∧ q + 4 ≤ c + (sc - asize - 8)) ∨
          (c + sc - asize ≤ q ∧ q + 4 ≤ c + sc) ∨ c + sc + 4 ≤ q) →
        GET s' q = GET s q := by
  obtain ⟨p', h', hr, heq⟩ :=
    find_fit_loop_skip l1 (c :: l2) (300 - l1.length) 0 _ hl hsmall
  have hlen' : l1.length + (300 - l1.length) = 300 := by omega
  rw [hlen'] at heq
  obtain ⟨k, hk⟩ : ∃ k, 300 - l1.length = k + 1 := ⟨299 - l1.length, by omega⟩
  rw [hk] at heq
  have hc : h' = c := hr.1
  have hc0 : c ≠ 0 := hr.2.1
  subst hc
  obtain ⟨w, hw, hwlt, hscv⟩ := GET_SIZE_some hsc
  obtain ⟨s', hsp, a1, a2, a3, a4, a5, g1, g2, g3, g4, hfr⟩ :=
    split_n_place_spec hbrk hlo hsc hend ha8 (by omega)
  refine ⟨s', ?_, a1, a2, a3, a5, g1, g2, g3, g4, ?_, hfr⟩
  · unfold find_fit
    rw [heq]
    unfold find_fit_loop
    rw [if_neg hc0, hsc]
    simp only [Option.bind_eq_bind, Option.some_bind]
    rw [if_pos (by omega), if_pos (by rw [padd_eq (by omega)]; omega), hsp]
    rfl
  · rw [a4]
    refine IsFreeList_frame a1 a2 _ _ _ (fun x hx => ?_) hl
    have hxb := IsFreeList_mem _ _ _ x hl hx
    unfold SameLinks GET_PRV GET_NXT
    rw [padd_eq (show x + DSIZE < 4294967296 by unfold DSIZE; omega)]
    unfold DSIZE
    by_cases hxc : x = h'
    · subst hxc
      exact ⟨hfr _ (by omega), hfr _ (by omega)⟩
    · have := hdisj x hx hxc
      exact ⟨hfr _ (by omega), hfr _ (by omega)⟩

/-- The first fit is too small to split: `find_fit` unlinks it and returns the
whole block. -/
theorem find_fit_whole {s : Heap} {asize c sc : Nat} {l1 l2 : List Nat}
    (hbrk : s.mem_brk ≤ 4294967296)
    (hl : IsFreeList s 0 s.freel_head (l1 ++ c :: l2))
    (hsep : Separated (l1 ++ c :: l2))
    (hlen : l1.length < 300)
    (hsmall : ∀ x ∈ l1, ∃ sx, GET_SIZE s (HDRP x) = some sx ∧ sx < asize)
    (hsc : GET_SIZE s (HDRP c) = some sc)
    (hlo : s.mem_start_brk + 4 ≤ c) (hend : c + sc + 4 ≤ s.mem_brk)
    (hdisj : ∀ x ∈ l1 ++ c :: l2, x ≠ c → x + 12 ≤ c - 4 ∨ c + sc + 4 ≤ x)
    (hfit : asize ≤ sc) (hsmall2 : sc < asize + 32) (ha : asize + 32 < 4294967296) :
    ∃ s', find_fit s s.freel_head asize = some (c, s') ∧
      s'.mem_start_brk = s.mem_start_brk ∧ s'.mem_brk = s.mem_brk ∧
      s'.mem_max_addr = s.mem_max_addr ∧ s'.heap_listp = s.heap_listp ∧
      GET s' (c - 4) = some (sc + 1) ∧
      GET s' (c + sc) = some (sc + 1) ∧
      IsFreeList s' 0 s'.freel_head ((l1 ++ c :: l2).erase c) := by
  obtain ⟨p', h', hr, heq⟩ :=
    find_fit_loop_skip l1 (c :: l2) (300 - l1.length) 0 _ hl hsmall
  have hlen' : l1.length + (300 - l1.length) = 300 := by omega
  rw [hlen'] at heq
  obtain ⟨k, hk⟩ : ∃ k, 300 - l1.length = k + 1 := ⟨299 - l1.length, by omega⟩
  rw [hk] at heq
  have hc : h' = c := hr.1
  have hc0 : c ≠ 0 := hr.2.1
  subst hc
  obtain ⟨w, hw, hwlt, hscv⟩ := GET_SIZE_some hsc
  have hH : HDRP h' = h' - 4 := by unfold HDRP WSIZE; exact psub_eq (by omega) (by omega)
  have hmem : h' ∈ l1 ++ h' :: l2 := List.mem_append_right _ (List.mem_cons_self _ _)
  obtain ⟨s1, hrm, r1, r2, r3, r4, r5, r6⟩ := freel_remove_spec hbrk hl hsep hmem
  obtain ⟨s2, hp2⟩ := PUT_exists (s := s1) (p := h' - 4) (sc + 1) ⟨by omega, by omega⟩
  obtain ⟨f1, f2, f3, f4, f5, _⟩ := PUT_fields hp2
  have g2 : GET s2 (h' - 4) = some (sc + 1) := GET_PUT_same hp2 (by omega)
  have hf2 : FTRP s2 h' = some (h' + sc) := by
    unfold FTRP
    rw [hH, GET_SIZE_tag g2 (by omega) (Or.inr rfl)]
    simp only [Option.map_some', Option.some.injEq]
    exact padd_eq (by omega)
  obtain ⟨s3, hp3⟩ := PUT_exists (s := s2) (p := h' + sc) (sc + 1) ⟨by omega, by omega⟩
  obtain ⟨e1, e2, e3, e4, e5, _⟩ := PUT_fields hp3
  refine ⟨s3, ?_, by omega, by omega, by omega, by omega, ?_, GET_PUT_same hp3 (by omega), ?_⟩
  · unfold find_fit
    rw [heq]
    unfold find_fit_loop
    rw [if_neg hc0, hsc]
    simp only [Option.bind_eq_bind, Option.some_bind]
    rw [if_pos (by omega), if_neg (by rw [padd_eq (by omega)]; omega), hrm]
    simp only [Option.some_bind]
    rw [hH, PACK_one (by omega), hp2]
    simp only [Option.some_bind]
    rw [hf2]
    simp only [Option.some_bind]
    rw [hp3]
    rfl
  · rw [GET_PUT_other hp3 (by omega), g2]
  · rw [e4, f4]
    refine IsFreeList_frame (s := s1) (by rw [e1, f1]) (by rw [e2, f2]) _ _ _ (fun x hx => ?_) r5
    have hxL : x ∈ l1 ++ h' :: l2 := List.mem_of_mem_erase hx
    have hne : x ≠ h' := fun e => by
      rw [e] at hx
      exact (List.Nodup.not_mem_erase (Separated_nodup hsep)) hx
    have hd := hdisj x hxL hne
    have hxb := IsFreeList_mem _ _ _ x hl hxL
    refine ⟨?_, ?_⟩
    · unfold GET_PRV
      rw [GET_PUT_other hp3 (by omega), GET_PUT_other hp2 (by omega)]
    · unfold GET_NXT
      rw [GET_PUT_other hp3 (by unfold padd DSIZE; omega),
        GET_PUT_other hp2 (by unfold padd DSIZE; omega)]

/-- No fit among the first 300 nodes and room to grow: `find_fit` extends the
arena by `asize + 8` bytes and returns the old arena top as a block of `asize`
bytes, followed by a new epilogue header. -/
theorem find_fit_extend {s : Heap} {asize : Nat} {L : List Nat}
    (hmax : s.mem_max_addr ≤ 4294967296)
    (hlo : s.mem_start_brk + 4 ≤ s.mem_brk)
    (hl : IsFreeList s 0 s.freel_head L)
    (hsmall : ∀ x ∈ L.take 300, ∃ sx, GET_SIZE s (HDRP x) = some sx ∧ sx < asize)
    (htop : ∀ x ∈ L, x + 12 ≤ s.mem_brk - 4)
    (ha8 : asize % 8 = 0)
    (hroom : s.mem_brk + asize + 8 ≤ s.mem_max_addr) :
    ∃ s', find_fit s s.freel_head asize = some (s.mem_brk, s') ∧
      s'.mem_start_brk = s.mem_start_brk ∧ s'.mem_brk = s.mem_brk + asize + 8 ∧
      s'.mem_max_addr = s.mem_max_addr ∧ s'.heap_listp = s.heap_listp ∧
      GET s' (s.mem_brk - 4) = some (asize + 1) ∧
      GET s' (s.mem_brk + asize) = some (asize + 1) ∧
      GET s' (s.mem_brk + asize + 4) = some 1 ∧
      IsFreeList s' 0 s'.freel_head L ∧
      ∀ q, q + 4 ≤ s.mem_brk - 4 → GET s' q = GET s q := by
  have hloop := find_fit_loop_none hl hsmall
  have hpa : padd asize (2 * WSIZE) = asize + 8 := by
    unfold WSIZE; exact padd_eq (by omega)
  have hH : HDRP s.mem_brk = s.mem_brk - 4 := by
    unfold HDRP WSIZE; exact psub_eq (by omega) (by omega)
  have hext : extend_heap s asize =
      (s.mem_brk, { s with mem_brk := s.mem_brk + (asize + 8) }) := by
    unfold extend_heap mem_sbrk
    rw [hpa, if_pos (by omega)]
  obtain ⟨s2, hp2⟩ := PUT_exists (s := { s with mem_brk := s.mem_brk + (asize + 8) })
    (p := s.mem_brk - 4) (asize + 1) ⟨by simp only; omega, by simp only; omega⟩
  obtain ⟨f1, f2, f3, f4, f5, _⟩ := PUT_fields hp2
  simp only at f1 f2 f3 f4 f5
  have g2 : GET s2 (s.mem_brk - 4) = some (asize + 1) := GET_PUT_same hp2 (by omega)
  have hf2 : FTRP s2 s.mem_brk = some (s.mem_brk + asize) := by
    unfold FTRP
    rw [hH, GET_SIZE_tag g2 ha8 (Or.inr rfl)]
    simp only [Option.map_some', Option.some.injEq]
    exact padd_eq (by omega)
  obtain ⟨s3, hp3⟩ := PUT_exists (s := s2) (p := s.mem_brk + asize) (asize + 1)
    ⟨by omega, by omega⟩
  obtain ⟨e1, e2, e3, e4, e5, _⟩ := PUT_fields hp3
  have g3 : GET s3 (s.mem_brk - 4) = some (asize + 1) := by
    rw [GET_PUT_other hp3 (by omega), g2]
  have hf3 : FTRP s3 s.mem_brk = some (s.mem_brk + asize) := by
    unfold FTRP
    rw [hH, GET_SIZE_tag g3 ha8 (Or.inr rfl)]
    simp only [Option.map_some', Option.some.injEq]
    exact padd_eq (by omega)
  obtain ⟨s4, hp4⟩ := PUT_exists (s := s3) (p := s.mem_brk + asize + 4) 1
    ⟨by omega, by omega⟩
  obtain ⟨d1, d2, d3, d4, d5, _⟩ := PUT_fields hp4
  have hfr : ∀ q, q + 4 ≤ s.mem_brk - 4 → GET s4 q = GET s q := by
    intro q hq
    rw [GET_PUT_other hp4 (by omega), GET_PUT_other hp3 (by omega),
      GET_PUT_other hp2 (by omega)]
    unfold GET
    by_cases hin : inArena s q 4
    · rw [if_pos hin, if_pos ⟨hin.1, by simp only; omega⟩]
    · rw [if_neg hin, if_neg (fun h => hin ⟨h.1, by omega⟩)]
  refine ⟨s4, ?_, by omega, by omega, by omega, by omega, ?_, ?_, GET_PUT_same hp4 (by omega),
    ?_, hfr⟩
  · unfold find_fit
    rw [hloop]
    simp only [Option.bind_eq_bind, Option.some_bind, hext]
    rw [if_neg (by unfold SBRK_FAIL; omega), hH, PACK_one ha8, hp2]
    simp only [Option.some_bind]
    rw [hf2]
    simp only [Option.some_bind]
    rw [hp3]
    simp only [Option.some_bind]
    rw [hf3]
    simp only [Option.some_bind]
    rw [padd_eq (show s.mem_brk + asize + WSIZE < 4294967296 by unfold WSIZE; omega)]
    have hk : PACK 0 1 = 1 := by decide
    rw [hk]
    unfold WSIZE
    rw [hp4]
    rfl
  · rw [GET_PUT_other hp4 (by omega), g3]
  · rw [GET_PUT_other hp4 (by omega)]
    exact GET_PUT_same hp3 (by omega)
  · have hh : s4.freel_head = s.freel_head := by rw [d4, e4, f4]
    rw [hh]
    refine IsFreeList_grow (by omega) (by omega) _ _ _ (fun x hx => ?_) hl
    have hxt := htop x hx
    unfold SameLinks GET_PRV GET_NXT
    rw [padd_eq (show x + DSIZE < 4294967296 by unfold DSIZE; omega)]
    unfold DSIZE
    exact ⟨hfr _ (by omega), hfr _ (by omega)⟩

theorem spec_asize_mod8 (n : Nat) : spec_asize n % 8 = 0 := by
  unfold spec_asize align_up_8
  split <;> omega

/-! ## Freeing: the contracts of `freel_insert`, `coalesce` and `mm_free` -/

/-- What `freel_insert` does to a well-formed free list: the node `a` becomes the
head, and only the links of `a` and the previous-free link of the old head are
written. -/
theorem freel_insert_spec {s : Heap} {L : List Nat} {a : Nat}
    (hbrk : s.mem_brk ≤ 4294967296) (ha0 : a ≠ 0)
    (halo : s.mem_start_brk ≤ a) (hahi : a + 12 ≤ s.mem_brk)
    (hl : IsFreeList s 0 s.freel_head L) (hsep : Separated L)
    (hout : ∀ x ∈ L, x + 12 ≤ a ∨ a + 12 ≤ x) :
    ∃ s', freel_insert s a = some s' ∧ s'.mem_start_brk = s.mem_start_brk ∧
      s'.mem_brk = s.mem_brk ∧ s'.mem_max_addr = s.mem_max_addr ∧
      s'.heap_listp = s.heap_listp ∧ s'.freel_head = a ∧
      IsFreeList s' 0 a (a :: L) ∧
      ∀ q, (q + 4 ≤ a ∨ a + 12 ≤ q) →
        (s.freel_head ≠ 0 → q + 4 ≤ s.freel_head ∨ s.freel_head + 4 ≤ q) →
        GET s' q = GET s q := by
  have hpa : padd a DSIZE = a + 8 := by unfold DSIZE; exact padd_eq (by omega)
  obtain ⟨s1, hp1⟩ := PUT_exists (s := s) (p := a + 8) s.freel_head ⟨by omega, by omega⟩
  obtain ⟨a1, a2, a3, a4, a5, _⟩ := PUT_fields hp1
  obtain ⟨s2, hp2⟩ := PUT_exists (s := s1) (p := a) 0 ⟨by omega, by omega⟩
  obtain ⟨b1, b2, b3, b4, b5, _⟩ := PUT_fields hp2
  have hhd : s.freel_head ≠ 0 → s.freel_head ∈ L := fun h => IsFreeList_head_mem hl h
  have hbd := fun x hx => IsFreeList_mem _ _ _ x hl hx
  have hhlt : s.freel_head < 4294967296 := by
    by_cases h0 : s.freel_head = 0
    · omega
    · have := hbd _ (hhd h0); omega
  by_cases h0 : s.freel_head = 0
  · -- the list was empty
    have hL : L = [] := by
      cases L with
      | nil => rfl
      | cons x xs => exact absurd (hl.1.symm ▸ h0) hl.2.1
    subst hL
    refine ⟨{ s2 with freel_head := a }, ?_, by simp only; omega, by simp only; omega,
      by simp only; omega, by simp only; omega, rfl, ?_, ?_⟩
    · unfold freel_insert SET_NXT SET_PRV
      simp only [hpa, hp1, hp2, Option.bind_eq_bind, Option.some_bind]
      rw [if_neg (by omega)]
    · refine ⟨rfl, ha0, by simp only; omega, by simp only; omega, ?_, 0, ?_, rfl⟩
      · unfold GET_PRV; rw [GET_freel_head]; exact GET_PUT_same hp2 (by omega)
      · unfold GET_NXT
        rw [hpa, GET_freel_head, GET_PUT_other hp2 (by omega)]
        rw [← h0]
        exact GET_PUT_same hp1 (by omega)
    · intro q hq _
      rw [GET_freel_head, GET_PUT_other hp2 (by omega), GET_PUT_other hp1 (by omega)]
  · have hmem := hhd h0
    have hhb := hbd _ hmem
    have hho := hout _ hmem
    obtain ⟨s3, hp3⟩ := PUT_exists (s := s2) (p := s.freel_head) a ⟨by omega, by omega⟩
    obtain ⟨c1, c2, c3, c4, c5, _⟩ := PUT_fields hp3
    refine ⟨{ s3 with freel_head := a }, ?_, by simp only; omega, by simp only; omega,
      by simp only; omega, by simp only; omega, rfl, ?_, ?_⟩
    · unfold freel_insert SET_NXT SET_PRV
      simp only [hpa, hp1, hp2, Option.bind_eq_bind, Option.some_bind]
      rw [if_pos h0, hp3]
      rfl
    · refine ⟨rfl, ha0, by simp only; omega, by simp only; omega, ?_, s.freel_head, ?_, ?_⟩
      · unfold GET_PRV
        rw [GET_freel_head, GET_PUT_other hp3 (by omega)]
        exact GET_PUT_same hp2 (by omega)
      · unfold GET_NXT
        rw [hpa, GET_freel_head, GET_PUT_other hp3 (by omega), GET_PUT_other hp2 (by omega)]
        exact GET_PUT_same hp1 (by omega)
      · have hfr : ∀ q, (q + 4 ≤ a ∨ a + 12 ≤ q) →
            (q + 4 ≤ s.freel_head ∨ s.freel_head + 4 ≤ q) →
            GET { s3 with freel_head := a } q = GET s q := by
          intro q h1 h2
          rw [GET_freel_head, GET_PUT_other hp3 (by omega), GET_PUT_other hp2 (by omega),
            GET_PUT_other hp1 (by omega)]
        refine IsFreeList_relink (s := s) (by simp only; omega) (by simp only; omega) hl
          (fun _ => ⟨?_, ?_⟩) (fun x hx hne => ?_) (Separated_nodup hsep)
        · unfold GET_PRV
          rw [GET_freel_head]
          exact GET_PUT_same hp3 (by omega)
        · unfold GET_NXT
          rw [padd_eq (show s.freel_head + DSIZE < 4294967296 by unfold DSIZE; omega)]
          exact hfr _ (by unfold DSIZE; omega) (by unfold DSIZE; omega)
        · have hxb := hbd x hx
          have hxo := hout x hx
          have hxs := Separated_forall hsep x hx _ hmem hne
          unfold SameLinks GET_PRV GET_NXT
          rw [padd_eq (show x + DSIZE < 4294967296 by unfold DSIZE; omega)]
          unfold DSIZE
          exact ⟨hfr _ (by omega) (by omega), hfr _ (by omega) (by omega)⟩
    · intro q hq hh
      have := hh h0
      rw [GET_freel_head, GET_PUT_other hp3 (by omega), GET_PUT_other hp2 (by omega),
        GET_PUT_other hp1 (by omega)]

theorem FTRP_some {s : Heap} {p f : Nat} (h : FTRP s p = some f) :
    ∃ sz, GET_SIZE s (HDRP p) = some sz ∧ f = padd p sz := by
  unfold FTRP at h
  cases hg : GET_SIZE s (HDRP p) with
  | none => rw [hg] at h; simp at h
  | some sz =>
    rw [hg] at h
    simp only [Option.map_some', Option.some.injEq] at h
    exact ⟨sz, rfl, h.symm⟩

theorem NEXT_BLKP_some {s : Heap} {p q : Nat} (h : NEXT_BLKP s p = some q) :
    ∃ sz, GET_SIZE s (HDRP p) = some sz ∧ q = padd (padd p sz) (2 * WSIZE) := by
  unfold NEXT_BLKP at h
  cases hg : GET_SIZE s (HDRP p) with
  | none => rw [hg] at h; simp at h
  | some sz =>
    rw [hg] at h
    simp only [Option.map_some', Option.some.injEq] at h
    exact ⟨sz, rfl, h.symm⟩

/-- Writing the header `x + 1` and then the footer of a block leaves the header in
place. -/
theorem header_after_footer {s2 s3 s4 : Heap} {p x fp : Nat}
    (hx8 : x % 8 = 0) (hxlt : x < 4294967296)
    (h3 : PUT s2 (HDRP p) (x + 1) = some s3)
    (hfp : FTRP s3 p = some fp)
    (h4 : PUT s3 fp (x + 1) = some s4) :
    GET s4 (HDRP p) = some (x + 1) ∧ fp = padd p x := by
  have g3 : GET s3 (HDRP p) = some (x + 1) := GET_PUT_same h3 (by omega)
  obtain ⟨sz, hsz, hfpe⟩ := FTRP_some hfp
  rw [GET_SIZE_tag g3 hx8 (Or.inr rfl)] at hsz
  simp only [Option.some.injEq] at hsz
  subst hsz
  have i3 := (PUT_some h3).1
  refine ⟨?_, hfpe⟩
  rw [GET_PUT_other h4 ?_, g3]
  have := i3.2
  rw [hfpe]
  unfold HDRP psub padd WSIZE at *
  omega

/-- The function `freel_remove` leaves the bounds of the arena as they are. -/
theorem freel_remove_fields {s s' : Heap} {p : Nat} (h : freel_remove s p = some s') :
    s'.mem_start_brk = s.mem_start_brk ∧ s'.mem_brk = s.mem_brk ∧
      s'.mem_max_addr = s.mem_max_addr := by
  unfold freel_remove SET_NXT SET_PRV at h
  simp only [Option.bind_eq_bind, Option.bind_eq_some] at h
  obtain ⟨next, _, prev, _, h⟩ := h
  split at h
  · split at h
    · obtain ⟨a1, a2, a3, _⟩ := PUT_fields h
      exact ⟨a1, a2, a3⟩
    · simp only [Option.some.injEq] at h
      subst h
      exact ⟨rfl, rfl, rfl⟩
  · simp only [Option.bind_eq_some] at h
    obtain ⟨s1, h1, h⟩ := h
    obtain ⟨a1, a2, a3, _⟩ := PUT_fields h1
    split at h
    · obtain ⟨b1, b2, b3, _⟩ := PUT_fields h
      exact ⟨by omega, by omega, by omega⟩
    · simp only [Option.some.injEq] at h
      subst h
      exact ⟨a1, a2, a3⟩

/-- A block returned from inside the loop of `find_fit` carries an allocated
header of at least `asize` bytes. -/
theorem find_fit_loop_header (s : Heap) (asize : Nat)
    (ha8 : asize % 8 = 0) (halt : asize < 4294967296) :
    ∀ (fuel ptr p : Nat) (s' : Heap),
      find_fit_loop s asize fuel ptr = some (some (p, s')) →
      ∃ sz, GET s' (HDRP p) = some (sz + 1) ∧ sz % 8 = 0 ∧ asize ≤ sz ∧
        s'.mem_brk = s.mem_brk ∧ s'.mem_start_brk = s.mem_start_brk := by
  intro fuel
  induction fuel with
  | zero => intro ptr p s' h; simp [find_fit_loop] at h
  | succ n ih =>
    intro ptr p s' h
    unfold find_fit_loop at h
    split at h
    · simp at h
    · rename_i hne
      simp only [Option.bind_eq_bind, Option.bind_eq_some] at h
      obtain ⟨tempsize, hts, h⟩ := h
      obtain ⟨w, hw, hwlt, htv⟩ := GET_SIZE_some hts
      split at h
      · rename_i hge
        split at h
        · simp only [Option.bind_eq_some] at h
          obtain ⟨r, hr, h⟩ := h
          simp only [Option.some.injEq] at h
          subst h
          unfold split_n_place at hr
          simp only [Option.bind_eq_bind, Option.bind_eq_some] at hr
          obtain ⟨sz, _, s1, h1, f, _, s2, h2, p', hp', s3, h3, fp, hfp, s4, h4, h5⟩ := hr
          simp only [Option.some.injEq, Prod.mk.injEq] at h5
          obtain ⟨rfl, rfl⟩ := h5
          obtain ⟨a1, a2, _⟩ := PUT_fields h1
          obtain ⟨b1, b2, _⟩ := PUT_fields h2
          obtain ⟨c1, c2, _⟩ := PUT_fields h3
          obtain ⟨d1, d2, _⟩ := PUT_fields h4
          obtain ⟨_, _, hpe⟩ := NEXT_BLKP_some hp'
          rw [PACK_one ha8] at h3 h4
          have := header_after_footer ha8 halt h3 hfp h4
          exact ⟨asize, this.1, ha8, le_refl _, by omega, by omega⟩
        · simp only [Option.bind_eq_some] at h
          obtain ⟨s1, hrm, s2, h2, f, hf, s3, h3, h⟩ := h
          simp only [Option.some.injEq, Prod.mk.injEq] at h
          obtain ⟨rfl, rfl⟩ := h
          obtain ⟨a1, a2, _⟩ := freel_remove_fields hrm
          obtain ⟨b1, b2, _⟩ := PUT_fields h2
          obtain ⟨c1, c2, _⟩ := PUT_fields h3
          rw [PACK_one (by omega)] at h2 h3
          have := header_after_footer (by omega) (by omega) h2 hf h3
          exact ⟨tempsize, this.1, by omega, hge, by omega, by omega⟩
      · simp only [Option.bind_eq_some] at h
        obtain ⟨nxt, _, h⟩ := h
        exact ih nxt p s' h

/-- A non-null block returned by `mm_malloc(n)`, for a request whose adjusted size
does not wrap around, carries an allocated header of at least `n` bytes. -/
theorem mm_malloc_header {s s1 : Heap} {n a : Nat} (hn : n ≤ 4294967128)
    (hbrk : s.mem_brk ≤ s.mem_max_addr)
    (hm : mm_malloc s n = some (a, s1)) (ha : a ≠ 0) :
    ∃ sz, GET s1 (HDRP a) = some (sz + 1) ∧ sz % 8 = 0 ∧ n ≤ sz ∧ spec_asize n ≤ sz ∧
      s1.mem_start_brk = s.mem_start_brk ∧ s1.mem_brk ≤ s.mem_max_addr := by
  unfold mm_malloc at hm
  split at hm
  · simp only [Option.some.injEq, Prod.mk.injEq] at hm
    exact absurd hm.1.symm ha
  · have hle := le_adjusted_size (n := n) (by omega)
    rw [adjusted_size_eq (by omega)] at hm hle
    have ha8 := spec_asize_mod8 n
    have halt : spec_asize n ≤ 4294967256 := by
      unfold spec_asize align_up_8; split <;> omega
    unfold find_fit at hm
    simp only [Option.bind_eq_bind, Option.bind_eq_some] at hm
    obtain ⟨r, hr, hm⟩ := hm
    cases r with
    | some r =>
      simp only [Option.some.injEq] at hm
      subst hm
      obtain ⟨sz, g, h8, hge, e1, e2⟩ :=
        find_fit_loop_header s (spec_asize n) ha8 (by omega) 300 _ a s1 hr
      exact ⟨sz, g, h8, by omega, hge, e2, by omega⟩
    | none =>
      simp only [extend_heap, mem_sbrk] at hm
      rw [padd_eq (show spec_asize n + 2 * WSIZE < 4294967296 by unfold WSIZE; omega)] at hm
      unfold WSIZE at hm
      split at hm
      · rename_i hle2
        simp only at hm
        split at hm
        · simp only [Option.some.injEq, Prod.mk.injEq] at hm
          exact absurd hm.1.symm ha
        · simp only [Option.bind_eq_some] at hm
          obtain ⟨s2, h2, f, hf, s3, h3, f2, hf2, s4, h4, hm⟩ := hm
          simp only [Option.some.injEq, Prod.mk.injEq] at hm
          obtain ⟨rfl, rfl⟩ := hm
          obtain ⟨b1, b2, _⟩ := PUT_fields h2
          obtain ⟨c1, c2, _⟩ := PUT_fields h3
          obtain ⟨d1, d2, _⟩ := PUT_fields h4
          simp only at b1 b2
          rw [PACK_one ha8] at h2 h3
          obtain ⟨g3, hfe⟩ := header_after_footer ha8 (by omega) h2 hf h3
          obtain ⟨sz, hsz, hf2e⟩ := FTRP_some hf2
          rw [GET_SIZE_tag g3 ha8 (Or.inr rfl)] at hsz
          simp only [Option.some.injEq] at hsz
          subst hsz
          have i2 := (PUT_some h2).1
          refine ⟨spec_asize n, ?_, ha8, hle, le_refl _, by omega, by omega⟩
          rw [GET_PUT_other h4 ?_, g3]
          have := i2.1
          have := i2.2
          simp only at *
          rw [hf2e]
          unfold HDRP psub padd WSIZE at *
          omega
      · simp only [if_true, Option.some.injEq, Prod.mk.injEq] at hm
        exact absurd hm.1.symm ha

/-- Two states with the same arena that agree on the four bytes at `q` hold the
same word there. -/
theorem GET_congr {s s' : Heap} {q : Nat} (hlo : s'.mem_start_brk = s.mem_start_brk)
    (hbrk : s'.mem_brk = s.mem_brk) (h : ∀ i, i < 4 → s'.mem (q + i) = s.mem (q + i)) :
    GET s' q = GET s q := by
  unfold GET inArena
  rw [hlo, hbrk]
  have e : rdw s'.mem q = rdw s.mem q := by
    unfold rdw
    rw [← Nat.add_zero q, h 0 (by omega), Nat.add_zero, h 1 (by omega), h 2 (by omega),
      h 3 (by omega)]
  rw [e]

/-- The first two stores of `mm_free`: the header and the footer of `a` are marked
free, and what remains is the choice between `coalesce` and `freel_insert`. -/
theorem mm_free_mark {s : Heap} {a sz : Nat}
    (hbrk : s.mem_brk ≤ 4294967296)
    (hsz : GET_SIZE s (HDRP a) = some sz)
    (hlo : s.mem_start_brk + 4 ≤ a) (hhi : a + sz + 4 ≤ s.mem_brk) :
    ∃ s2, mm_free s a = (if s2.freel_head ≠ 0 then coalesce s2 a else freel_insert s2 a) ∧
      s2.mem_start_brk = s.mem_start_brk ∧ s2.mem_brk = s.mem_brk ∧
      s2.mem_max_addr = s.mem_max_addr ∧ s2.freel_head = s.freel_head ∧
      s2.heap_listp = s.heap_listp ∧
      GET s2 (a - 4) = some sz ∧ GET s2 (a + sz) = some sz ∧
      ∀ q, (q + 4 ≤ a - 4 ∨ (a ≤ q ∧ q + 4 ≤ a + sz) ∨ a + sz + 4 ≤ q) →
        GET s2 q = GET s q := by
  obtain ⟨w, hw, hwlt, hszv⟩ := GET_SIZE_some hsz
  have hH : HDRP a = a - 4 := by unfold HDRP WSIZE; exact psub_eq (by omega) (by omega)
  obtain ⟨s1, hp1⟩ := PUT_exists (s := s) (p := a - 4) sz ⟨by omega, by omega⟩
  obtain ⟨a1, a2, a3, a4, a5, _⟩ := PUT_fields hp1
  have g1 : GET s1 (a - 4) = some sz := GET_PUT_same hp1 (by omega)
  have hf1 : FTRP s1 a = some (a + sz) := by
    unfold FTRP
    rw [hH, GET_SIZE_tag g1 (by omega) (Or.inl rfl)]
    simp only [Option.map_some', Option.some.injEq]
    exact padd_eq (by omega)
  obtain ⟨s2, hp2⟩ := PUT_exists (s := s1) (p := a + sz) sz ⟨by omega, by omega⟩
  obtain ⟨b1, b2, b3, b4, b5, _⟩ := PUT_fields hp2
  refine ⟨s2, ?_, by omega, by omega, by omega, by omega, by omega, ?_,
    GET_PUT_same hp2 (by omega), ?_⟩
  · unfold mm_free
    rw [hsz]
    simp only [Option.bind_eq_bind, Option.some_bind]
    rw [if_neg (by omega), PACK_zero, hH, hp1]
    simp only [Option.some_bind]
    rw [hf1]
    simp only [Option.some_bind]
    rw [hp2]
    simp only [Option.some_bind]
  · rw [GET_PUT_other hp2 (by omega), g1]
  · intro q hq
    rw [GET_PUT_other hp2 (by omega), GET_PUT_other hp1 (by omega)]

/-- What `coalesce` reads first: the footer address of `a`, the allocated bits of
the two neighbouring tags, and the size of `a`. -/
theorem coalesce_reads {s : Heap} {a sz pa na : Nat}
    (hbrk : s.mem_brk < 4294967296)
    (hlo : s.mem_start_brk + 8 ≤ a) (hhi : a + sz + 8 ≤ s.mem_brk)
    (hh : GET s (a - 4) = some sz) (hs8 : sz % 8 = 0)
    (hpa : GET_ALLOC s (a - 8) = some pa) (hna : GET_ALLOC s (a + sz + 4) = some na) :
    HDRP a = a - 4 ∧ GET_SIZE s (HDRP a) = some sz ∧ FTRP s a = some (a + sz) ∧
      GET_ALLOC s (padd (a + sz) WSIZE) = some na ∧
      GET_ALLOC s (psub a DSIZE) = some pa ∧
      NEXT_BLKP s a = some (a + sz + 8) := by
  have hH : HDRP a = a - 4 := by unfold HDRP WSIZE; exact psub_eq (by omega) (by omega)
  have hgs : GET_SIZE s (HDRP a) = some sz := by
    rw [hH]; exact GET_SIZE_tag hh hs8 (Or.inl rfl)
  refine ⟨hH, hgs, ?_, ?_, ?_, ?_⟩
  · unfold FTRP
    rw [hgs]
    simp only [Option.map_some', Option.some.injEq]
    exact padd_eq (by omega)
  · rw [padd_eq (show a + sz + WSIZE < 4294967296 by unfold WSIZE; omega)]
    exact hna
  · rw [psub_eq (show DSIZE ≤ a by unfold DSIZE; omega) (by omega)]
    exact hpa
  · unfold NEXT_BLKP
    rw [hgs]
    simp only [Option.map_some', Option.some.injEq, WSIZE, Nat.reduceMul]
    rw [padd_eq (a := a) (b := sz) (by omega), padd_eq (a := a + sz) (b := 8) (by omega)]

/-- Case 1 of `coalesce`: both neighbours are allocated. -/
theorem coalesce_case1 {s : Heap} {a sz pa na : Nat}
    (hbrk : s.mem_brk < 4294967296)
    (hlo : s.mem_start_brk + 8 ≤ a) (hhi : a + sz + 8 ≤ s.mem_brk)
    (hh : GET s (a - 4) = some sz) (hs8 : sz % 8 = 0)
    (hpa : GET_ALLOC s (a - 8) = some pa) (hna : GET_ALLOC s (a + sz + 4) = some na)
    (hp : pa ≠ 0) (hn : na ≠ 0) :
    coalesce s a = freel_insert s a := by
  obtain ⟨_, r1, r2, r3, r4, _⟩ := coalesce_reads hbrk hlo hhi hh hs8 hpa hna
  unfold coalesce
  rw [r2]
  simp only [Option.bind_eq_bind, Option.some_bind]
  rw [r3, r4]
  simp only [Option.some_bind]
  rw [r1]
  simp only [Option.some_bind]
  rw [if_pos ⟨hp, hn⟩]

/-- Case 2 of `coalesce`: the previous block is free, the next one is allocated.
The previous block grows over `a`; the free list is not touched. -/
theorem coalesce_case2 {s : Heap} {a sz pa na psz : Nat}
    (hbrk : s.mem_brk < 4294967296)
    (hlo : s.mem_start_brk + 8 ≤ a) (hhi : a + sz + 8 ≤ s.mem_brk)
    (hh : GET s (a - 4) = some sz) (hs8 : sz % 8 = 0)
    (hpa : GET_ALLOC s (a - 8) = some pa) (hna : GET_ALLOC s (a + sz + 4) = some na)
    (hp : pa = 0) (hn : na ≠ 0)
    (hps : GET_SIZE s (a - 8) = some psz)
    (hpl : s.mem_start_brk + 4 + psz + 8 ≤ a)
    (hph : GET_SIZE s (HDRP (a - psz - 8)) = some psz) :
    ∃ s', coalesce s a = some s' ∧ s'.mem_start_brk = s.mem_start_brk ∧
      s'.mem_brk = s.mem_brk ∧ s'.mem_max_addr = s.mem_max_addr ∧
      s'.freel_head = s.freel_head ∧ s'.heap_listp = s.heap_listp ∧
      GET s' (a - psz - 8 - 4) = some (sz + psz + 8) ∧
      GET s' (a + sz) = some (sz + psz + 8) ∧
      ∀ q, (q + 4 ≤ a - psz - 8 - 4 ∨ (a - psz - 8 ≤ q ∧ q + 4 ≤ a + sz) ∨ a + sz + 4 ≤ q) →
        GET s' q = GET s q := by
  obtain ⟨_, r1, r2, r3, r4, _⟩ := coalesce_reads hbrk hlo hhi hh hs8 hpa hna
  obtain ⟨w, hw, hwlt, hpv⟩ := GET_SIZE_some hps
  have hHp : HDRP (a - psz - 8) = a - psz - 8 - 4 := by
    unfold HDRP WSIZE; exact psub_eq (by omega) (by omega)
  have hprev : PREV_BLKP s a = some (a - psz - 8) := by
    unfold PREV_BLKP
    rw [psub_eq (show DSIZE ≤ a by unfold DSIZE; omega) (by omega)]
    unfold DSIZE WSIZE
    rw [hps]
    simp only [Option.map_some', Option.some.injEq, Nat.reduceMul]
    rw [psub_eq (a := a) (b := psz) (by omega) (by omega), psub_eq (by omega) (by omega)]
  have hsize : padd sz (padd psz (2 * WSIZE)) = sz + psz + 8 := by
    unfold WSIZE
    rw [padd_eq (a := psz) (b := 2 * 4) (by omega), padd_eq (by omega)]
    omega
  obtain ⟨s1, hp1⟩ := PUT_exists (s := s) (p := a - psz - 8 - 4) (sz + psz + 8)
    ⟨by omega, by omega⟩
  obtain ⟨a1, a2, a3, a4, a5, _⟩ := PUT_fields hp1
  have g1 : GET s1 (a - psz - 8 - 4) = some (sz + psz + 8) := GET_PUT_same hp1 (by omega)
  have hf1 : FTRP s1 (a - psz - 8) = some (a + sz) := by
    unfold FTRP
    rw [hHp, GET_SIZE_tag g1 (by omega) (Or.inl rfl)]
    simp only [Option.map_some', Option.some.injEq]
    rw [padd_eq (by omega)]
    omega
  obtain ⟨s2, hp2⟩ := PUT_exists (s := s1) (p := a + sz) (sz + psz + 8) ⟨by omega, by omega⟩
  obtain ⟨b1, b2, b3, b4, b5, _⟩ := PUT_fields hp2
  refine ⟨s2, ?_, by omega, by omega, by omega, by omega, by omega, ?_,
    GET_PUT_same hp2 (by omega), ?_⟩
  · unfold coalesce
    rw [r2]
    simp only [Option.bind_eq_bind, Option.some_bind]
    rw [r3, r4]
    simp only [Option.some_bind]
    rw [r1]
    simp only [Option.some_bind]
    rw [if_neg (fun h => h.1 hp), if_pos ⟨hp, hn⟩, hprev]
    simp only [Option.some_bind]
    rw [hph]
    simp only [Option.some_bind]
    rw [hsize, PACK_zero, hHp, hp1]
    simp only [Option.some_bind]
    rw [hf1]
    simp only [Option.some_bind]
    exact hp2
  · rw [GET_PUT_other hp2 (by omega), g1]
  · intro q hq
    rw [GET_PUT_other hp2 (by omega), GET_PUT_other hp1 (by omega)]

theorem Separated_erase {L : List Nat} (h : Separated L) (x : Nat) :
    Separated (L.erase x) := by
  unfold Separated at *
  exact List.Pairwise.sublist (List.erase_sublist x L) h

/-- Case 3 of `coalesce`: the previous block is allocated, the next one is free.
The next block is unlinked, `a` grows over it and becomes the head of the list. -/
theorem coalesce_case3 {s : Heap} {a sz pa na nsz : Nat} {L : List Nat}
    (hbrk : s.mem_brk < 4294967296)
    (hlo : s.mem_start_brk + 8 ≤ a) (hhi : a + sz + 8 ≤ s.mem_brk)
    (hh : GET s (a - 4) = some sz) (hs8 : sz % 8 = 0) (hs16 : 16 ≤ sz)
    (hpa : GET_ALLOC s (a - 8) = some pa) (hna : GET_ALLOC s (a + sz + 4) = some na)
    (hp : pa ≠ 0) (hn : na = 0)
    (hns : GET_SIZE s (a + sz + 4) = some nsz)
    (hne : a + sz + 8 + nsz + 4 ≤ s.mem_brk)
    (hl : IsFreeList s 0 s.freel_head L) (hsep : Separated L)
    (hmem : a + sz + 8 ∈ L)
    (hout : ∀ x ∈ L, x ≠ a + sz + 8 → x + 12 ≤ a - 4 ∨ a + sz + 8 + nsz + 4 ≤ x) :
    ∃ s', coalesce s a = some s' ∧ s'.mem_start_brk = s.mem_start_brk ∧
      s'.mem_brk = s.mem_brk ∧ s'.mem_max_addr = s.mem_max_addr ∧
      s'.heap_listp = s.heap_listp ∧ s'.freel_head = a ∧
      GET s' (a - 4) = some (sz + nsz + 8) ∧
      GET s' (a + sz + 8 + nsz) = some (sz + nsz + 8) ∧
      IsFreeList s' 0 a (a :: L.erase (a + sz + 8)) ∧
      ∀ q, (q + 4 ≤ a - 4 ∨ a + sz + 8 + nsz + 4 ≤ q) →
        (∀ x ∈ L, q + 4 ≤ x ∨ x + 12 ≤ q) → GET s' q = GET s q := by
  obtain ⟨hH, r1, r2, r3, r4, r5⟩ := coalesce_reads hbrk hlo hhi hh hs8 hpa hna
  have hHn : HDRP (a + sz + 8) = a + sz + 4 := by
    unfold HDRP WSIZE; rw [psub_eq (by omega) (by omega)]; omega
  have hsize : padd sz (padd nsz (2 * WSIZE)) = sz + nsz + 8 := by
    unfold WSIZE
    rw [padd_eq (a := nsz) (b := 2 * 4) (by omega), padd_eq (by omega)]
    omega
  obtain ⟨s1, hrm, c1, c2, c3, c4, c5, c6⟩ := freel_remove_spec (by omega) hl hsep hmem
  have hbd := fun x hx => IsFreeList_mem _ _ _ x hl hx
  obtain ⟨s2, hp2⟩ := PUT_exists (s := s1) (p := a - 4) (sz + nsz + 8) ⟨by omega, by omega⟩
  obtain ⟨a1, a2, a3, a4, a5, _⟩ := PUT_fields hp2
  have g2 : GET s2 (a - 4) = some (sz + nsz + 8) := GET_PUT_same hp2 (by omega)
  have hf2 : FTRP s2 a = some (a + sz + 8 + nsz) := by
    unfold FTRP
    rw [hH, GET_SIZE_tag g2 (by have := GET_SIZE_some hns; omega) (Or.inl rfl)]
    simp only [Option.map_some', Option.some.injEq]
    rw [padd_eq (by omega)]
    omega
  obtain ⟨s3, hp3⟩ := PUT_exists (s := s2) (p := a + sz + 8 + nsz) (sz + nsz + 8)
    ⟨by omega, by omega⟩
  obtain ⟨b1, b2, b3, b4, b5, _⟩ := PUT_fields hp3
  have g3 : GET s3 (a - 4) = some (sz + nsz + 8) := by
    rw [GET_PUT_other hp3 (by omega), g2]
  have g3f : GET s3 (a + sz + 8 + nsz) = some (sz + nsz + 8) := GET_PUT_same hp3 (by omega)
  have hout' : ∀ x ∈ L.erase (a + sz + 8), x + 12 ≤ a - 4 ∨ a + sz + 8 + nsz + 4 ≤ x := by
    intro x hx
    have hne' : x ≠ a + sz + 8 := fun e => by
      rw [e] at hx
      exact (List.Nodup.not_mem_erase (Separated_nodup hsep)) hx
    exact hout x (List.mem_of_mem_erase hx) hne'
  have hl3 : IsFreeList s3 0 s3.freel_head (L.erase (a + sz + 8)) := by
    rw [b4, a4]
    refine IsFreeList_frame (s := s1) (by omega) (by omega) _ _ _ (fun x hx => ?_) c5
    have hd := hout' x hx
    have hxb := hbd x (List.mem_of_mem_erase hx)
    refine ⟨?_, ?_⟩
    · unfold GET_PRV
      rw [GET_PUT_other hp3 (by omega), GET_PUT_other hp2 (by omega)]
    · unfold GET_NXT
      rw [GET_PUT_other hp3 (by unfold padd DSIZE; omega),
        GET_PUT_other hp2 (by unfold padd DSIZE; omega)]
  obtain ⟨s4, hins, d1, d2, d3, d4, d5, d6, d7⟩ :=
    freel_insert_spec (s := s3) (a := a) (by omega) (by omega) (by omega) (by omega) hl3
      (Separated_erase hsep _) (fun x hx => by have := hout' x hx; omega)
  have hhead : s3.freel_head ≠ 0 →
      s3.freel_head + 12 ≤ a - 4 ∨ a + sz + 8 + nsz + 4 ≤ s3.freel_head := fun h0 =>
    hout' _ (IsFreeList_head_mem hl3 h0)
  refine ⟨s4, ?_, by omega, by omega, by omega, by omega, d5, ?_, ?_, d6, ?_⟩
  · unfold coalesce
    rw [r2]
    simp only [Option.bind_eq_bind, Option.some_bind]
    rw [r3, r4]
    simp only [Option.some_bind]
    rw [r1]
    simp only [Option.some_bind]
    rw [if_neg (fun h => h.2 hn), if_neg (fun h => hp h.1), if_pos ⟨hp, hn⟩, r5]
    simp only [Option.some_bind]
    rw [hHn, hns]
    simp only [Option.some_bind]
    rw [hrm]
    simp only [Option.some_bind]
    rw [hsize, PACK_zero, hH, hp2]
    simp only [Option.some_bind]
    rw [hf2]
    simp only [Option.some_bind]
    rw [hp3]
    simp only [Option.some_bind]
    exact hins
  · rw [d7 _ (by omega) (fun h0 => by have := hhead h0; omega), g3]
  · rw [d7 _ (by omega) (fun h0 => by have := hhead h0; omega), g3f]
  · intro q hq hqL
    have hq3 : s3.freel_head ≠ 0 → q + 4 ≤ s3.freel_head ∨ s3.freel_head + 4 ≤ q := fun h0 => by
      have := hqL _ (List.mem_of_mem_erase (IsFreeList_head_mem hl3 h0))
      omega
    rw [d7 _ (by omega) hq3, GET_PUT_other hp3 (by omega), GET_PUT_other hp2 (by omega)]
    refine GET_congr c1 c2 (fun i hi => c6 _ (fun x hx _ => ?_))
    have := hqL x hx
    omega

/-- Case 4 of `coalesce`: both neighbours are free.  The previous block grows over
`a` and the next block, which is unlinked. -/
theorem coalesce_case4 {s : Heap} {a sz pa na psz nsz : Nat} {L : List Nat}
    (hbrk : s.mem_brk < 4294967296)
    (hlo : s.mem_start_brk + 8 ≤ a) (hhi : a + sz + 8 ≤ s.mem_brk)
    (hh : GET s (a - 4) = some sz) (hs8 : sz % 8 = 0)
    (hpa : GET_ALLOC s (a - 8) = some pa) (hna : GET_ALLOC s (a + sz + 4) = some na)
    (hp : pa = 0) (hn : na = 0)
    (hps : GET_SIZE s (a - 8) = some psz)
    (hpl : s.mem_start_brk + 4 + psz + 8 ≤ a)
    (hph : GET_SIZE s (HDRP (a - psz - 8)) = some psz)
    (hns : GET_SIZE s (a + sz + 4) = some nsz) (hn12 : 12 ≤ nsz)
    (hne : a + sz + 8 + nsz + 4 ≤ s.mem_brk)
    (hl : IsFreeList s 0 s.freel_head L) (hsep : Separated L)
    (hmem : a + sz + 8 ∈ L)
    (hout : ∀ x ∈ L, x ≠ a - psz - 8 → x ≠ a + sz + 8 →
      x + 12 ≤ a - psz - 8 - 4 ∨ a + sz + 8 + nsz + 4 ≤ x) :
    ∃ s', coalesce s a = some s' ∧ s'.mem_start_brk = s.mem_start_brk ∧
      s'.mem_brk = s.mem_brk ∧ s'.mem_max_addr = s.mem_max_addr ∧
      s'.heap_listp = s.heap_listp ∧
      GET s' (a - psz - 8 - 4) = some (sz + psz + nsz + 16) ∧
      GET s' (a + sz + 8 + nsz) = some (sz + psz + nsz + 16) ∧
      IsFreeList s' 0 s'.freel_head (L.erase (a + sz + 8)) ∧
      ∀ q, (q + 4 ≤ a - psz - 8 - 4 ∨ a + sz + 8 + nsz + 4 ≤ q) →
        (∀ x ∈ L, q + 4 ≤ x ∨ x + 12 ≤ q) → GET s' q = GET s q := by
  obtain ⟨hH, r1, r2, r3, r4, r5⟩ := coalesce_reads hbrk hlo hhi hh hs8 hpa hna
  obtain ⟨w, hw, hwlt, hpv⟩ := GET_SIZE_some hps
  obtain ⟨wn, hwn, hwnlt, hnv⟩ := GET_SIZE_some hns
  have hHn : HDRP (a + sz + 8) = a + sz + 4 := by
    unfold HDRP WSIZE; rw [psub_eq (by omega) (by omega)]; omega
  have hHp : HDRP (a - psz - 8) = a - psz - 8 - 4 := by
    unfold HDRP WSIZE; exact psub_eq (by omega) (by omega)
  have hprev : PREV_BLKP s a = some (a - psz - 8) := by
    unfold PREV_BLKP
    rw [psub_eq (show DSIZE ≤ a by unfold DSIZE; omega) (by omega)]
    unfold DSIZE WSIZE
    rw [hps]
    simp only [Option.map_some', Option.some.injEq, Nat.reduceMul]
    rw [psub_eq (a := a) (b := psz) (by omega) (by omega), psub_eq (by omega) (by omega)]
  have hsize : padd sz (padd (padd psz nsz) (4 * WSIZE)) = sz + psz + nsz + 16 := by
    unfold WSIZE
    rw [padd_eq (a := psz) (b := nsz) (by omega), padd_eq (a := psz + nsz) (by omega),
      padd_eq (by omega)]
    omega
  have hbd := fun x hx => IsFreeList_mem _ _ _ x hl hx
  obtain ⟨s1, hp1⟩ := PUT_exists (s := s) (p := a - psz - 8 - 4) (sz + psz + nsz + 16)
    ⟨by omega, by omega⟩
  obtain ⟨a1, a2, a3, a4, a5, _⟩ := PUT_fields hp1
  have g1 : GET s1 (a - psz - 8 - 4) = some (sz + psz + nsz + 16) :=
    GET_PUT_same hp1 (by omega)
  have hf1 : FTRP s1 (a - psz - 8) = some (a + sz + 8 + nsz) := by
    unfold FTRP
    rw [hHp, GET_SIZE_tag g1 (by omega) (Or.inl rfl)]
    simp only [Option.map_some', Option.some.injEq]
    rw [padd_eq (by omega)]
    omega
  obtain ⟨s2, hp2⟩ := PUT_exists (s := s1) (p := a + sz + 8 + nsz) (sz + psz + nsz + 16)
    ⟨by omega, by omega⟩
  obtain ⟨b1, b2, b3, b4, b5, _⟩ := PUT_fields hp2
  have g2 : GET s2 (a - psz - 8 - 4) = some (sz + psz + nsz + 16) := by
    rw [GET_PUT_other hp2 (by omega), g1]
  have g2f : GET s2 (a + sz + 8 + nsz) = some (sz + psz + nsz + 16) :=
    GET_PUT_same hp2 (by omega)
  have hlinks : ∀ x ∈ L, (x + 12 ≤ a - psz - 8 - 4 ∨ a + sz + 8 + nsz + 4 ≤ x) ∨
      x = a - psz - 8 ∨ x = a + sz + 8 := by
    intro x hx
    by_cases e1 : x = a - psz - 8
    · exact Or.inr (Or.inl e1)
    · by_cases e2 : x = a + sz + 8
      · exact Or.inr (Or.inr e2)
      · exact Or.inl (hout x hx e1 e2)
  have hl2 : IsFreeList s2 0 s2.freel_head L := by
    rw [b4, a4]
    refine IsFreeList_frame (s := s) (by omega) (by omega) _ _ _ (fun x hx => ?_) hl
    have hd := hlinks x hx
    have hxb := hbd x hx
    refine ⟨?_, ?_⟩
    · unfold GET_PRV
      rw [GET_PUT_other hp2 (by omega), GET_PUT_other hp1 (by omega)]
    · unfold GET_NXT
      rw [GET_PUT_other hp2 (by unfold padd DSIZE; omega),
        GET_PUT_other hp1 (by unfold padd DSIZE; omega)]
  obtain ⟨s3, hrm, c1, c2, c3, c4, c5, c6⟩ :=
    freel_remove_spec (s := s2) (by omega) hl2 hsep hmem
  have hkeep : ∀ q, (q = a - psz - 8 - 4 ∨ q = a + sz + 8 + nsz) → GET s3 q = GET s2 q := by
    intro q hq
    refine GET_congr c1 c2 (fun i hi => c6 _ (fun x hx hne => ?_))
    have hd := hlinks x hx
    omega
  refine ⟨s3, ?_, by omega, by omega, by omega, by omega, ?_, ?_, c5, ?_⟩
  · unfold coalesce
    rw [r2]
    simp only [Option.bind_eq_bind, Option.some_bind]
    rw [r3, r4]
    simp only [Option.some_bind]
    rw [r1]
    simp only [Option.some_bind]
    rw [if_neg (fun h => h.2 hn), if_neg (fun h => h.2 hn), if_neg (fun h => h.1 hp),
      hprev, r5]
    simp only [Option.some_bind]
    rw [hph, hHn, hns]
    simp only [Option.some_bind]
    rw [hsize, PACK_zero, hHp, hp1]
    simp only [Option.some_bind]
    rw [hf1]
    simp only [Option.some_bind]
    rw [hp2]
    simp only [Option.some_bind]
    exact hrm
  · rw [hkeep _ (Or.inl rfl), g2]
  · rw [hkeep _ (Or.inr rfl), g2f]
  · intro q hq hqL
    have e : GET s3 q = GET s2 q := by
      refine GET_congr c1 c2 (fun i hi => c6 _ (fun x hx _ => ?_))
      have := hqL x hx
      omega
    rw [e, GET_PUT_other hp2 (by omega), GET_PUT_other hp1 (by omega)]

theorem IsFreeList_head_ne_zero {s : Heap} {p h x : Nat} {l : List Nat}
    (hl : IsFreeList s p h l) (hx : x ∈ l) : h ≠ 0 := by
  cases l with
  | nil => simp at hx
  | cons y ys => rw [hl.1]; exact hl.2.1

/-- What `mm_free` does to a block `a` of `sz` bytes whose neighbourhood is well
formed: the tags on both sides of `a` are readable, a free previous block has
equal header and footer and is a node of the free list `L`, a free next block is
a node of `L`, and the links of the other nodes lie outside the blocks involved.
The result is one free block that starts at the previous block when that was
free and at `a` otherwise, ends with the next block when that was free and with
`a` otherwise, and records the sum of the sizes plus `2·WSIZE` for each absorbed
neighbour; the next block, when absorbed, has left the free list, and `a` has
become its head unless the previous block absorbed it. -/
theorem mm_free_spec {s : Heap} {a sz pa na psz nsz : Nat} {L : List Nat}
    (hbrk : s.mem_brk < 4294967296)
    (hsz : GET_SIZE s (HDRP a) = some sz) (hs16 : 16 ≤ sz)
    (hlo : s.mem_start_brk + 8 ≤ a) (hhi : a + sz + 8 ≤ s.mem_brk)
    (hl : IsFreeList s 0 s.freel_head L) (hsep : Separated L)
    (hpa : GET_ALLOC s (a - 8) = some pa) (hps : GET_SIZE s (a - 8) = some psz)
    (hna : GET_ALLOC s (a + sz + 4) = some na) (hns : GET_SIZE s (a + sz + 4) = some nsz)
    (hprev : pa = 0 → 8 ≤ psz ∧ s.mem_start_brk + 4 + psz + 8 ≤ a ∧
      GET_SIZE s (HDRP (a - psz - 8)) = some psz ∧ a - psz - 8 ∈ L)
    (hnext : na = 0 → 12 ≤ nsz ∧ a + sz + 8 + nsz + 4 ≤ s.mem_brk ∧ a + sz + 8 ∈ L)
    (hout : ∀ x ∈ L, (pa = 0 → x ≠ a - psz - 8) → (na = 0 → x ≠ a + sz + 8) →
      x + 12 ≤ (if pa = 0 then a - psz - 8 else a) - 4 ∨
        (if na = 0 then a + sz + 8 + nsz else a + sz) + 4 ≤ x) :
    ∃ s', mm_free s a = some s' ∧ s'.mem_start_brk = s.mem_start_brk ∧
      s'.mem_brk = s.mem_brk ∧
      GET s' ((if pa = 0 then a - psz - 8 else a) - 4) =
        some (sz + (if pa = 0 then psz + 8 else 0) + (if na = 0 then nsz + 8 else 0)) ∧
      GET s' (if na = 0 then a + sz + 8 + nsz else a + sz) =
        some (sz + (if pa = 0 then psz + 8 else 0) + (if na = 0 then nsz + 8 else 0)) ∧
      IsFreeList s' 0 s'.freel_head
        (if pa = 0 then (if na = 0 then L.erase (a + sz + 8) else L)
          else a :: (if na = 0 then L.erase (a + sz + 8) else L)) ∧
      (pa ≠ 0 → s'.freel_head = a) ∧
      ∀ q, (q + 4 ≤ (if pa = 0 then a - psz - 8 else a) - 4 ∨
          (if na = 0 then a + sz + 8 + nsz else a + sz) + 4 ≤ q) →
        (∀ x ∈ L, q + 4 ≤ x ∨ x + 12 ≤ q) → GET s' q = GET s q := by
  obtain ⟨w, hw, hwlt, hszv⟩ := GET_SIZE_some hsz
  obtain ⟨wp, hwp, hwplt, hpv⟩ := GET_SIZE_some hps
  obtain ⟨wn, hwn, hwnlt, hnv⟩ := GET_SIZE_some hns
  obtain ⟨s2, hfree, m1, m2, m3, m4, m5, gh, gf, hfr⟩ :=
    mm_free_mark (by omega) hsz (by omega) (by omega)
  have hbd := fun x hx => IsFreeList_mem _ _ _ x hl hx
  -- the neighbourhood of `a` is the same in the marked state
  have hpa2 : GET_ALLOC s2 (a - 8) = some pa := by
    unfold GET_ALLOC; rw [hfr _ (by omega)]; exact hpa
  have hps2 : GET_SIZE s2 (a - 8) = some psz := by
    unfold GET_SIZE; rw [hfr _ (by omega)]; exact hps
  have hna2 : GET_ALLOC s2 (a + sz + 4) = some na := by
    unfold GET_ALLOC; rw [hfr _ (by omega)]; exact hna
  have hns2 : GET_SIZE s2 (a + sz + 4) = some nsz := by
    unfold GET_SIZE; rw [hfr _ (by omega)]; exact hns
  have hlinks : ∀ x ∈ L, (x + 12 ≤ (if pa = 0 then a - psz - 8 else a) - 4 ∨
      (if na = 0 then a + sz + 8 + nsz else a + sz) + 4 ≤ x) ∨
      (pa = 0 ∧ x = a - psz - 8) ∨ (na = 0 ∧ x = a + sz + 8) := by
    intro x hx
    by_cases e1 : pa = 0 ∧ x = a - psz - 8
    · exact Or.inr (Or.inl e1)
    · by_cases e2 : na = 0 ∧ x = a + sz + 8
      · exact Or.inr (Or.inr e2)
      · exact Or.inl (hout x hx (fun h e => e1 ⟨h, e⟩) (fun h e => e2 ⟨h, e⟩))
  have hl2 : IsFreeList s2 0 s2.freel_head L := by
    rw [m4]
    refine IsFreeList_frame (s := s) m1 m2 _ _ _ (fun x hx => ?_) hl
    have hxb := hbd x hx
    have hq : (x + 12 ≤ a - 4 ∨ a + sz + 4 ≤ x) := by
      rcases hlinks x hx with h | ⟨h0, h⟩ | ⟨h0, h⟩
      · split at h <;> split at h <;> omega
      · have := hprev h0; omega
      · omega
    unfold SameLinks GET_PRV GET_NXT
    rw [padd_eq (show x + DSIZE < 4294967296 by unfold DSIZE; omega)]
    unfold DSIZE
    exact ⟨hfr _ (by omega), hfr _ (by omega)⟩
  rw [hfree]
  by_cases hp : pa = 0
  · obtain ⟨hp8, hpl, hph, hpm⟩ := hprev hp
    have hhead : s2.freel_head ≠ 0 := IsFreeList_head_ne_zero hl2 hpm
    have hph2 : GET_SIZE s2 (HDRP (a - psz - 8)) = some psz := by
      have hHp : HDRP (a - psz - 8) = a - psz - 8 - 4 := by
        unfold HDRP WSIZE; exact psub_eq (by omega) (by omega)
      rw [hHp] at hph ⊢
      unfold GET_SIZE at hph ⊢
      rw [hfr _ (by omega)]; exact hph
    rw [if_pos hhead]
    by_cases hn : na = 0
    · obtain ⟨hn12, hne, hnm⟩ := hnext hn
      obtain ⟨s', h1, e1, e2, _, _, g1, g2, h3, hfr4⟩ :=
        coalesce_case4 (by omega) (by omega) (by omega) gh (by omega) hpa2 hna2 hp hn hps2
          (by omega) hph2 hns2 hn12 (by omega) hl2 hsep hnm
          (fun x hx n1 n2 => by
            have := hout x hx (fun _ => n1) (fun _ => n2)
            rw [if_pos hp, if_pos hn] at this
            exact this)
      refine ⟨s', h1, by omega, by omega, ?_, ?_, ?_, fun h => absurd hp h, ?_⟩
      · rw [if_pos hp, if_pos hn, if_pos hp, g1]; congr 1; omega
      · rw [if_pos hn, if_pos hp, if_pos hn, g2]; congr 1; omega
      · rw [if_pos hp, if_pos hn]; exact h3
      · intro q hq hqL
        rw [if_pos hp, if_pos hn] at hq
        rw [hfr4 q hq hqL, hfr _ (by omega)]
    · obtain ⟨s', h1, e1, e2, _, e4, _, g1, g2, hfr2⟩ :=
        coalesce_case2 (by omega) (by omega) (by omega) gh (by omega) hpa2 hna2 hp hn hps2
          (by omega) hph2
      refine ⟨s', h1, by omega, by omega, ?_, ?_, ?_, fun h => absurd hp h, ?_⟩
      rotate_right
      · intro q hq hqL
        rw [if_pos hp, if_neg hn] at hq
        rw [hfr2 q (by omega), hfr _ (by omega)]
      · rw [if_pos hp, if_pos hp, if_neg hn, g1]; congr 1
      · rw [if_neg hn, if_pos hp, if_neg hn, g2]; congr 1
      · rw [if_pos hp, if_neg hn, e4]
        refine IsFreeList_frame (s := s2) e1 e2 _ _ _ (fun x hx => ?_) hl2
        have hxb := hbd x hx
        have hq : (x + 12 ≤ a - psz - 8 - 4 ∨ a + sz + 4 ≤ x) ∨ x = a - psz - 8 := by
          rcases hlinks x hx with h | ⟨_, h⟩ | ⟨h0, _⟩
          · rw [if_pos hp, if_neg hn] at h; exact Or.inl h
          · exact Or.inr h
          · exact absurd h0 hn
        unfold SameLinks GET_PRV GET_NXT
        rw [padd_eq (show x + DSIZE < 4294967296 by unfold DSIZE; omega)]
        unfold DSIZE
        exact ⟨hfr2 _ (by omega), hfr2 _ (by omega)⟩
  · by_cases hn : na = 0
    · obtain ⟨hn12, hne, hnm⟩ := hnext hn
      have hhead : s2.freel_head ≠ 0 := IsFreeList_head_ne_zero hl2 hnm
      rw [if_pos hhead]
      obtain ⟨s', h1, e1, e2, _, _, e5, g1, g2, h3, hfr3⟩ :=
        coalesce_case3 (by omega) (by omega) (by omega) gh (by omega) hs16 hpa2 hna2 hp hn
          hns2 (by omega) hl2 hsep hnm
          (fun x hx n2 => by
            have := hout x hx (fun h => absurd h hp) (fun _ => n2)
            rw [if_neg hp, if_pos hn] at this
            exact this)
      refine ⟨s', h1, by omega, by omega, ?_, ?_, ?_, fun _ => e5, ?_⟩
      · rw [if_neg hp, if_neg hp, if_pos hn, g1]; congr 1
      · rw [if_pos hn, if_neg hp, if_pos hn, g2]; congr 1
      · rw [if_neg hp, if_pos hn, e5]; exact h3
      · intro q hq hqL
        rw [if_neg hp, if_pos hn] at hq
        rw [hfr3 q hq hqL, hfr _ (by omega)]
    · have hins : (if s2.freel_head ≠ 0 then coalesce s2 a else freel_insert s2 a) =
          freel_insert s2 a := by
        split
        · exact coalesce_case1 (by omega) (by omega) (by omega) gh (by omega) hpa2 hna2 hp hn
        · rfl
      rw [hins]
      have hout1 : ∀ x ∈ L, x + 12 ≤ a - 4 ∨ a + sz + 4 ≤ x := by
        intro x hx
        have := hout x hx (fun h => absurd h hp) (fun h => absurd h hn)
        rw [if_neg hp, if_neg hn] at this
        exact this
      obtain ⟨s', h1, d1, d2, d3, d4, d5, d6, d7⟩ :=
        freel_insert_spec (s := s2) (a := a) (by omega) (by omega) (by omega) (by omega) hl2
          hsep (fun x hx => by have := hout1 x hx; omega)
      have hhead : s2.freel_head ≠ 0 →
          s2.freel_head + 12 ≤ a - 4 ∨ a + sz + 4 ≤ s2.freel_head := fun h0 =>
        hout1 _ (IsFreeList_head_mem hl2 h0)
      refine ⟨s', h1, by omega, by omega, ?_, ?_, ?_, fun _ => d5, ?_⟩
      rotate_right
      · intro q hq hqL
        rw [if_neg hp, if_neg hn] at hq
        have hq2 : s2.freel_head ≠ 0 → q + 4 ≤ s2.freel_head ∨ s2.freel_head + 4 ≤ q :=
          fun h0 => by
            have := hqL _ (IsFreeList_head_mem hl2 h0)
            omega
        rw [d7 q (by omega) hq2, hfr _ (by omega)]
      · rw [if_neg hp, if_neg hp, if_neg hn,
          d7 _ (by omega) (fun h0 => by have := hhead h0; omega), gh]; congr 1
      · rw [if_neg hn, if_neg hp, if_neg hn,
          d7 _ (by omega) (fun h0 => by have := hhead h0; omega), gf]; congr 1
      · rw [if_neg hp, if_neg hn, d5]; exact d6

/-- A run that returns the pointer `a` ends in the state `final` extracts. -/
theorem run_eq_of_fst {o : Option (Nat × Heap)} {a : Nat} (h : o.map Prod.fst = some a) :
    o = some (a, final (o.map Prod.snd)) := by
  cases o with
  | none => simp at h
  | some r =>
    simp only [Option.map_some', Option.some.injEq] at h
    subst h
    rfl

/-! ## Runs from an arbitrary fresh arena -/

/-- The state `mm_init` leaves on a fresh arena that can grow by at least 8
bytes: the two words written at the bottom, `heap_listp` right above them. -/
theorem mm_init_fresh (lo cap : Nat) (m : Nat → Nat) (hcap : 8 ≤ cap)
    (htop : lo + 8 < 4294967295) :
    mm_init (fresh lo cap m) =
      some (0, ⟨wrw (wrw m lo 1) (lo + 4) 1, lo, lo + 8, lo + cap, 0, lo + 8⟩) := by
  have e1 : padd lo 8 = lo + 8 := padd_eq (by omega)
  have e2 : padd lo 4 = lo + 4 := padd_eq (by omega)
  have p0 : padd 0 8 = 8 := by decide
  have k1 : PACK 0 1 = 1 := by decide
  have c1 : lo + 8 ≤ lo + cap := by omega
  have n1 : lo ≠ 4294967295 := by omega
  simp only [mm_init, fresh, extend_heap, mem_sbrk, WSIZE, Nat.reduceMul, p0, SBRK_FAIL, k1, c1,
    ↓reduceIte, n1, e1, e2, Option.pure_def, Option.bind_eq_bind]
  rw [PUT_of_inArena _ ⟨by simp only; omega, by simp only; omega⟩]
  simp only [Option.some_bind]
  rw [PUT_of_inArena _ ⟨by simp only; omega, by simp only; omega⟩]
  rfl

/-- In the state `mm_init` leaves, the padding word and the word after it read
`PACK(0, 1)`, and the free list is empty. -/
theorem mm_init_fresh_spec (lo cap : Nat) (m : Nat → Nat) (hcap : 8 ≤ cap)
    (htop : lo + 8 < 4294967295) :
    ∃ s, mm_init (fresh lo cap m) = some (0, s) ∧ s.mem_start_brk = lo ∧
      s.mem_brk = lo + 8 ∧ s.mem_max_addr = lo + cap ∧ s.freel_head = 0 ∧
      s.heap_listp = lo + 8 ∧ GET s lo = some 1 ∧ GET s (lo + 4) = some 1 := by
  refine ⟨_, mm_init_fresh lo cap m hcap htop, rfl, rfl, rfl, rfl, rfl, ?_, ?_⟩
  · unfold GET
    rw [if_pos ⟨by simp only; omega, by simp only; omega⟩]
    simp only [rdw_wrw_of_disjoint _ _ _ _ (show lo + 4 ≤ lo + 4 ∨ lo + 4 + 4 ≤ lo from Or.inl
      (le_refl _)), rdw_wrw_same]
  · unfold GET
    rw [if_pos ⟨by simp only; omega, by simp only; omega⟩]
    simp only [rdw_wrw_same]

/-- With an empty free list and room to grow, `mm_malloc` extends the arena. -/
theorem mm_malloc_extend_empty {s : Heap} {n : Nat}
    (hn0 : 0 < n) (hn : n ≤ 4294967128)
    (hmax : s.mem_max_addr ≤ 4294967296)
    (hlo : s.mem_start_brk + 4 ≤ s.mem_brk)
    (hfh : s.freel_head = 0)
    (hroom : s.mem_brk + spec_asize n + 8 ≤ s.mem_max_addr) :
    ∃ s', mm_malloc s n = some (s.mem_brk, s') ∧
      s'.mem_start_brk = s.mem_start_brk ∧ s'.mem_brk = s.mem_brk + spec_asize n + 8 ∧
      s'.mem_max_addr = s.mem_max_addr ∧ s'.heap_listp = s.heap_listp ∧
      s'.freel_head = 0 ∧
      GET s' (s.mem_brk - 4) = some (spec_asize n + 1) ∧
      GET s' (s.mem_brk + spec_asize n) = some (spec_asize n + 1) ∧
      GET s' (s.mem_brk + spec_asize n + 4) = some 1 ∧
      ∀ q, q + 4 ≤ s.mem_brk - 4 → GET s' q = GET s q := by
  have hl : IsFreeList s 0 s.freel_head [] := hfh
  obtain ⟨s', h1, h2, h3, h4, h5, g1, g2, g3, h6, hfr⟩ :=
    find_fit_extend (L := []) hmax hlo hl (fun x hx => by simp at hx)
      (fun x hx => by simp at hx) (spec_asize_mod8 n) hroom
  have h0 : s'.freel_head = 0 := h6
  refine ⟨s', ?_, h2, h3, h4, h5, h0, g1, g2, g3, hfr⟩
  unfold mm_malloc
  rw [if_neg (by omega), adjusted_size_eq (by omega)]
  exact h1

theorem HDRP_eq {p : Nat} (h1 : 4 ≤ p) (h2 : p < 4294967296) : HDRP p = p - 4 := by
  unfold HDRP WSIZE; exact psub_eq h1 h2


/-- The first `mm_malloc` after `mm_init` on a fresh arena: the block is placed at
`lo + 8`, its header takes the place of the word at `lo + 4`, and the padding
word at `lo` stays. -/
theorem first_malloc_fresh (lo cap : Nat) (m : Nat → Nat) (n : Nat)
    (hn0 : 0 < n) (hn : n ≤ 4294967128)
    (hcap : spec_asize n + 16 ≤ cap) (htop : lo + cap < 4294967296) :
    ∃ s0 s1, mm_init (fresh lo cap m) = some (0, s0) ∧
      mm_malloc s0 n = some (lo + 8, s1) ∧
      s1.mem_start_brk = lo ∧ s1.mem_brk = lo + 8 + (spec_asize n + 8) ∧
      s1.mem_max_addr = lo + cap ∧ s1.freel_head = 0 ∧
      GET s1 lo = some 1 ∧ GET s1 (lo + 4) = some (spec_asize n + 1) ∧
      GET s1 (lo + 8 + spec_asize n) = some (spec_asize n + 1) ∧
      GET s1 (lo + 8 + spec_asize n + 4) = some 1 := by
  obtain ⟨s0, hi, i1, i2, i3, i4, _, gp, _⟩ :=
    mm_init_fresh_spec lo cap m (by omega) (by omega)
  obtain ⟨s1, hm1, a1, a2, a3, _, a5, gx1, gx2, gx3, hfr1⟩ :=
    mm_malloc_extend_empty (s := s0) (n := n) hn0 hn (by omega) (by omega) i4 (by omega)
  rw [i2] at hm1 a2 gx1 gx2 gx3 hfr1
  refine ⟨s0, s1, hi, hm1, by rw [a1, i1], by rw [a2, Nat.add_assoc], by rw [a3, i3], a5, ?_, ?_,
    gx2, gx3⟩
  · rw [hfr1 _ (by omega)]; exact gp
  · rw [show lo + 4 = lo + 8 - 4 by omega]; exact gx1

/-- A further `mm_malloc` while the free list is empty: the block is placed at the
arena top `b`, and the words below its header stay. -/
theorem next_malloc_empty {s : Heap} (lo cap b n : Nat)
    (hn0 : 0 < n) (hn : n ≤ 4294967128)
    (h1 : s.mem_start_brk = lo) (h2 : s.mem_brk = b) (h3 : s.mem_max_addr = lo + cap)
    (h4 : s.freel_head = 0) (hb : lo + 4 ≤ b)
    (hcap : b + spec_asize n + 8 ≤ lo + cap) (htop : lo + cap < 4294967296) :
    ∃ s1, mm_malloc s n = some (b, s1) ∧
      s1.mem_start_brk = lo ∧ s1.mem_brk = b + (spec_asize n + 8) ∧
      s1.mem_max_addr = lo + cap ∧ s1.freel_head = 0 ∧
      GET s1 (b - 4) = some (spec_asize n + 1) ∧
      GET s1 (b + spec_asize n) = some (spec_asize n + 1) ∧
      GET s1 (b + spec_asize n + 4) = some 1 ∧
      ∀ q, q + 4 ≤ b - 4 → GET s1 q = GET s q := by
  obtain ⟨s1, hm1, a1, a2, a3, _, a5, gx1, gx2, gx3, hfr1⟩ :=
    mm_malloc_extend_empty (s := s) (n := n) hn0 hn (by omega) (by omega) h4 (by omega)
  rw [h2] at hm1 a2 gx1 gx2 gx3 hfr1
  exact ⟨s1, hm1, by rw [a1, h1], by rw [a2, Nat.add_assoc], by rw [a3, h3], a5, gx1, gx2, gx3,
    hfr1⟩

/-- Freeing a block `a` whose two neighbours are allocated, in a state with the
well-formed free list `L` whose nodes lie outside `a`: `a` becomes a free block
and the head of the list, and every word outside `a` and outside the links of
the nodes of `L` stays. -/
theorem mm_free_between_allocated {s : Heap} {a sz pw nw : Nat} {L : List Nat}
    (hbrk : s.mem_brk < 4294967296)
    (hh : GET s (a - 4) = some (sz + 1)) (hs8 : sz % 8 = 0) (hs16 : 16 ≤ sz)
    (hlo : s.mem_start_brk + 8 ≤ a) (hhi : a + sz + 8 ≤ s.mem_brk)
    (hl : IsFreeList s 0 s.freel_head L) (hsep : Separated L)
    (hp : GET s (a - 8) = some pw) (hp1 : pw % 2 = 1)
    (hn : GET s (a + sz + 4) = some nw) (hn1 : nw % 2 = 1)
    (hout : ∀ x ∈ L, x + 12 ≤ a - 4 ∨ a + sz + 4 ≤ x) :
    ∃ s', mm_free s a = some s' ∧ s'.mem_start_brk = s.mem_start_brk ∧
      s'.mem_brk = s.mem_brk ∧
      GET s' (a - 4) = some sz ∧ GET s' (a + sz) = some sz ∧
      IsFreeList s' 0 s'.freel_head (a :: L) ∧
      ∀ q, (q + 4 ≤ a - 4 ∨ a + sz + 4 ≤ q) → (∀ x ∈ L, q + 4 ≤ x ∨ x + 12 ≤ q) →
        GET s' q = GET s q := by
  have hne : ¬ (1 : Nat) = 0 := by decide
  have hpl := GET_lt hp
  have hnl := GET_lt hn
  obtain ⟨s', hf, e1, e2, g1, g2, hl', _, hfr⟩ :=
    @mm_free_spec s a sz 1 1 (8 * (pw / 8 % 536870912)) (8 * (nw / 8 % 536870912)) L hbrk
      (by rw [HDRP_eq (by omega) (by omega)]; exact GET_SIZE_tag hh hs8 (Or.inr rfl))
      hs16 hlo hhi hl hsep
      (by rw [GET_ALLOC_of_GET hp, hp1]) (GET_SIZE_of_GET hp)
      (by rw [GET_ALLOC_of_GET hn, hn1]) (GET_SIZE_of_GET hn)
      (fun h => absurd h hne) (fun h => absurd h hne)
      (fun x hx _ _ => by rw [if_neg hne, if_neg hne]; exact hout x hx)
  simp only [if_neg hne, Nat.add_zero] at g1 g2 hl' hfr
  exact ⟨s', hf, e1, e2, g1, g2, hl', hfr⟩

/-- Freeing the middle one of three adjacent blocks of `176` bytes at `lo + 8`,
`lo + 192` and `lo + 376`, when the outer two are free and form the free list
`[lo + 376, lo + 8]`: the three blocks become one free block of `544` bytes at
`lo + 8`, which is the only node left in the list. -/
theorem mm_free_between_free (lo : Nat) (s : Heap)
    (h1 : s.mem_start_brk = lo) (h2 : s.mem_brk = lo + 560) (htop : lo + 560 < 4294967296)
    (hl : IsFreeList s 0 s.freel_head [lo + 376, lo + 8])
    (v1 : GET s (lo + 4) = some 176) (v2 : GET s (lo + 184) = some 176)
    (v3 : GET s (lo + 188) = some 177) (v5 : GET s (lo + 372) = some 176) :
    ∃ s', mm_free s (lo + 192) = some s' ∧ IsFreeList s' 0 s'.freel_head [lo + 8] ∧
      GET s' (lo + 4) = some 544 ∧ GET s' (lo + 552) = some 544 := by
  have h00 : (0 : Nat) = 0 := rfl
  have hpv : lo + 192 - 176 - 8 = lo + 8 := by omega
  have hnb : lo + 192 + 176 + 8 = lo + 376 := by omega
  obtain ⟨s6, hf6, _, _, g6h, g6f, hl6, _, _⟩ :=
    @mm_free_spec s (lo + 192) 176 0 0 176 176 [lo + 376, lo + 8] (by omega)
      (by rw [HDRP_eq (by omega) (by omega), show lo + 192 - 4 = lo + 188 by omega]
          exact GET_SIZE_tag v3 (by decide) (Or.inr rfl))
      (by decide) (by omega) (by omega) hl
      (by unfold Separated
          exact List.Pairwise.cons (fun y hy => by
            rw [List.mem_singleton] at hy
            subst hy
            right
            omega) (List.pairwise_singleton _ _))
      (by rw [show lo + 192 - 8 = lo + 184 by omega, GET_ALLOC_of_GET v2])
      (by rw [show lo + 192 - 8 = lo + 184 by omega]
          exact GET_SIZE_tag v2 (by decide) (Or.inl rfl))
      (by rw [show lo + 192 + 176 + 4 = lo + 372 by omega, GET_ALLOC_of_GET v5])
      (by rw [show lo + 192 + 176 + 4 = lo + 372 by omega]
          exact GET_SIZE_tag v5 (by decide) (Or.inl rfl))
      (fun _ => ⟨by decide, by omega, by
        rw [hpv, HDRP_eq (by omega) (by omega), show lo + 8 - 4 = lo + 4 by omega]
        exact GET_SIZE_tag v1 (by decide) (Or.inl rfl), by
        rw [hpv]
        exact List.mem_cons_of_mem _ (List.mem_cons_self _ _)⟩)
      (fun _ => ⟨by decide, by omega, by rw [hnb]; exact List.mem_cons_self _ _⟩)
      (fun x hx h1 h2 => by
        rw [hpv] at h1
        rw [hnb] at h2
        rcases List.mem_cons.mp hx with e | e
        · exact absurd e (h2 h00)
        · rw [List.mem_singleton] at e
          exact absurd e (h1 h00))
  simp only [if_pos h00, if_true] at hl6 g6h g6f
  rw [hnb, List.erase_cons_head] at hl6
  rw [hpv, show lo + 8 - 4 = lo + 4 by omega] at g6h
  rw [show lo + 192 + 176 + 8 + 176 = lo + 552 by omega] at g6f
  exact ⟨s6, hf6, hl6, g6h, g6f⟩

/-- C1 (the code breaks it).  Claim: whenever `mm_malloc(size)` returns a non-null
`p`, the header of `p` records a payload of at least `size` bytes.  On the code:
on a freshly initialised heap `mm_malloc(4294967295)` returns the non-null
address `4104` whose header records a payload of `128` bytes, because
`CALC_ALIGN(size) + 128` wraps around to `128`. -/
theorem mm_malloc_undersized :
    (do
      let (_, s) ← mm_init (fresh 4096 65536 fun _ => 0)
      let (p, s) ← mm_malloc s 4294967295
      let sz ← GET_SIZE s (HDRP p)
      some (p, sz)) = some (4104, 128) := by
  decide

/-- C2 (the code breaks it).  Claim: the payloads of two distinct allocated blocks
never overlap, and a block returned by `mm_malloc` never intersects one that is
already allocated.  On the code: (1) `mm_malloc(4294967160)` asks `mem_sbrk` for
`0` bytes and returns the arena top `4104`, and the next call `mm_malloc(1)`
returns `4104` again, with the header `33`, while the first result is still
allocated; (2) after the second run below, all of whose calls are on live
blocks, the blocks `y = 4176` and `r = 4104` are both allocated (`y` was never
freed, `r` is the result of the last `mm_realloc`), their header words are
`169` and `209`, so their payloads are `[4176, 4344)` and `[4104, 4312)`.  The
requests `4294967224` and `4294967184` wrap around to the adjusted sizes `56`
and `16`. -/
theorem allocated_blocks_overlap :
    (do
      let (_, s) ← mm_init (fresh 4096 65536 fun _ => 0)
      let (z, s) ← mm_malloc s 4294967160
      let (b, s) ← mm_malloc s 1
      let hb ← GET s (HDRP b)
      some (z, b, hb)) = some (4104, 4104, 33) ∧
    (do
      let (_, s) ← mm_init (fresh 4096 65536 fun _ => 0)
      let (a, s) ← mm_malloc s 4294967224
      let s ← mm_free s a
      let (b, s) ← mm_malloc s 48
      let s ← mm_free s b
      let (y, s) ← mm_malloc s 33
      let (p, s) ← mm_malloc s 1
      let (q, s) ← mm_realloc s p 4294967184
      let (r, s) ← mm_realloc s q 48
      let hy ← GET s (HDRP y)
      let hr ← GET s (HDRP r)
      some (y, hy, r, hr)) = some (4176, 169, 4104, 209) := by
  decide

/-- C3 (the code breaks it).  Claim: `mm_realloc(p, m)` with `m ≥ n` keeps the
first `n` bytes of `p = mm_malloc(n)`.  On the code, with `n = 24` and
`m = 4294967192`: the fresh block gets the wrapped-around size `24`, the copy of
the 32 old payload bytes overruns it into the header of `p`, and freeing `p`
then writes into the new block; byte 20 of the result is `8`, not `0`. -/
theorem mm_realloc_loses_bytes :
    (do
      let (_, s) ← mm_init (fresh 4096 65536 fun _ => 0)
      let (x, s) ← mm_malloc s 200
      let s ← mm_free s x
      let (p, s) ← mm_malloc s 24
      let s ← store_bytes s p
        [0, 0, 0, 0, 1, 0, 0, 0, 0, 0, 0, 0, 0, 0, 0, 0, 0, 0, 0, 0, 0, 0, 0, 0]
      let (q, s) ← mm_realloc s p 4294967192
      let got ← load_bytes s q 24
      some (p, q, got)) =
    some (4400, 4368,
      [0, 0, 0, 0, 1, 0, 0, 0, 0, 0, 0, 0, 0, 0, 0, 0, 0, 0, 0, 0, 8, 0, 0, 0]) := by
  decide

/-- C4 (the code breaks it).  Claim: no two adjacent blocks are both free.  On the
code: `mm_malloc(4294967160)` asks `mem_sbrk` for `0` bytes and overwrites the
footer of the free block `a` with an allocated tag, so the block `b` freed next
to it is not merged: the heap ends as the two adjacent free blocks `4104` and
`4144`, both on the free list. -/
theorem adjacent_free_blocks :
    (do
      let (_, s) ← mm_init (fresh 4096 65536 fun _ => 0)
      let (a, s) ← mm_malloc s 1
      let s ← mm_free s a
      let (_, s) ← mm_malloc s 4294967160
      let (b, s) ← mm_malloc s 33
      let s ← mm_free s b
      let bs ← blocks s
      let fl ← free_list s
      some (bs, fl)) = some ([(4104, 32, 0), (4144, 168, 0)], [4144, 4104]) := by
  decide

/-- C5 (the code breaks it).  Claim: the free list holds every free block exactly
once.  On the code: `mm_malloc(4294967176)` makes a block of `8` bytes whose
next-free link lies on its footer; once it is freed, the block `n` freed after it
is merged into a block that does not exist and never reaches the list: the heap
holds the free blocks `4104` and `4120`, the free list only `4104`. -/
theorem free_block_not_listed :
    (do
      let (_, s) ← mm_init (fresh 4096 65536 fun _ => 0)
      let (p, s) ← mm_malloc s 4294967176
      let (n, s) ← mm_malloc s 1
      let s ← mm_free s p
      let s ← mm_free s n
      let bs ← blocks s
      let fl ← free_list s
      some (bs, fl)) = some ([(4104, 8, 0), (4120, 32, 0)], [4104]) := by
  decide

/-- C6 (the code breaks it).  Claim: every block has equal header and footer and
a size that is a multiple of 8 and at least 16.  On the code:
`mm_malloc(4294967176)` on a freshly initialised heap makes a block of size `8`;
and `mm_malloc(4294967160)` after `mm_malloc(200)` overwrites the footer of the
first block, whose header is `329` and whose footer is then `4294967289`. -/
theorem block_below_minimum_size :
    (do
      let (_, s) ← mm_init (fresh 4096 65536 fun _ => 0)
      let (_, s) ← mm_malloc s 4294967176
      blocks s) = some [(4104, 8, 1)] ∧
    (do
      let (_, s) ← mm_init (fresh 4096 65536 fun _ => 0)
      let (x, s) ← mm_malloc s 200
      let (_, s) ← mm_malloc s 4294967160
      let h ← GET s (HDRP x)
      let f ← FTRP s x
      let w ← GET s f
      some (x, h, w)) = some (4104, 329, 4294967289) := by
  decide

/-- C7.  In-place growth.  Let `b` be a block of size `sb` whose header lies in the
arena, let the block that follows it, `b + sb + 2·WSIZE`, be free of size `sn`
and a node of the well-formed free list `L`, every other node of which lies
outside the two blocks, and let `size > sb` with `align_up_8 size ≤ sb + sn`.
Then `mm_realloc(b, size)` returns `b`, leaves the arena top where it was,
rewrites the header and the footer of `b` to `sb + sn + 2·WSIZE` marked
allocated, leaves the free list as `L` without the next block, and leaves the
first `sb` payload bytes of `b` unchanged. -/
theorem mm_realloc_in_place (s : Heap) (b size sb sn : Nat) (L : List Nat)
    (hbrk : s.mem_brk ≤ 4294967296)
    (hlo : s.mem_start_brk + 4 ≤ b)
    (hsb : GET_SIZE s (HDRP b) = some sb)
    (hna : GET_ALLOC s (HDRP (b + sb + 2 * WSIZE)) = some 0)
    (hsn : GET_SIZE s (HDRP (b + sb + 2 * WSIZE)) = some sn)
    (hend : b + sb + 2 * WSIZE + sn + WSIZE ≤ s.mem_brk)
    (hsize : sb < size) (hneed : align_up_8 size ≤ sb + sn)
    (hl : IsFreeList s 0 s.freel_head L) (hsep : Separated L)
    (hmem : b + sb + 2 * WSIZE ∈ L)
    (hdisj : ∀ x ∈ L, x ≠ b + sb + 2 * WSIZE →
      x + 12 ≤ b - WSIZE ∨ b + sb + 2 * WSIZE + sn + WSIZE ≤ x) :
    ∃ s', mm_realloc s b size = some (b, s') ∧
      s'.mem_brk = s.mem_brk ∧
      GET s' (HDRP b) = some (PACK (sb + sn + 2 * WSIZE) 1) ∧
      GET s' (b + (sb + sn + 2 * WSIZE)) = some (PACK (sb + sn + 2 * WSIZE) 1) ∧
      IsFreeList s' 0 s'.freel_head (L.erase (b + sb + 2 * WSIZE)) ∧
      ∀ i < sb, s'.mem (b + i) = s.mem (b + i) := by
  simp only [WSIZE, Nat.reduceMul] at *
  obtain ⟨w, hw, hwlt, hsbv⟩ := GET_SIZE_some hsb
  obtain ⟨wn, hwn, hwnlt, hsnv⟩ := GET_SIZE_some hsn
  have hH : HDRP b = b - 4 := by unfold HDRP WSIZE; exact psub_eq (by omega) (by omega)
  have hsz : size + 7 < 4294967296 := by unfold align_up_8 at hneed; omega
  have hca := CALC_ALIGN_eq hsz
  have hnb : NEXT_BLKP s b = some (b + sb + 8) := by
    unfold NEXT_BLKP
    rw [hsb]
    simp only [Option.map_some', WSIZE]
    rw [padd_eq (a := b) (b := sb) (by omega), padd_eq (by omega)]
  obtain ⟨s1, hrm, r1, r2, r3, r4, r5, r6⟩ := freel_remove_spec hbrk hl hsep hmem
  have hin2 : inArena s1 (b - 4) 4 := ⟨by rw [r1]; omega, by rw [r2]; omega⟩
  obtain ⟨s2, hput2⟩ := PUT_exists (PACK (padd (padd sn sb) 8) 1) hin2
  obtain ⟨f1, f2, f3, f4, f5, f6⟩ := PUT_fields hput2
  have htemp : padd (padd sn sb) 8 = sb + sn + 8 := by
    rw [padd_eq (a := sn) (b := sb) (by omega), padd_eq (by omega)]; omega
  have hpack : PACK (sb + sn + 8) 1 = sb + sn + 9 := by
    unfold PACK; rw [or_one_of_even _ (by omega)]
  rw [htemp, hpack] at hput2
  have hg2 : GET s2 (b - 4) = some (sb + sn + 9) := GET_PUT_same hput2 (by omega)
  have hf2 : FTRP s2 b = some (b + (sb + sn + 8)) := by
    unfold FTRP
    rw [hH, GET_SIZE_of_GET hg2]
    simp only [Option.map_some', Option.some.injEq]
    rw [padd_eq (by omega)]
    omega
  have hin3 : inArena s2 (b + (sb + sn + 8)) 4 :=
    ⟨by rw [f1, r1]; omega, by rw [f2, r2]; omega⟩
  obtain ⟨s3, hput3⟩ := PUT_exists (sb + sn + 9) hin3
  obtain ⟨g1, g2, g3, g4, g5, g6⟩ := PUT_fields hput3
  refine ⟨s3, ?_, by rw [g2, f2, r2], ?_, ?_, ?_, ?_⟩
  · unfold mm_realloc
    rw [hsb]
    simp only [Option.bind_eq_bind, Option.some_bind]
    rw [if_neg (by omega), if_neg (by omega), if_neg (by omega), hnb]
    simp only [Option.some_bind]
    rw [hna, hsn]
    simp only [Option.some_bind]
    rw [if_pos ⟨trivial, by rw [hca, psub_eq (by unfold align_up_8; omega) (by omega)]; omega⟩]
    rw [hrm]
    simp only [Option.some_bind]
    rw [hH, htemp, hpack, hput2]
    simp only [Option.some_bind]
    rw [hf2]
    simp only [Option.some_bind]
    rw [hput3]
    rfl
  · rw [hH, hpack, GET_PUT_other hput3 (by omega), hg2]
  · rw [hpack]; exact GET_PUT_same hput3 (by omega)
  · rw [g4, f4]
    refine IsFreeList_frame (s := s1) (by rw [g1, f1]) (by rw [g2, f2]) _ _ _ (fun x hx => ?_) r5
    have hxL : x ∈ L := List.mem_of_mem_erase hx
    have hne : x ≠ b + sb + 8 := fun e => by
      rw [e] at hx
      exact (List.Nodup.not_mem_erase (Separated_nodup hsep)) hx
    have hd := hdisj x hxL hne
    have hxb := IsFreeList_mem _ _ _ x hl hxL
    refine ⟨?_, ?_⟩
    · unfold GET_PRV
      rw [GET_PUT_other hput3 (by omega), GET_PUT_other hput2 (by omega)]
    · unfold GET_NXT
      rw [GET_PUT_other hput3 (by unfold padd DSIZE; omega),
        GET_PUT_other hput2 (by unfold padd DSIZE; omega)]
  · intro i hi
    rw [g6 _ (by omega), f6 _ (by omega)]
    refine r6 _ (fun x hx hne => ?_)
    have := hdisj x hx hne
    omega

/-- The hypotheses of `mm_realloc_in_place` hold for `mm_realloc(4104, 40)` in
the state `st_two_free`, where the free block `4144` follows the block `4104`. -/
theorem mm_realloc_in_place_witness :
    ∃ s', mm_realloc st_two_free 4104 40 = some (4104, s') ∧
      s'.mem_brk = st_two_free.mem_brk ∧
      GET s' (HDRP 4104) = some (PACK (32 + 32 + 2 * WSIZE) 1) ∧
      GET s' (4104 + (32 + 32 + 2 * WSIZE)) = some (PACK (32 + 32 + 2 * WSIZE) 1) ∧
      IsFreeList s' 0 s'.freel_head ([4224, 4144].erase (4104 + 32 + 2 * WSIZE)) ∧
      ∀ i < 32, s'.mem (4104 + i) = st_two_free.mem (4104 + i) :=
  mm_realloc_in_place st_two_free 4104 40 32 32 [4224, 4144]
    (by decide) (by decide) (by decide) (by decide) (by decide) (by decide) (by decide)
    (by decide)
    ⟨by decide, by decide, by decide, by decide, by decide, 4144, by decide,
      rfl, by decide, by decide, by decide, by decide, 0, by decide, rfl⟩
    (by unfold Separated; decide) (by decide) (by decide)

/-- C8.  Shrink identity: when the header of `b` records a payload of `oldsize`
bytes and `0 < m ≤ oldsize`, `mm_realloc(b, m)` returns `b` and the state is the
one it was called in: no byte of the arena and neither global changes. -/
theorem mm_realloc_shrink_identity (s : Heap) (b m oldsize : Nat)
    (hb : GET_SIZE s (HDRP b) = some oldsize) (h0 : 0 < m) (hm : m ≤ oldsize) :
    mm_realloc s b m = some (b, s) := by
  have h0' : m ≠ 0 := by omega
  simp [mm_realloc, hb, h0', hm]

/-- The hypotheses of `mm_realloc_shrink_identity` hold for `mm_realloc(4104, 10)`
in the state `st_two_free`, where the block `4104` has a payload of 32 bytes. -/
theorem mm_realloc_shrink_identity_witness :
    GET_SIZE st_two_free (HDRP 4104) = some 32 ∧ 0 < 10 ∧ 10 ≤ 32 ∧
      mm_realloc st_two_free 4104 10 = some (4104, st_two_free) :=
  ⟨by decide, by decide, by decide,
    mm_realloc_shrink_identity st_two_free 4104 10 32 (by decide) (by decide) (by decide)⟩

/-- C9.  Failure is atomic.  In a state whose arena lies below address `2^32 - 1`:
`mm_malloc(size)` returns `NULL` exactly when `size` is `0` or the loop of
`find_fit` finds no fit and the arena extension fails; whenever it returns `NULL`
the state is unchanged; and when `mm_realloc(b, size)` has to allocate a fresh
block (`size` exceeds the old payload, `b` is not `NULL`, the next block cannot
be absorbed) and that allocation returns `NULL`, `mm_realloc` returns `NULL` and
the state, the block `b` included, is unchanged. -/
theorem mm_malloc_failure_atomic (s : Heap) (size : Nat)
    (hbrk : s.mem_brk ≤ s.mem_max_addr) (hmax : s.mem_max_addr < 4294967295) :
    ((∃ s', mm_malloc s size = some (0, s')) ↔
      (size = 0 ∨
        (find_fit_loop s (adjusted_size size) 300 s.freel_head = some none ∧
          (extend_heap s (adjusted_size size)).1 = SBRK_FAIL))) ∧
    (∀ s', mm_malloc s size = some (0, s') → s' = s) ∧
    (∀ b oldsize nb nalloc nsz, size ≠ 0 → b ≠ 0 →
      GET_SIZE s (HDRP b) = some oldsize → oldsize < size →
      NEXT_BLKP s b = some nb → GET_ALLOC s (HDRP nb) = some nalloc →
      GET_SIZE s (HDRP nb) = some nsz →
      ¬ (nalloc = 0 ∧ psub (CALC_ALIGN size) oldsize ≤ nsz) →
      (∃ s', mm_malloc s size = some (0, s')) →
      mm_realloc s b size = some (0, s)) := by
  have hsame : ∀ s', mm_malloc s size = some (0, s') → s' = s := by
    intro s' h
    unfold mm_malloc at h
    split at h
    · simp only [Option.some.injEq, Prod.mk.injEq, true_and] at h
      exact h.symm
    · exact (find_fit_null hbrk hmax h).2.2
  refine ⟨⟨?_, ?_⟩, hsame, ?_⟩
  · rintro ⟨s', h⟩
    by_cases h0 : size = 0
    · exact Or.inl h0
    · right
      unfold mm_malloc at h
      rw [if_neg h0] at h
      have := find_fit_null hbrk hmax h
      exact ⟨this.1, this.2.1⟩
  · intro h
    by_cases h0 : size = 0
    · exact ⟨s, by unfold mm_malloc; rw [if_pos h0]⟩
    · rcases h with h | ⟨h1, h2⟩
      · exact absurd h h0
      · exact ⟨s, by unfold mm_malloc; rw [if_neg h0]; exact find_fit_of_sbrk_fail hbrk hmax h1 h2⟩
  · intro b oldsize nb nalloc nsz h0 hb hold hlt hnb hna hns hcond ⟨s', hm⟩
    have := hsame s' hm
    subst this
    unfold mm_realloc
    rw [hold]
    simp only [Option.bind_eq_bind, Option.some_bind]
    rw [if_neg h0, if_neg (by omega), if_neg hb, hnb]
    simp only [Option.some_bind]
    rw [hna, hns]
    simp only [Option.some_bind]
    rw [if_neg hcond, hm]
    simp only [Option.some_bind, if_true]

/-- The hypotheses of `mm_malloc_failure_atomic` hold in the exhausted arena
`st_full`: there `mm_malloc(33)` returns `NULL`, and `mm_realloc(4104, 33)`
returns `NULL` and leaves the state unchanged. -/
theorem mm_malloc_failure_atomic_witness :
    st_full.mem_brk ≤ st_full.mem_max_addr ∧ st_full.mem_max_addr < 4294967295 ∧
      (∃ s', mm_malloc st_full 33 = some (0, s')) ∧
      mm_realloc st_full 4104 33 = some (0, st_full) :=
  have h := mm_malloc_failure_atomic st_full 33 (by decide) (by decide)
  have hm : ∃ s', mm_malloc st_full 33 = some (0, s') := h.1.2 (Or.inr ⟨rfl, by decide⟩)
  ⟨by decide, by decide, hm,
    h.2.2 4104 32 4144 1 0 (by decide) (by decide) (by decide) (by decide) (by decide)
      (by decide) (by decide) (by decide) hm⟩

/-- C10 (the code breaks it).  Claim: `mm_realloc(NULL, size)` behaves as
`mm_malloc(size)` and reads no tag of the null pointer.  On the code:
`mm_realloc` starts with `oldsize = GET_SIZE(HDRP(bp))`, a load from address
`0 - WSIZE = 4294967292`, before it compares `bp` with `NULL`; in every state
whose arena ends below `2^32` that load is outside the arena, so
`mm_realloc(NULL, size)` has no defined result. -/
theorem mm_realloc_null_reads_header (s : Heap) (size : Nat)
    (h : s.mem_brk < 4294967296) :
    GET_SIZE s (HDRP 0) = none ∧ mm_realloc s 0 size = none := by
  have hg : GET_SIZE s (HDRP 0) = none := by
    have hn : ¬ inArena s 4294967292 4 := by
      intro hin
      have := hin.2
      omega
    simp [GET_SIZE, GET, HDRP_zero, hn]
  exact ⟨hg, by simp [mm_realloc, hg]⟩

/-- The hypothesis of `mm_realloc_null_reads_header` holds in the freshly
initialised state `st_init`, where `mm_malloc(1)` returns the block `4104`. -/
theorem mm_realloc_null_reads_header_witness :
    st_init.mem_brk < 4294967296 ∧ (mm_malloc st_init 1).map Prod.fst = some 4104 ∧
      GET_SIZE st_init (HDRP 0) = none ∧ mm_realloc st_init 0 1 = none :=
  ⟨by decide, by decide, mm_realloc_null_reads_header st_init 1 (by decide)⟩

/-- C11 (the code breaks it).  Claim: `mm_free(NULL)` is a no-op that reads no
block tag.  On the code: `mm_free` starts with `size = GET_SIZE(HDRP(bp))`, a
load from address `0 - WSIZE = 4294967292`, before it compares `bp` with `0`; in
every state whose arena ends below `2^32` that load is outside the arena, so
`mm_free(NULL)` has no defined result. -/
theorem mm_free_null_reads_header (s : Heap) (h : s.mem_brk < 4294967296) :
    GET_SIZE s (HDRP 0) = none ∧ mm_free s 0 = none := by
  have hg : GET_SIZE s (HDRP 0) = none := by
    have hn : ¬ inArena s 4294967292 4 := by
      intro hin
      have := hin.2
      omega
    simp [GET_SIZE, GET, HDRP_zero, hn]
  exact ⟨hg, by simp [mm_free, hg]⟩

/-- The hypothesis of `mm_free_null_reads_header` holds in the state
`st_two_free`. -/
theorem mm_free_null_reads_header_witness :
    st_two_free.mem_brk < 4294967296 ∧
      GET_SIZE st_two_free (HDRP 0) = none ∧ mm_free st_two_free 0 = none :=
  ⟨by decide, mm_free_null_reads_header st_two_free (by decide)⟩

/-- C12, counterexample.  Claim: after `mm_init` on an empty arena, `mm_malloc(24)`
returns an address that is at least `arena_bottom + 2·WSIZE + WSIZE`.  On the
code: on the empty arena at `4096`, `mm_malloc(24)` returns `4104`, which is
`arena_bottom + 2·WSIZE` and so below `4096 + 12`; its header records `32` bytes. -/
theorem first_block_below_bottom_plus_12 :
    (do
      let (_, s) ← mm_init (fresh 4096 65536 fun _ => 0)
      let (p, s) ← mm_malloc s 24
      let sz ← GET_SIZE s (HDRP p)
      some (p, sz, decide (p ≥ 4096 + 2 * WSIZE + WSIZE))) = some (4104, 32, false) := by
  decide

/-- C12 (amended).  On every empty arena, whatever its bottom `lo` and the bytes it
holds, that can grow by at least 48 bytes below `2^32`: `mm_init` succeeds and
sets `heap_listp` to `lo + 2·WSIZE`, and `mm_malloc(24)` then returns exactly
`lo + 2·WSIZE`, an address that is 8-aligned when `lo` is, whose header records a
size of exactly `32` and is marked allocated. -/
theorem first_block_at_heap_listp (lo cap : Nat) (m : Nat → Nat)
    (hcap : 48 ≤ cap) (htop : lo + cap ≤ 4294967296) :
    ∃ s1 s2, mm_init (fresh lo cap m) = some (0, s1) ∧
      s1.heap_listp = lo + 2 * WSIZE ∧
      mm_malloc s1 24 = some (lo + 2 * WSIZE, s2) ∧
      (lo % 8 = 0 → (lo + 2 * WSIZE) % 8 = 0) ∧
      GET_SIZE s2 (HDRP (lo + 2 * WSIZE)) = some 32 ∧
      GET_ALLOC s2 (HDRP (lo + 2 * WSIZE)) = some 1 := by
  simp only [WSIZE, Nat.reduceMul]
  obtain ⟨s1, hi, i1, i2, i3, i4, i5, _, _⟩ := mm_init_fresh_spec lo cap m (by omega) (by omega)
  have hsa : spec_asize 24 = 32 := by decide
  obtain ⟨s2, hm, _, _, _, _, _, g1, _, _, _⟩ :=
    mm_malloc_extend_empty (s := s1) (n := 24) (by decide) (by decide) (by omega) (by omega) i4
      (by rw [hsa]; omega)
  rw [i2, hsa] at g1
  rw [i2] at hm
  have hH : HDRP (lo + 8) = lo + 8 - 4 := by
    unfold HDRP WSIZE; exact psub_eq (by omega) (by omega)
  refine ⟨s1, s2, hi, i5, hm, fun h => by omega, ?_, ?_⟩
  · rw [hH]
    exact GET_SIZE_tag g1 (by decide) (Or.inr rfl)
  · rw [hH, GET_ALLOC_of_GET g1]

/-- The hypotheses of `first_block_at_heap_listp` hold for the empty zero-filled
arena at `4096` that can grow by `65536` bytes. -/
theorem first_block_at_heap_listp_witness :
    ∃ s1 s2, mm_init (fresh 4096 65536 fun _ => 0) = some (0, s1) ∧
      s1.heap_listp = 4096 + 2 * WSIZE ∧
      mm_malloc s1 24 = some (4096 + 2 * WSIZE, s2) ∧
      (4096 % 8 = 0 → (4096 + 2 * WSIZE) % 8 = 0) ∧
      GET_SIZE s2 (HDRP (4096 + 2 * WSIZE)) = some 32 ∧
      GET_ALLOC s2 (HDRP (4096 + 2 * WSIZE)) = some 1 :=
  first_block_at_heap_listp 4096 65536 (fun _ => 0) (by decide) (by decide)

/-- C14, counterexample.  Claim: after `a = mm_malloc(64); b = mm_malloc(64);
mm_free(b); c = mm_realloc(a, 100)` the free list is empty and the size of `a` is
`64 + 64 + 2·WSIZE = 136`.  On the code, on the empty arena at `4096`: `a = 4104`
and `b = 4304` are blocks of `192` bytes (`64 + 128`), `mm_realloc(a, 100)`
returns `a` without touching the heap because `100 ≤ 192`, the free list still
holds `b`, and the size of `a` is `192`. -/
theorem realloc_leaves_free_block :
    (do
      let (_, s) ← mm_init (fresh 4096 65536 fun _ => 0)
      let (a, s) ← mm_malloc s 64
      let (b, s) ← mm_malloc s 64
      let s ← mm_free s b
      let (c, s) ← mm_realloc s a 100
      let fl ← free_list s
      let sz ← GET_SIZE s (HDRP a)
      some (a, b, c, fl, sz)) = some (4104, 4304, 4104, [4304], 192) := by
  decide

/-- C14 (amended).  On every empty arena, whatever its bottom `lo` and the bytes it
holds, that can grow by at least 408 bytes below `2^32`: after `mm_init`,
`a = mm_malloc(64)` and `b = mm_malloc(64)` return `lo + 8` and `lo + 208`, and
after `mm_free(b)` the call `c = mm_realloc(a, 100)` returns `c = a` and leaves
the state as it was; afterwards the free list holds exactly the block `b`, and
the size of `a` is `align_up_8(64) + 128 = 192`. -/
theorem realloc_within_slack (lo cap : Nat) (m : Nat → Nat)
    (hcap : 408 ≤ cap) (htop : lo + cap < 4294967296) :
    ∃ s0 s1 s2 s3, mm_init (fresh lo cap m) = some (0, s0) ∧
      mm_malloc s0 64 = some (lo + 8, s1) ∧
      mm_malloc s1 64 = some (lo + 208, s2) ∧
      mm_free s2 (lo + 208) = some s3 ∧
      mm_realloc s3 (lo + 8) 100 = some (lo + 8, s3) ∧
      IsFreeList s3 0 s3.freel_head [lo + 208] ∧
      GET_SIZE s3 (HDRP (lo + 8)) = some (align_up_8 64 + 128) ∧
      GET_ALLOC s3 (HDRP (lo + 8)) = some 1 := by
  have hsa : spec_asize 64 = 192 := by decide
  have hal : align_up_8 64 + 128 = 192 := by decide
  obtain ⟨s0, s1, hi, hm1, a1, a2, a3, a5, _, gah, gaf, _⟩ :=
    first_malloc_fresh lo cap m 64 (by decide) (by decide) (by rw [hsa]; omega) htop
  rw [hsa] at a2 gah gaf
  obtain ⟨s2, hm2, b1, b2, b3, b5, gbh, _, gbe, hfr2⟩ :=
    next_malloc_empty (s := s1) lo cap (lo + 208) 64 (by decide) (by decide) a1 (by omega) a3
      a5 (by omega) (by rw [hsa]; omega) htop
  rw [hsa] at b2 gbh gbe
  have ga : GET s2 (lo + 4) = some 193 := by rw [hfr2 _ (by omega)]; exact gah
  have gf : GET s2 (lo + 208 - 8) = some 193 := by
    rw [hfr2 _ (by omega), show lo + 208 - 8 = lo + 8 + 192 by omega]; exact gaf
  clear hfr2 gah gaf a1 a2 a3 a5 hsa
  obtain ⟨s3, hf, _, _, _, _, hl3, hfr3⟩ :=
    @mm_free_between_allocated s2 (lo + 208) 192 193 1 [] (by omega) gbh (by decide)
      (by decide) (by omega) (by omega) b5 (by unfold Separated; exact List.Pairwise.nil)
      gf (by decide) gbe (by decide) (fun x hx => absurd hx (List.not_mem_nil x))
  have ga3 : GET s3 (lo + 4) = some 193 := by
    rw [hfr3 _ (Or.inl (by omega)) (fun x hx => absurd hx (List.not_mem_nil x))]; exact ga
  have hHa : HDRP (lo + 8) = lo + 4 := by rw [HDRP_eq (by omega) (by omega)]; omega
  have hsz3 : GET_SIZE s3 (HDRP (lo + 8)) = some 192 := by
    rw [hHa]; exact GET_SIZE_tag ga3 (by decide) (Or.inr rfl)
  refine ⟨s0, s1, s2, s3, hi, hm1, hm2, hf, ?_, hl3, by rw [hal]; exact hsz3, ?_⟩
  · simp [mm_realloc, hsz3]
  · rw [hHa, GET_ALLOC_of_GET ga3]

/-- The hypotheses of `realloc_within_slack` hold for the empty zero-filled arena at
`4096` that can grow by `65536` bytes. -/
theorem realloc_within_slack_witness :
    ∃ s0 s1 s2 s3, mm_init (fresh 4096 65536 fun _ => 0) = some (0, s0) ∧
      mm_malloc s0 64 = some (4096 + 8, s1) ∧
      mm_malloc s1 64 = some (4096 + 208, s2) ∧
      mm_free s2 (4096 + 208) = some s3 ∧
      mm_realloc s3 (4096 + 8) 100 = some (4096 + 8, s3) ∧
      IsFreeList s3 0 s3.freel_head [4096 + 208] ∧
      GET_SIZE s3 (HDRP (4096 + 8)) = some (align_up_8 64 + 128) ∧
      GET_ALLOC s3 (HDRP (4096 + 8)) = some 1 :=
  realloc_within_slack 4096 65536 (fun _ => 0) (by decide) (by decide)

/-- C15, counterexample.  Claim: after three calls `mm_malloc(48)` returning `x`,
`y`, `z` and `mm_free(x); mm_free(z); mm_free(y)`, the free list holds a single
block, at `x`, of size `48·3 + 4·WSIZE = 160`.  On the code, on the empty arena at
`4096`: the three blocks have `176` bytes each (`48 + 128`), and the single free
block at `x = 4104` has `544` bytes. -/
theorem merged_block_has_544_bytes :
    (do
      let (_, s) ← mm_init (fresh 4096 65536 fun _ => 0)
      let (x, s) ← mm_malloc s 48
      let (y, s) ← mm_malloc s 48
      let (z, s) ← mm_malloc s 48
      let s ← mm_free s x
      let s ← mm_free s z
      let s ← mm_free s y
      let fl ← free_list s
      let sz ← GET_SIZE s (HDRP x)
      some ([x, y, z], fl, sz)) = some ([4104, 4288, 4472], [4104], 544) := by
  decide

/-- C15 (amended).  On every empty arena, whatever its bottom `lo` and the bytes it
holds, that can grow by at least 560 bytes below `2^32`: after `mm_init`, three
calls `mm_malloc(48)` return the adjacent blocks `x = lo + 8`, `y = lo + 192` and
`z = lo + 376`, and after `mm_free(x)`, `mm_free(z)`, `mm_free(y)` the free list
holds a single block, its address is `x`, and its header and footer record a free
block of `(align_up_8(48) + 128)·3 + 4·WSIZE = 544` bytes. -/
theorem three_frees_one_block (lo cap : Nat) (m : Nat → Nat)
    (hcap : 560 ≤ cap) (htop : lo + cap < 4294967296) :
    ∃ s0 s1 s2 s3 s4 s5 s6, mm_init (fresh lo cap m) = some (0, s0) ∧
      mm_malloc s0 48 = some (lo + 8, s1) ∧
      mm_malloc s1 48 = some (lo + 192, s2) ∧
      mm_malloc s2 48 = some (lo + 376, s3) ∧
      mm_free s3 (lo + 8) = some s4 ∧
      mm_free s4 (lo + 376) = some s5 ∧
      mm_free s5 (lo + 192) = some s6 ∧
      IsFreeList s6 0 s6.freel_head [lo + 8] ∧
      GET s6 (HDRP (lo + 8)) = some (PACK ((align_up_8 48 + 128) * 3 + 4 * WSIZE) 0) ∧
      GET s6 (lo + 8 + ((align_up_8 48 + 128) * 3 + 4 * WSIZE)) =
        some (PACK ((align_up_8 48 + 128) * 3 + 4 * WSIZE) 0) := by
  have hsa : spec_asize 48 = 176 := by decide
  have nil4 : ∀ q : Nat, ∀ x ∈ ([] : List Nat), q + 4 ≤ x ∨ x + 12 ≤ q :=
    fun q x hx => absurd hx (List.not_mem_nil x)
  -- the three calls of mm_malloc
  obtain ⟨s0, s1, hi, hm1, a1, a2, a3, a5, gp, gxh, _, _⟩ :=
    first_malloc_fresh lo cap m 48 (by decide) (by decide) (by rw [hsa]; omega) htop
  rw [hsa] at a2 gxh
  obtain ⟨s2, hm2, b1, b2, b3, b5, gyh, gyf, _, hfr2⟩ :=
    next_malloc_empty (s := s1) lo cap (lo + 192) 48 (by decide) (by decide) a1 (by omega) a3
      a5 (by omega) (by rw [hsa]; omega) htop
  rw [hsa] at b2 gyh gyf
  have gp2 : GET s2 lo = some 1 := by rw [hfr2 _ (by omega)]; exact gp
  have gx2 : GET s2 (lo + 4) = some 177 := by rw [hfr2 _ (by omega)]; exact gxh
  clear hfr2 gp gxh a1 a2 a3 a5
  obtain ⟨s3, hm3, c1, c2, _, c5, gzh, _, gze, hfr3⟩ :=
    next_malloc_empty (s := s2) lo cap (lo + 376) 48 (by decide) (by decide) b1 (by omega) b3
      b5 (by omega) (by rw [hsa]; omega) htop
  rw [hsa] at c2 gzh gze
  have t0 : GET s3 (lo + 8 - 8) = some 1 := by
    rw [show lo + 8 - 8 = lo by omega, hfr3 _ (by omega)]; exact gp2
  have t1 : GET s3 (lo + 8 - 4) = some (176 + 1) := by
    rw [show lo + 8 - 4 = lo + 4 by omega, hfr3 _ (by omega)]; exact gx2
  have t3 : GET s3 (lo + 8 + 176 + 4) = some 177 := by
    rw [hfr3 _ (by omega), show lo + 8 + 176 + 4 = lo + 192 - 4 by omega]; exact gyh
  have t4 : GET s3 (lo + 368) = some 177 := by
    rw [hfr3 _ (by omega), show lo + 368 = lo + 192 + 176 by omega]; exact gyf
  clear hfr3 gp2 gx2 gyh gyf b1 b2 b3 b5 hsa
  -- mm_free(x)
  obtain ⟨s4, hf4, d1, d2, g4h, g4f, hl4, hfr4⟩ :=
    @mm_free_between_allocated s3 (lo + 8) 176 1 177 [] (by omega) t1 (by decide)
      (by decide) (by omega) (by omega) c5 (by unfold Separated; exact List.Pairwise.nil)
      t0 (by decide) t3 (by decide) (fun x hx => absurd hx (List.not_mem_nil x))
  rw [c1] at d1
  rw [c2] at d2
  have u3 : GET s4 (lo + 188) = some 177 := by
    rw [hfr4 _ (Or.inr (by omega)) (nil4 _), show lo + 188 = lo + 8 + 176 + 4 by omega]
    exact t3
  have u4 : GET s4 (lo + 376 - 8) = some 177 := by
    rw [hfr4 _ (Or.inr (by omega)) (nil4 _), show lo + 376 - 8 = lo + 368 by omega]; exact t4
  have u5 : GET s4 (lo + 376 - 4) = some (176 + 1) := by
    rw [hfr4 _ (Or.inr (by omega)) (nil4 _)]; exact gzh
  have u6 : GET s4 (lo + 376 + 176 + 4) = some 1 := by
    rw [hfr4 _ (Or.inr (by omega)) (nil4 _)]; exact gze
  clear hfr4 t0 t1 t3 t4 gzh gze c1 c2 c5 nil4
  -- mm_free(z)
  have one5 : ∀ q : Nat, q + 4 ≤ lo + 8 ∨ lo + 8 + 12 ≤ q →
      ∀ x ∈ [lo + 8], q + 4 ≤ x ∨ x + 12 ≤ q := fun q hq x hx => by
    rw [List.mem_singleton] at hx
    subst hx
    exact hq
  obtain ⟨s5, hf5, e1, e2, g5h, _, hl5, hfr5⟩ :=
    @mm_free_between_allocated s4 (lo + 376) 176 177 1 [lo + 8] (by omega) u5 (by decide)
      (by decide) (by omega) (by omega) hl4
      (by unfold Separated; exact List.pairwise_singleton _ _)
      u4 (by decide) u6 (by decide)
      (fun x hx => by
        rw [List.mem_singleton] at hx
        subst hx
        left
        omega)
  rw [d1] at e1
  rw [d2] at e2
  have v1 : GET s5 (lo + 4) = some 176 := by
    rw [hfr5 _ (Or.inl (by omega)) (one5 _ (by omega)), show lo + 4 = lo + 8 - 4 by omega]
    exact g4h
  have v2 : GET s5 (lo + 184) = some 176 := by
    rw [hfr5 _ (Or.inl (by omega)) (one5 _ (by omega)), show lo + 184 = lo + 8 + 176 by omega]
    exact g4f
  have v3 : GET s5 (lo + 188) = some 177 := by
    rw [hfr5 _ (Or.inl (by omega)) (one5 _ (by omega))]; exact u3
  have v5 : GET s5 (lo + 372) = some 176 := by
    rw [show lo + 372 = lo + 376 - 4 by omega]; exact g5h
  clear hfr5 u3 u4 u5 u6 g4h g4f g5h hl4 d1 d2 one5
  -- mm_free(y)
  obtain ⟨s6, hf6, hl6, g6h, g6f⟩ := mm_free_between_free lo s5 e1 e2 (by omega) hl5 v1 v2 v3 v5
  have hsize : PACK ((align_up_8 48 + 128) * 3 + 4 * WSIZE) 0 = 544 := by decide
  have hsize2 : (align_up_8 48 + 128) * 3 + 4 * WSIZE = 544 := by decide
  refine ⟨s0, s1, s2, s3, s4, s5, s6, hi, hm1, hm2, hm3, hf4, hf5, hf6, hl6, ?_, ?_⟩
  · rw [hsize, HDRP_eq (by omega) (by omega), show lo + 8 - 4 = lo + 4 by omega]
    exact g6h
  · rw [hsize, hsize2, show lo + 8 + 544 = lo + 552 by omega]
    exact g6f

/-- The hypotheses of `three_frees_one_block` hold for the empty zero-filled arena
at `4096` that can grow by `65536` bytes. -/
theorem three_frees_one_block_witness :
    ∃ s0 s1 s2 s3 s4 s5 s6, mm_init (fresh 4096 65536 fun _ => 0) = some (0, s0) ∧
      mm_malloc s0 48 = some (4096 + 8, s1) ∧
      mm_malloc s1 48 = some (4096 + 192, s2) ∧
      mm_malloc s2 48 = some (4096 + 376, s3) ∧
      mm_free s3 (4096 + 8) = some s4 ∧
      mm_free s4 (4096 + 376) = some s5 ∧
      mm_free s5 (4096 + 192) = some s6 ∧
      IsFreeList s6 0 s6.freel_head [4096 + 8] ∧
      GET s6 (HDRP (4096 + 8)) = some (PACK ((align_up_8 48 + 128) * 3 + 4 * WSIZE) 0) ∧
      GET s6 (4096 + 8 + ((align_up_8 48 + 128) * 3 + 4 * WSIZE)) =
        some (PACK ((align_up_8 48 + 128) * 3 + 4 * WSIZE) 0) :=
  three_frees_one_block 4096 65536 (fun _ => 0) (by decide) (by decide)

/-- C16, counterexample.  Claim: when the free list holds a single free block of
`4096` bytes at `f`, after `mm_malloc(64)` the block left at `f` has
`4096 − 32 − 2·WSIZE = 4056` bytes.  On the code: `f = mm_malloc(3968)` is a block
of `4096` bytes at `4104`, and after `mm_free(f)` it is the only node of the free
list; `mm_malloc(64)` then returns `8008`, a block of `192` bytes (the adjusted
size of a 64-byte request is `64 + 128`), and the block left at `4104` has `3896`
bytes. -/
theorem split_remnant_is_3896 :
    (do
      let (_, s) ← mm_init (fresh 4096 65536 fun _ => 0)
      let (f, s) ← mm_malloc s 3968
      let s ← mm_free s f
      let fl0 ← free_list s
      let sz0 ← GET_SIZE s (HDRP f)
      let (p, s) ← mm_malloc s 64
      let psz ← GET_SIZE s (HDRP p)
      let fl ← free_list s
      let sz ← GET_SIZE s (HDRP f)
      some ([f, sz0, p, psz, sz], fl0, fl)) =
    some ([4104, 4096, 8008, 192, 3896], [4104], [4104]) := by
  decide

/-- C16 (amended).  In every state whose free list is the single node `f`, a free
block of `4096` bytes that lies inside the arena, `mm_malloc(64)` returns the high
end of that block: the returned block `f + 4096 − 192` has `192` bytes
(`align_up_8(64) + 128`), is marked allocated, and its footer is where the footer
of the free block was, at `f + 4096`; the free list still holds exactly the node
`f`, whose header and footer now record a free block of
`4096 − 192 − 2·WSIZE = 3896` bytes. -/
theorem mm_malloc_splits_high_end (s : Heap) (f : Nat)
    (hbrk : s.mem_brk ≤ 4294967296)
    (hl : IsFreeList s 0 s.freel_head [f])
    (hsz : GET s (HDRP f) = some (PACK 4096 0))
    (hlo : s.mem_start_brk + WSIZE ≤ f) (hend : f + 4096 + WSIZE ≤ s.mem_brk) :
    ∃ s', mm_malloc s 64 = some (f + 4096 - 192, s') ∧
      GET s' (HDRP (f + 4096 - 192)) = some (PACK 192 1) ∧
      FTRP s' (f + 4096 - 192) = some (f + 4096) ∧
      GET s' (f + 4096) = some (PACK 192 1) ∧
      IsFreeList s' 0 s'.freel_head [f] ∧
      GET s' (HDRP f) = some (PACK (4096 - 192 - 2 * WSIZE) 0) ∧
      FTRP s' f = some (f + (4096 - 192 - 2 * WSIZE)) ∧
      GET s' (f + (4096 - 192 - 2 * WSIZE)) = some (PACK (4096 - 192 - 2 * WSIZE) 0) := by
  simp only [WSIZE, Nat.reduceMul, Nat.reduceSub] at *
  have hH : HDRP f = f - 4 := by unfold HDRP WSIZE; exact psub_eq (by omega) (by omega)
  have hk : PACK 4096 0 = 4096 := by decide
  have hk1 : PACK 192 1 = 193 := by decide
  have hk2 : PACK 3896 0 = 3896 := by decide
  rw [hk] at hsz
  have hsc : GET_SIZE s (HDRP f) = some 4096 := GET_SIZE_tag hsz (by decide) (Or.inl rfl)
  have hm : mm_malloc s 64 = find_fit s s.freel_head 192 := by
    unfold mm_malloc
    rw [if_neg (by decide)]
    have : adjusted_size 64 = 192 := by decide
    rw [this]
  have hl' : IsFreeList s 0 s.freel_head ([] ++ f :: []) := hl
  obtain ⟨s', h1, _, h2, _, _, g1, g2, g3, g4, h3, _⟩ :=
    @find_fit_split s 192 f 4096 [] [] hbrk hl' (by decide)
      (fun x hx => absurd hx (List.not_mem_nil x)) hsc hlo hend
      (fun x hx hne => by simp at hx; exact absurd hx hne) (by decide) (by decide)
  simp only [Nat.reduceSub] at g1 g2 g3
  have hHp : HDRP (f + 4096 - 192) = f + 4096 - 192 - 4 := by
    unfold HDRP WSIZE; exact psub_eq (by omega) (by omega)
  refine ⟨s', by rw [hm]; exact h1, by rw [hHp, hk1]; exact g3, ?_, by rw [hk1]; exact g4, h3,
    by rw [hH, hk2]; exact g1, ?_, by rw [hk2]; exact g2⟩
  · unfold FTRP
    rw [hHp, GET_SIZE_tag g3 (by decide) (Or.inr rfl)]
    simp only [Option.map_some', Option.some.injEq]
    rw [padd_eq (by omega)]
    omega
  · unfold FTRP
    rw [hH, GET_SIZE_tag g1 (by decide) (Or.inl rfl)]
    simp only [Option.map_some', Option.some.injEq]
    exact padd_eq (by omega)

/-- The hypotheses of `mm_malloc_splits_high_end` hold in the state `st_big_free`,
whose free list is the single block `4104` of `4096` bytes. -/
theorem mm_malloc_splits_high_end_witness :
    ∃ s', mm_malloc st_big_free 64 = some (4104 + 4096 - 192, s') ∧
      GET s' (HDRP (4104 + 4096 - 192)) = some (PACK 192 1) ∧
      FTRP s' (4104 + 4096 - 192) = some (4104 + 4096) ∧
      GET s' (4104 + 4096) = some (PACK 192 1) ∧
      IsFreeList s' 0 s'.freel_head [4104] ∧
      GET s' (HDRP 4104) = some (PACK (4096 - 192 - 2 * WSIZE) 0) ∧
      FTRP s' 4104 = some (4104 + (4096 - 192 - 2 * WSIZE)) ∧
      GET s' (4104 + (4096 - 192 - 2 * WSIZE)) = some (PACK (4096 - 192 - 2 * WSIZE) 0) :=
  mm_malloc_splits_high_end st_big_free 4104 (by decide)
    ⟨by decide, by decide, by decide, by decide, by decide, 0, by decide, rfl⟩
    (by decide) (by decide) (by decide)

/-- C17, counterexample.  Claim: after `a = mm_malloc(n)` and `mm_free(a)` the
block at `freel_head` has at least `n` bytes.  On the code, in a state reached
with small requests only, whose free list is `[4104, 4184]` with the sizes `32` and
`432`: `a = mm_malloc(200)` is carved from the tail of `4184`, and `mm_free(a)`
merges `a` back into `4184`, the free block before it, which keeps its place
behind `4104` in the list; the block at `freel_head` is `4104`, of `32` bytes. -/
theorem freed_block_behind_small_head :
    (do
      let (_, s) ← mm_init (fresh 4096 65536 fun _ => 0)
      let (x, s) ← mm_malloc s 1
      let (_, s) ← mm_malloc s 1
      let (y, s) ← mm_malloc s 300
      let (_, s) ← mm_malloc s 1
      let s ← mm_free s y
      let s ← mm_free s x
      let (a, s) ← mm_malloc s 200
      let s ← mm_free s a
      let fl ← free_list s
      let sz ← GET_SIZE s (HDRP s.freel_head)
      let bs ← blocks s
      some ([x, y, a, s.freel_head, sz], fl, bs)) =
    some ([4104, 4184, 4288, 4104, 32], [4104, 4184],
      [(4104, 32, 0), (4144, 32, 1), (4184, 432, 0), (4624, 32, 1)]) := by
  decide

/-- C17 (amended).  Let `a = mm_malloc(n)` succeed for a request `n ≤ 4294967128`
(one whose adjusted size fits 32 bits) and let the neighbourhood of `a` in the
state `s1` after the call be well formed: the free list is the well-formed list
`L`, the tags before and after `a` are readable, a free previous block has equal
header and footer and is a node of `L`, a free next block is a node of `L`, and
the links of the other nodes lie outside the blocks involved.  Then the block `a`
has at least `n` bytes, `mm_free(a)` has a defined result, and afterwards the
free list contains a free block of at least `n` bytes: when the block before `a`
is allocated it is `a` itself, which is the block at `freel_head` (one probe);
when the block before `a` is free it is that block, which has absorbed `a` and
is where it was in the list (the list is `L`, without the block after `a` when
that one was free and has been absorbed too). -/
theorem free_after_malloc (s s1 : Heap) (n a sz pa na psz nsz : Nat) (L : List Nat)
    (hn : n ≤ 4294967128)
    (hbrk : s.mem_brk ≤ s.mem_max_addr) (hmax : s.mem_max_addr < 4294967296)
    (hm : mm_malloc s n = some (a, s1)) (ha : a ≠ 0)
    (hsz : GET_SIZE s1 (HDRP a) = some sz)
    (hlo : s1.mem_start_brk + 2 * WSIZE ≤ a) (hhi : a + sz + 2 * WSIZE ≤ s1.mem_brk)
    (hl : IsFreeList s1 0 s1.freel_head L) (hsep : Separated L)
    (hpa : GET_ALLOC s1 (a - 2 * WSIZE) = some pa)
    (hps : GET_SIZE s1 (a - 2 * WSIZE) = some psz)
    (hna : GET_ALLOC s1 (a + sz + WSIZE) = some na)
    (hns : GET_SIZE s1 (a + sz + WSIZE) = some nsz)
    (hprev : pa = 0 → 8 ≤ psz ∧ s1.mem_start_brk + WSIZE + psz + 2 * WSIZE ≤ a ∧
      GET_SIZE s1 (HDRP (a - psz - 2 * WSIZE)) = some psz ∧ a - psz - 2 * WSIZE ∈ L)
    (hnext : na = 0 → 12 ≤ nsz ∧ a + sz + 2 * WSIZE + nsz + WSIZE ≤ s1.mem_brk ∧
      a + sz + 2 * WSIZE ∈ L)
    (hout : ∀ x ∈ L, (pa = 0 → x ≠ a - psz - 2 * WSIZE) → (na = 0 → x ≠ a + sz + 2 * WSIZE) →
      x + 12 ≤ (if pa = 0 then a - psz - 2 * WSIZE else a) - WSIZE ∨
        (if na = 0 then a + sz + 2 * WSIZE + nsz else a + sz) + WSIZE ≤ x) :
    n ≤ sz ∧
    ∃ s2, mm_free s1 a = some s2 ∧
      ∃ L2 blk bsz, IsFreeList s2 0 s2.freel_head L2 ∧ blk ∈ L2 ∧
        GET_SIZE s2 (HDRP blk) = some bsz ∧ GET_ALLOC s2 (HDRP blk) = some 0 ∧ n ≤ bsz ∧
        (pa ≠ 0 → blk = a ∧ s2.freel_head = a) ∧
        (pa = 0 → blk = a - psz - 2 * WSIZE ∧
          L2 = if na = 0 then L.erase (a + sz + 2 * WSIZE) else L) := by
  simp only [WSIZE, Nat.reduceMul] at *
  obtain ⟨sz', gh, h8, hnle, hale, e1, e2⟩ := mm_malloc_header hn hbrk hm ha
  have hsz' := GET_SIZE_tag gh h8 (Or.inr rfl)
  rw [hsz] at hsz'
  simp only [Option.some.injEq] at hsz'
  subst hsz'
  have h32 : 32 ≤ sz := by
    have : 32 ≤ spec_asize n := by unfold spec_asize align_up_8; split <;> omega
    omega
  obtain ⟨wp, hwp, hwplt, hpv⟩ := GET_SIZE_some hps
  obtain ⟨wn, hwn, hwnlt, hnv⟩ := GET_SIZE_some hns
  refine ⟨hnle, ?_⟩
  obtain ⟨s2, hf, _, _, g1, _, hl2, hhd, _⟩ :=
    mm_free_spec (by omega) hsz (by omega) hlo hhi hl hsep hpa hps hna hns hprev hnext hout
  refine ⟨s2, hf, ?_⟩
  have hnn : (if na = 0 then nsz + 8 else 0) % 8 = 0 := by
    by_cases hn0 : na = 0
    · rw [if_pos hn0]; omega
    · rw [if_neg hn0]
  by_cases hp : pa = 0
  · obtain ⟨_, hpl, _, hpm⟩ := hprev hp
    rw [if_pos hp] at hl2 g1
    rw [if_pos hp] at g1
    have hH : HDRP (a - psz - 8) = a - psz - 8 - 4 := by
      unfold HDRP WSIZE; exact psub_eq (by omega) (by omega)
    refine ⟨if na = 0 then L.erase (a + sz + 8) else L, a - psz - 8,
      sz + (psz + 8) + (if na = 0 then nsz + 8 else 0), hl2, ?_, ?_, ?_, ?_,
      fun h => absurd hp h, fun _ => ⟨rfl, rfl⟩⟩
    · by_cases hn0 : na = 0
      · rw [if_pos hn0]
        exact (List.mem_erase_of_ne (by omega)).mpr hpm
      · rw [if_neg hn0]
        exact hpm
    · rw [hH]
      exact GET_SIZE_tag g1 (by omega) (Or.inl rfl)
    · have h2 : (sz + (psz + 8) + if na = 0 then nsz + 8 else 0) % 2 = 0 := by omega
      rw [hH, GET_ALLOC_of_GET g1, h2]
    · omega
  · rw [if_neg hp] at hl2 g1
    rw [if_neg hp] at g1
    have hH : HDRP a = a - 4 := by unfold HDRP WSIZE; exact psub_eq (by omega) (by omega)
    have hfh := hhd hp
    refine ⟨a :: (if na = 0 then L.erase (a + sz + 8) else L), a,
      sz + 0 + (if na = 0 then nsz + 8 else 0), hl2,
      List.mem_cons_self _ _, ?_, ?_, ?_,
      fun _ => ⟨rfl, hfh⟩, fun h => absurd h hp⟩
    · rw [hH]
      exact GET_SIZE_tag g1 (by omega) (Or.inl rfl)
    · have h2 : (sz + 0 + if na = 0 then nsz + 8 else 0) % 2 = 0 := by omega
      rw [hH, GET_ALLOC_of_GET g1, h2]
    · omega

/-- The hypotheses of `free_after_malloc` hold for `mm_malloc(200)` in the state
`st_small_first`, which returns `a = 4288`, a block of `328` bytes behind the free
block `4184` of `96` bytes and before the allocated block `4624`. -/
theorem free_after_malloc_witness :
    200 ≤ 328 ∧
    ∃ s2, mm_free st_small_first_split 4288 = some s2 ∧
      ∃ L2 blk bsz, IsFreeList s2 0 s2.freel_head L2 ∧ blk ∈ L2 ∧
        GET_SIZE s2 (HDRP blk) = some bsz ∧ GET_ALLOC s2 (HDRP blk) = some 0 ∧ 200 ≤ bsz ∧
        ((0 : Nat) ≠ 0 → blk = 4288 ∧ s2.freel_head = 4288) ∧
        ((0 : Nat) = 0 → blk = 4288 - 96 - 2 * WSIZE ∧
          L2 = if (1 : Nat) = 0 then [4104, 4184].erase (4288 + 328 + 2 * WSIZE)
            else [4104, 4184]) :=
  free_after_malloc st_small_first st_small_first_split 200 4288 328 0 1 96 32 [4104, 4184]
    (by decide) (by decide) (by decide)
    (run_eq_of_fst (by decide)) (by decide) (by decide) (by decide) (by decide)
    ⟨by decide, by decide, by decide, by decide, by decide, 4184, by decide,
      rfl, by decide, by decide, by decide, by decide, 0, by decide, rfl⟩
    (by unfold Separated; decide) (by decide) (by decide) (by decide) (by decide)
    (fun _ => ⟨by decide, by decide, by decide, by decide⟩)
    (fun h => absurd h (by decide))
    (by decide)

/-- C18 (the code breaks it).  Claim: in every reachable state, after `mm_free(b)`
of a live block `b` the arena holds one free block that spans `b` and its free
neighbours, that starts at the previous block when that block was free, and that
is in the free list.  On the code: after `p = mm_malloc(4294967176)`, whose
adjusted size wraps around to `8`, `n = mm_malloc(1)` and `mm_free(p)`, the block
`n = 4120` is live and the block `p = 4104` before it is free and on the list;
`mm_free(n)` reads the footer of `p`, which the next-free link of `p` has
overwritten with `0`, and merges `n` into a block of size `0` at `n - 8`: the
header of `p` still records `8` bytes, the header of `n` records `32` free
bytes, and the free list is `[p]`, without `n`. -/
theorem mm_free_misses_free_neighbour :
    (do
      let (_, s) ← mm_init (fresh 4096 65536 fun _ => 0)
      let (p, s) ← mm_malloc s 4294967176
      let (n, s) ← mm_malloc s 1
      let s ← mm_free s p
      let before ← blocks s
      let fl0 ← free_list s
      let s ← mm_free s n
      let hp ← GET s (HDRP p)
      let hn ← GET s (HDRP n)
      let fl ← free_list s
      some ([p, n, hp, hn], before, fl0, fl)) =
    some ([4104, 4120, 8, 32], [(4104, 8, 0), (4120, 32, 1)], [4104], [4104]) := by
  decide

/-- C19, counterexample.  Claim: when no entry among the first 300 fits,
`mm_malloc` extends the arena by `asize + 2·WSIZE` and returns a new block.  On the
code: in the exhausted arena `st_full` the free list is empty, and `mm_malloc(33)`,
whose adjusted size is `168`, returns `NULL` and leaves the arena top at `4144`,
because `mem_sbrk` fails. -/
theorem mm_malloc_extension_can_fail :
    (do
      let fl ← free_list st_full
      let (p, s) ← mm_malloc st_full 33
      some (fl, spec_asize 33, st_full.mem_brk, p, s.mem_brk)) =
    some ([], 168, 4144, 0, 4144) := by
  decide

/-- C19 (amended).  Placement is bounded first fit with split at the tail.  Let
`0 < size ≤ 4294967128`, so that `asize = spec_asize size` (`32` when
`size ≤ 32`, `align_up_8(size) + 128` otherwise) and `asize + 32` fit 32 bits, and
let the free list be the well-formed list `L`.

* If `c` is the first node of `L` with a size `sc ≥ asize`, fewer than 300 nodes
  come before it, and the block `c` lies inside the arena clear of the links of
  the other nodes, then: when `sc ≥ asize + 32`, `mm_malloc(size)` returns
  `c + sc − asize`, a block of `asize` bytes marked allocated whose footer is at
  `c + sc`, and leaves at `c` a free block of `sc − asize − 2·WSIZE` bytes, the free
  list still being `L`; when `sc < asize + 32`, it returns `c` itself, marked
  allocated with its size `sc`, and the free list is `L` without `c`.
* If none of the first 300 nodes of `L` is large enough (whatever comes after
  them), then: when the arena can grow by `asize + 2·WSIZE`, `mm_malloc(size)`
  returns the old arena top as a block of exactly `asize` bytes, followed by a new
  epilogue header, the arena having grown by `asize + 2·WSIZE` and the free list
  still being `L`; when the arena cannot grow that much, it returns `NULL` and
  leaves the state as it was. -/
theorem mm_malloc_placement (s : Heap) (size : Nat) (L : List Nat)
    (hsize : 0 < size) (hnowrap : size ≤ 4294967128)
    (hbrk : s.mem_brk ≤ s.mem_max_addr) (hmax : s.mem_max_addr < 4294967295)
    (hl : IsFreeList s 0 s.freel_head L) (hsep : Separated L) :
    (∀ l1 c l2 sc, L = l1 ++ c :: l2 → l1.length < 300 →
      (∀ x ∈ l1, ∃ sx, GET_SIZE s (HDRP x) = some sx ∧ sx < spec_asize size) →
      GET_SIZE s (HDRP c) = some sc → spec_asize size ≤ sc →
      s.mem_start_brk + WSIZE ≤ c → c + sc + WSIZE ≤ s.mem_brk →
      (∀ x ∈ L, x ≠ c → x + 12 ≤ c - WSIZE ∨ c + sc + WSIZE ≤ x) →
      (spec_asize size + 32 ≤ sc →
        ∃ s', mm_malloc s size = some (c + sc - spec_asize size, s') ∧
          s'.mem_brk = s.mem_brk ∧
          GET s' (HDRP c) = some (PACK (sc - spec_asize size - 2 * WSIZE) 0) ∧
          GET s' (c + (sc - spec_asize size - 2 * WSIZE)) =
            some (PACK (sc - spec_asize size - 2 * WSIZE) 0) ∧
          GET s' (HDRP (c + sc - spec_asize size)) = some (PACK (spec_asize size) 1) ∧
          GET s' (c + sc) = some (PACK (spec_asize size) 1) ∧
          IsFreeList s' 0 s'.freel_head L) ∧
      (sc < spec_asize size + 32 →
        ∃ s', mm_malloc s size = some (c, s') ∧ s'.mem_brk = s.mem_brk ∧
          GET s' (HDRP c) = some (PACK sc 1) ∧ GET s' (c + sc) = some (PACK sc 1) ∧
          IsFreeList s' 0 s'.freel_head (L.erase c))) ∧
    ((∀ x ∈ L.take 300, ∃ sx, GET_SIZE s (HDRP x) = some sx ∧ sx < spec_asize size) →
      s.mem_start_brk + WSIZE ≤ s.mem_brk → (∀ x ∈ L, x + 12 ≤ s.mem_brk - WSIZE) →
      (s.mem_brk + spec_asize size + 2 * WSIZE ≤ s.mem_max_addr →
        ∃ s', mm_malloc s size = some (s.mem_brk, s') ∧
          s'.mem_brk = s.mem_brk + spec_asize size + 2 * WSIZE ∧
          GET s' (HDRP s.mem_brk) = some (PACK (spec_asize size) 1) ∧
          GET s' (s.mem_brk + spec_asize size) = some (PACK (spec_asize size) 1) ∧
          GET s' (s.mem_brk + spec_asize size + WSIZE) = some (PACK 0 1) ∧
          IsFreeList s' 0 s'.freel_head L) ∧
      (s.mem_max_addr < s.mem_brk + spec_asize size + 2 * WSIZE →
        mm_malloc s size = some (0, s))) := by
  have hm : mm_malloc s size = find_fit s s.freel_head (spec_asize size) := by
    unfold mm_malloc
    rw [if_neg (by omega), adjusted_size_eq (by omega)]
  have ha8 := spec_asize_mod8 size
  have halt : spec_asize size ≤ 4294967256 := by
    unfold spec_asize align_up_8; split <;> omega
  simp only [WSIZE, Nat.reduceMul]
  rw [hm]
  refine ⟨?_, ?_⟩
  · intro l1 c l2 sc hL hlen hsmall hsc hfit hlo hend hdisj
    subst hL
    obtain ⟨w, hw, hwlt, hscv⟩ := GET_SIZE_some hsc
    have hH : HDRP c = c - 4 := by unfold HDRP WSIZE; exact psub_eq (by omega) (by omega)
    refine ⟨fun hbig => ?_, fun hsm => ?_⟩
    · obtain ⟨s', h1, _, h2, _, _, g1, g2, g3, g4, h3, _⟩ :=
        find_fit_split (by omega) hl hlen hsmall hsc hlo hend hdisj ha8 hbig
      have hHp : HDRP (c + sc - spec_asize size) = c + sc - spec_asize size - 4 := by
        unfold HDRP WSIZE; exact psub_eq (by omega) (by omega)
      exact ⟨s', h1, h2, by rw [hH, PACK_zero]; exact g1, by rw [PACK_zero]; exact g2,
        by rw [hHp, PACK_one ha8]; exact g3, by rw [PACK_one ha8]; exact g4, h3⟩
    · obtain ⟨s', h1, _, h2, _, _, g1, g2, h3⟩ :=
        find_fit_whole (by omega) hl hsep hlen hsmall hsc hlo hend hdisj hfit hsm (by omega)
      exact ⟨s', h1, h2, by rw [hH, PACK_one (by omega)]; exact g1,
        by rw [PACK_one (by omega)]; exact g2, h3⟩
  · intro hsmall hlo htop
    refine ⟨fun hroom => ?_, fun hfail => ?_⟩
    · obtain ⟨s', h1, _, h2, _, _, g1, g2, g3, h3, _⟩ :=
        find_fit_extend (by omega) hlo hl hsmall htop ha8 hroom
      have hH : HDRP s.mem_brk = s.mem_brk - 4 := by
        unfold HDRP WSIZE; exact psub_eq (by omega) (by omega)
      have hk : PACK 0 1 = 1 := by decide
      exact ⟨s', h1, h2, by rw [hH, PACK_one ha8]; exact g1, by rw [PACK_one ha8]; exact g2,
        by rw [hk]; exact g3, h3⟩
    · refine find_fit_of_sbrk_fail hbrk hmax (find_fit_loop_none hl hsmall) ?_
      unfold extend_heap mem_sbrk
      rw [padd_eq (a := spec_asize size) (by unfold WSIZE; omega), if_neg (by unfold WSIZE; omega)]

/-- The hypotheses of `mm_malloc_placement` hold in the state `st_two_free` with
the free list `[4224, 4144]`: `mm_malloc(1)` takes the whole first node `4224`, of
`32` bytes, and leaves the list `[4144]`. -/
theorem mm_malloc_placement_witness :
    ∃ s', mm_malloc st_two_free 1 = some (4224, s') ∧ s'.mem_brk = st_two_free.mem_brk ∧
      GET s' (HDRP 4224) = some (PACK 32 1) ∧ GET s' (4224 + 32) = some (PACK 32 1) ∧
      IsFreeList s' 0 s'.freel_head ([4224, 4144].erase 4224) :=
  ((mm_malloc_placement st_two_free 1 [4224, 4144] (by decide) (by decide) (by decide)
    (by decide)
    ⟨by decide, by decide, by decide, by decide, by decide, 4144, by decide,
      rfl, by decide, by decide, by decide, by decide, 0, by decide, rfl⟩
    (by unfold Separated; decide)).1 [] 4224 [4144] 32 rfl (by decide)
    (fun x hx => absurd hx (List.not_mem_nil x)) (by decide) (by decide) (by decide)
    (by decide) (by decide)).2 (by decide)

/-- C20 (the code breaks it).  Claim: on every state reachable by valid calls
`checkheap` prints no diagnostic and its five checks return `0`.  On the code:
(1) after `mm_init` and `mm_malloc(1)`, `checkheap(false)` prints
`Bad prologue header`, because the word before `heap_listp` is the header of the
first block (size `32`), not a tag of size `DSIZE`, and it prints the line of
`valid()`, which returns `1` as soon as a block pointer *is* inside the heap;
(2) after `a = mm_malloc(1); mm_malloc(1); mm_free(a)` the heap is the free block
`4104`, which is the one node of the free list, followed by an allocated block,
and `in_free_list()` returns `1` for it because both of its links are `NULL`.
The number `100` bounds the iterations of the loops of the checker; the runs end
well within it. -/
theorem checkheap_reports_on_sound_heap :
    (do
      let (_, s) ← mm_init (fresh 4096 65536 fun _ => 0)
      let (_, s) ← mm_malloc s 1
      checkheap s false 100) = some [Line.bad_prologue, Line.pointer_outside_heap] ∧
    (do
      let (_, s) ← mm_init (fresh 4096 65536 fun _ => 0)
      let (a, s) ← mm_malloc s 1
      let (_, s) ← mm_malloc s 1
      let s ← mm_free s a
      let bs ← blocks s
      let fl ← free_list s
      let c3 ← in_free_list s 100
      let c5 ← valid s 100
      let out ← checkheap s false 100
      some (bs, fl, c3, c5, out)) =
    some ([(4104, 32, 0), (4144, 32, 1)], [4104], 1, 1,
      [Line.bad_prologue, Line.free_block_not_in_list, Line.pointer_outside_heap]) := by
  decide

end MM
